import Mathlib

/-!
FBX DOM -> aiScene converter (`code/FBXConverter.cpp`)

A shallow embedding of the `Converter` class of `code/FBXConverter.cpp` and of
the cross product of `include/aiVector3D.h`, followed by theorems about it.

Conventions of the embedding

* C++ `float` is an abstract type `F` carrying only the operations the
  converter uses (`FloatOps`); no law of arithmetic is assumed of it.
* Objects that the source compares by address (`MeshGeometry`, `Material`)
  carry that address in a field `addr`; `std::map` keyed by a pointer is an
  association list kept in key order.
* Container sizes and indices are natural numbers; the `unsigned int` cursor
  of the face loop wraps at `2^32` (`uintSize`), as `cursor++` does.
* An array obtained by `new T[n]` is a list of length `n`; a read or write
  beyond the end of an array is the fault `Fault.outOfBounds`, a failing
  `ai_assert` in a build that has assertions is `Fault.assertion`.
* A data member the constructor leaves without initialiser starts with an
  arbitrary value, a parameter of `Converter.initial`.
* `ConvertNodes` recurses without a bound in the source; the model gives it a
  recursion budget and reports `Fault.outOfFuel` when it is used up.
* `aiMaterial.source` and `aiMesh.slotMaterial` are specification-only fields
  that record where an output object comes from; no function reads them.
-/

namespace Assimp.FBX

/-! ## Scalars and vectors -/

/-- Operations on the C++ type `float` used by the converter. -/
class FloatOps (F : Type) where
  /-- The literal `0.0f`. -/
  zero : F
  /-- The literal `0.8f`. -/
  lit08 : F
  /-- Multiplication `a * b`. -/
  mul : F → F → F
  /-- Subtraction `a - b`. -/
  sub : F → F → F

/-- Integers as a stand-in scalar, for evaluating the model on concrete data
(`lit08` is a placeholder here). -/
instance : FloatOps Int where
  zero := 0
  lit08 := 8
  mul := fun a b => a * b
  sub := fun a b => a - b

/-- Embeds `struct aiVector3D` of `include/aiVector3D.h`. -/
structure aiVector3D (F : Type) where
  x : F
  y : F
  z : F
deriving DecidableEq, Repr

/-- Embeds `struct aiVector2D`. -/
structure aiVector2D (F : Type) where
  x : F
  y : F
deriving DecidableEq, Repr

/-- Embeds `struct aiColor3D`. -/
structure aiColor3D (F : Type) where
  r : F
  g : F
  b : F
deriving DecidableEq, Repr

/-- Embeds `struct aiColor4D`. -/
structure aiColor4D (F : Type) where
  r : F
  g : F
  b : F
  a : F
deriving DecidableEq, Repr

section Vectors

variable {F : Type} [FloatOps F]

/-- Embeds `aiVector3D ()`, the default constructor: all components `0.0f`. -/
def aiVector3D.zero : aiVector3D F :=
  ⟨FloatOps.zero, FloatOps.zero, FloatOps.zero⟩

/-- Modelled from the spec: `aiColor4D` is missing from the sources; its default
constructor is taken to set all components to `0.0f`, like that of `aiVector3D`. -/
def aiColor4D.zero : aiColor4D F :=
  ⟨FloatOps.zero, FloatOps.zero, FloatOps.zero, FloatOps.zero⟩

/-- Embeds `operator ^ (v1, v2)`, the cross product of `include/aiVector3D.h`:
`(v1.y*v2.z - v1.z*v2.y, v1.z*v2.x - v1.x*v2.z, v1.x*v2.y - v1.y*v2.x)`. -/
def aiVector3D.cross (v1 v2 : aiVector3D F) : aiVector3D F :=
  ⟨FloatOps.sub (FloatOps.mul v1.y v2.z) (FloatOps.mul v1.z v2.y),
   FloatOps.sub (FloatOps.mul v1.z v2.x) (FloatOps.mul v1.x v2.z),
   FloatOps.sub (FloatOps.mul v1.x v2.y) (FloatOps.mul v1.y v2.x)⟩

/-- Embeds `operator *= (float f)` of `aiVector3D`: `x *= f; y *= f; z *= f`. -/
def aiVector3D.scale (v : aiVector3D F) (f : F) : aiVector3D F :=
  ⟨FloatOps.mul v.x f, FloatOps.mul v.y f, FloatOps.mul v.z f⟩

end Vectors

/-! ## Faults and the build configuration -/

/-- Ways in which a run of the converter leaves defined behaviour. -/
inductive Fault where
  /-- An element at or beyond the length of an array is read or written. -/
  | outOfBounds
  /-- An `ai_assert` fails in a build in which assertions are compiled in. -/
  | assertion
  /-- The recursion budget of the model is used up (the source has no such
  budget: there the recursion goes on). -/
  | outOfFuel
deriving DecidableEq, Repr

/-- What the headers that are not part of the converter fix at build time. -/
structure BuildConfig where
  /-- Whether `ai_assert` is compiled in (debug build) or expands to nothing. -/
  assertsEnabled : Bool
  /-- The constant `AI_MAX_NUMBER_OF_TEXTURECOORDS` of `aiMesh.h`. -/
  AI_MAX_NUMBER_OF_TEXTURECOORDS : Nat
  /-- The constant `AI_MAX_NUMBER_OF_COLOR_SETS` of `aiMesh.h`. -/
  AI_MAX_NUMBER_OF_COLOR_SETS : Nat
deriving DecidableEq, Repr

/-- Embeds `ai_assert(c)`: aborts when assertions are compiled in and `c` is false. -/
def ai_assert (cfg : BuildConfig) (c : Bool) : Except Fault Unit :=
  if cfg.assertsEnabled && !c then Except.error Fault.assertion else Except.ok ()

/-- Embeds `T* a = new T[n]; std::copy(src.begin(), src.end(), a)`: the first
`src.size()` elements of the fresh array are overwritten, the others keep
the default value; the copy runs past the array when `src.size() > n`. -/
def newArrayCopy {α : Type} (n : Nat) (dflt : α) (src : List α) : Except Fault (List α) :=
  if src.length ≤ n then Except.ok (src ++ List.replicate (n - src.length) dflt)
  else Except.error Fault.outOfBounds

/-! ## The source document (input) -/

/-- A value of a property table. -/
inductive PropValue (F : Type) where
  | vec3 (v : aiVector3D F)
  | float (f : F)
  | str (s : String)
deriving DecidableEq, Repr

/-- A `PropertyTable`: the properties of an object by name. -/
abbrev PropertyTable (F : Type) := List (String × PropValue F)

/-- An FBX `Texture` object. -/
structure Texture (F : Type) where
  RelativeFilename : String
  UVScaling : aiVector2D F
  UVTranslation : aiVector2D F
  Props : PropertyTable F
deriving DecidableEq, Repr

/-- An FBX `Material` object; `addr` is its address, the key of
`materials_converted`. `Textures` is the `TextureMap` from property name to
texture. -/
structure Material (F : Type) where
  addr : Nat
  Name : String
  Props : PropertyTable F
  Textures : List (String × Texture F)
deriving DecidableEq, Repr

/-- An FBX `MeshGeometry` object; `addr` is its address, the key of
`meshes_converted`. The fields are what the accessors `GetVertices`,
`GetFaceIndexCounts`, `GetNormals`, `GetTangents`, `GetBinormals`,
`GetTextureCoords(i)`, `GetTextureCoordChannelName(i)`, `GetVertexColors(i)`
and `GetMaterialIndices` return. -/
structure MeshGeometry (F : Type) where
  addr : Nat
  Name : String
  vertices : List (aiVector3D F)
  faces : List Nat
  normals : List (aiVector3D F)
  tangents : List (aiVector3D F)
  binormals : List (aiVector3D F)
  textureCoords : List (List (aiVector2D F))
  textureCoordChannelNames : List String
  vertexColors : List (List (aiColor4D F))
  materialIndices : List Nat
deriving DecidableEq, Repr

/-- Embeds `mesh.GetTextureCoords(i)`: channel `i`, empty when there is none. -/
def MeshGeometry.GetTextureCoords {F : Type} (g : MeshGeometry F) (i : Nat) :
    List (aiVector2D F) :=
  g.textureCoords.getD i []

/-- Embeds `mesh.GetTextureCoordChannelName(i)`: the name of channel `i`, empty
when there is none. -/
def MeshGeometry.GetTextureCoordChannelName {F : Type} (g : MeshGeometry F) (i : Nat) :
    String :=
  g.textureCoordChannelNames.getD i ""

/-- Embeds `mesh.GetVertexColors(i)`: colour set `i`, empty when there is none. -/
def MeshGeometry.GetVertexColors {F : Type} (g : MeshGeometry F) (i : Nat) :
    List (aiColor4D F) :=
  g.vertexColors.getD i []

/-- A `Geometry` object: a `MeshGeometry` or some other kind (for which the
`dynamic_cast` to `MeshGeometry` gives null). -/
inductive Geometry (F : Type) where
  | mesh (g : MeshGeometry F)
  | other (Name : String)
deriving DecidableEq, Repr

/-- An FBX `Model` object with its attached geometries and materials. -/
structure Model (F : Type) where
  ID : Nat
  Name : String
  GetGeometry : List (Geometry F)
  GetMaterials : List (Material F)
deriving DecidableEq, Repr

/-- A document object as seen through `dynamic_cast`. -/
inductive Object (F : Type) where
  | model (m : Model F)
  | geometry (g : Geometry F)
  | material (m : Material F)
  | texture (t : Texture F)
deriving DecidableEq, Repr

/-- A `Connection` from the object `src` to the object `dest`, with the
property name it is tagged with (empty for an object-object link). -/
structure Connection where
  src : Nat
  dest : Nat
  PropertyName : String
deriving DecidableEq, Repr

/-- The `Document`: `Objects` is the `ObjectMap` in iteration order, each id
with what `LazyObject::Get()` gives (`none` for a null pointer);
`connections` are the connections in document order. -/
structure Document (F : Type) where
  readAllMaterials : Bool
  Objects : List (Nat × Option (Object F))
  connections : List Connection
deriving DecidableEq, Repr

/-- Modelled from the spec: `Document::GetConnectionsByDestinationSequenced`
is not part of the converter; it gives all connections whose destination is
`id`, in the document's sequenced order. -/
def Document.GetConnectionsByDestinationSequenced {F : Type} (doc : Document F) (id : Nat) :
    List Connection :=
  doc.connections.filter (fun c => c.dest == id)

/-- Modelled from the spec: `Connection::SourceObject` is not part of the
converter; it resolves the source id in the document and is null when the
object is absent or fails to resolve. -/
def Connection.SourceObject {F : Type} (doc : Document F) (con : Connection) :
    Option (Object F) :=
  (doc.Objects.lookup con.src).join

/-- Modelled from the spec: `PropertyGet<aiVector3D>(props, name, ok)` is not
part of the converter; `some v` stands for `ok = true` with value `v`. -/
def PropertyGet_vec3 {F : Type} (props : PropertyTable F) (name : String) :
    Option (aiVector3D F) :=
  match props.lookup name with
  | some (PropValue.vec3 v) => some v
  | _ => none

/-- Modelled from the spec: `PropertyGet<float>(props, name, ok)`. -/
def PropertyGet_float {F : Type} (props : PropertyTable F) (name : String) : Option F :=
  match props.lookup name with
  | some (PropValue.float f) => some f
  | _ => none

/-- Modelled from the spec: `PropertyGet<std::string>(props, name, ok)`. -/
def PropertyGet_string {F : Type} (props : PropertyTable F) (name : String) : Option String :=
  match props.lookup name with
  | some (PropValue.str s) => some s
  | _ => none

/-! ## The output scene -/

/-- Embeds `enum aiTextureType`, the texture semantics the converter uses. -/
inductive aiTextureType where
  | NONE | DIFFUSE | SPECULAR | AMBIENT | EMISSIVE | HEIGHT | NORMALS
  | OPACITY | DISPLACEMENT | REFLECTION
deriving DecidableEq, Repr

/-- The material keys (`AI_MATKEY_*` macros) the converter writes. -/
inductive MatKey where
  | NAME | COLOR_DIFFUSE | COLOR_EMISSIVE | COLOR_AMBIENT | COLOR_SPECULAR
  | OPACITY | REFLECTIVITY | SHININESS_STRENGTH | SHININESS
  | TEXTURE_BASE | UVTRANSFORM_BASE | UVWSRC_BASE
deriving DecidableEq, Repr

/-- The value handed to `aiMaterial::AddProperty`. -/
inductive MatValue (F : Type) where
  | str (s : String)
  | color (c : aiColor3D F)
  | float (f : F)
  | uvTransform (mScaling mTranslation : aiVector2D F)
  | int (i : Int)
deriving DecidableEq, Repr

/-- One call `AddProperty(value, key, semantic, index)`. -/
structure MatProperty (F : Type) where
  key : MatKey
  semantic : aiTextureType
  index : Nat
  value : MatValue F
deriving DecidableEq, Repr

/-- An output `aiMaterial`: the `AddProperty` calls made on it, in order.
`source` is a specification-only field: the address of the source
`Material` a call of `ConvertMaterial` built it from, `none` for the
material built by `GetDefaultMaterial`. -/
structure aiMaterial (F : Type) where
  source : Option Nat
  props : List (MatProperty F)
deriving DecidableEq, Repr

/-- Modelled from the spec: `aiMaterial::AddProperty` is not part of the
converter; the model records the call. -/
def aiMaterial.AddProperty {F : Type} (m : aiMaterial F) (value : MatValue F) (key : MatKey)
    (semantic : aiTextureType) (index : Nat) : aiMaterial F :=
  { m with props := m.props ++ [⟨key, semantic, index, value⟩] }

/-- An output `aiMesh`. A null array pointer is `none`. `mTextureCoords`
and `mColors` list the leading channels that are not null (the converter
fills channels `0, 1, ...` and stops at the first it leaves out), with
`mNumUVComponents` alongside `mTextureCoords`. `mFaces` gives the index array
`mIndices` of every face. `slotMaterial` is a specification-only field: the
address of the source `Material` found at the mesh's material slot in the
owning model, `none` when the slot index is out of range there. -/
structure aiMesh (F : Type) where
  slotMaterial : Option Nat
  mPrimitiveTypes : Nat
  mVertices : List (aiVector3D F)
  mFaces : List (List Nat)
  mNormals : Option (List (aiVector3D F))
  mTangents : Option (List (aiVector3D F))
  mBitangents : Option (List (aiVector3D F))
  mTextureCoords : List (List (aiVector3D F))
  mNumUVComponents : List Nat
  mColors : List (List (aiColor4D F))
  mMaterialIndex : Nat
deriving DecidableEq, Repr

/-- Modelled from the spec: the enum `aiPrimitiveType` of `aiMesh.h` is missing
from the sources; `aiPrimitiveType_POINT` is the mask bit 0x1 as in that header. -/
def aiPrimitiveType_POINT : Nat := 0x1
/-- Modelled from the spec: `aiPrimitiveType_LINE`, the mask bit 0x2. -/
def aiPrimitiveType_LINE : Nat := 0x2
/-- Modelled from the spec: `aiPrimitiveType_TRIANGLE`, the mask bit 0x4. -/
def aiPrimitiveType_TRIANGLE : Nat := 0x4
/-- Modelled from the spec: `aiPrimitiveType_POLYGON`, the mask bit 0x8. -/
def aiPrimitiveType_POLYGON : Nat := 0x8

/-! ## `ConvertMesh`: the geometry part -/

/-- The `switch(pcount)` of `ConvertMesh`: the bit or-ed into
`mPrimitiveTypes` for a face of `pcount` indices. -/
def primitiveTypeOf (pcount : Nat) : Nat :=
  match pcount with
  | 1 => aiPrimitiveType_POINT
  | 2 => aiPrimitiveType_LINE
  | 3 => aiPrimitiveType_TRIANGLE
  | _ => aiPrimitiveType_POLYGON

/-- The number of values of the type `unsigned int`, 32 bits wide: arithmetic
on `unsigned int` wraps at this modulus. -/
def uintSize : Nat := 4294967296

/-- Embeds `for (i = 0; i < pcount; ++i) f.mIndices[i] = cursor++;` with `remaining`
iterations to go: the indices written and the cursor afterwards. The cursor is
an `unsigned int`, so `cursor++` wraps at `uintSize`. -/
def fillIndices : (remaining : Nat) → (cursor : Nat) → List Nat × Nat
  | 0, cursor => ([], cursor)
  | k + 1, cursor =>
    let r := fillIndices k ((cursor + 1) % uintSize)
    (cursor :: r.1, r.2)

/-- The variables of the face loop of `ConvertMesh`. -/
structure FaceLoopState where
  cursor : Nat
  mFaces : List (List Nat)
  mPrimitiveTypes : Nat
deriving DecidableEq, Repr

/-- One iteration of `BOOST_FOREACH(unsigned int pcount, faces)`. -/
def faceStep (st : FaceLoopState) (pcount : Nat) : FaceLoopState :=
  let r := fillIndices pcount st.cursor
  { cursor := r.2
    mFaces := st.mFaces ++ [r.1]
    mPrimitiveTypes := st.mPrimitiveTypes ||| primitiveTypeOf pcount }

/-- The face loop of `ConvertMesh` ("generate dummy faces"), started with
`cursor = 0` and `mPrimitiveTypes = 0`. -/
def generateFaces (faces : List Nat) : FaceLoopState :=
  faces.foldl faceStep ⟨0, [], 0⟩

section MeshBuilding

variable {F : Type} [FloatOps F]

/-- The loop `for (i = 0; i < tangents.size(); ++i) tempBinormals[i] =
normals[i] ^ tangents[i];` from index `i` with `remaining` iterations to go. -/
def synthBinormalsLoop (normals tangents : List (aiVector3D F)) :
    (remaining : Nat) → (i : Nat) → (tempBinormals : List (aiVector3D F)) →
    Except Fault (List (aiVector3D F))
  | 0, _, tempBinormals => Except.ok tempBinormals
  | k + 1, i, tempBinormals =>
    match normals[i]?, tangents[i]? with
    | some n, some t =>
      if i < tempBinormals.length then
        synthBinormalsLoop normals tangents k (i + 1) (tempBinormals.set i (n.cross t))
      else Except.error Fault.outOfBounds
    | _, _ => Except.error Fault.outOfBounds

/-- Embeds `tempBinormals.resize(normals.size());` followed by the synthesis loop. -/
def synthBinormals (normals tangents : List (aiVector3D F)) :
    Except Fault (List (aiVector3D F)) :=
  synthBinormalsLoop normals tangents tangents.length 0
    (List.replicate normals.length aiVector3D.zero)

/-- The value of the pointer `binormals` before `if(binormals)`: the source's
binormals, the synthesised ones, or null. -/
def resolveBinormals (normals tangents binormals : List (aiVector3D F)) :
    Except Fault (Option (List (aiVector3D F))) :=
  if binormals.length = 0 then
    if normals.length ≠ 0 then
      (synthBinormals normals tangents).map some
    else Except.ok none
  else Except.ok (some binormals)

/-- The block "copy tangents" of `ConvertMesh`: the arrays `mTangents` and
`mBitangents` of the output mesh. `normals` is the local variable of that
name. -/
def convertTangents (cfg : BuildConfig) (nverts : Nat)
    (normals tangents binormals : List (aiVector3D F)) :
    Except Fault (Option (List (aiVector3D F)) × Option (List (aiVector3D F))) :=
  if tangents.length ≠ 0 then
    (resolveBinormals normals tangents binormals).bind fun b? =>
      match b? with
      | some b =>
        (ai_assert cfg (tangents.length == nverts && b.length == nverts)).bind fun _ =>
        (newArrayCopy nverts aiVector3D.zero tangents).bind fun mTangents =>
        (newArrayCopy nverts aiVector3D.zero b).bind fun mBitangents =>
        Except.ok (some mTangents, some mBitangents)
      | none => Except.ok (none, none)
  else Except.ok (none, none)

/-- The block "copy normals" of `ConvertMesh`. -/
def convertNormals (cfg : BuildConfig) (nverts : Nat) (normals : List (aiVector3D F)) :
    Except Fault (Option (List (aiVector3D F))) :=
  if normals.length ≠ 0 then
    (ai_assert cfg (normals.length == nverts)).bind fun _ =>
    (newArrayCopy nverts aiVector3D.zero normals).map some
  else Except.ok none

/-- The loop "copy texture coords" from channel `i` with `remaining`
iterations to go: the channels written. -/
def copyTextureCoords (mesh : MeshGeometry F) (nverts : Nat) :
    (remaining : Nat) → (i : Nat) → Except Fault (List (List (aiVector3D F)))
  | 0, _ => Except.ok []
  | k + 1, i =>
    let uvs := mesh.GetTextureCoords i
    if uvs.isEmpty then Except.ok []
    else
      (newArrayCopy nverts aiVector3D.zero
        (uvs.map fun v => (⟨v.x, v.y, FloatOps.zero⟩ : aiVector3D F))).bind fun out_uv =>
      (copyTextureCoords mesh nverts k (i + 1)).bind fun rest =>
      Except.ok (out_uv :: rest)

/-- The loop "copy vertex colors" from set `i` with `remaining` iterations to
go: the colour sets written. -/
def copyVertexColors (mesh : MeshGeometry F) (nverts : Nat) :
    (remaining : Nat) → (i : Nat) → Except Fault (List (List (aiColor4D F)))
  | 0, _ => Except.ok []
  | k + 1, i =>
    let colors := mesh.GetVertexColors i
    if colors.isEmpty then Except.ok []
    else
      (newArrayCopy nverts aiColor4D.zero colors).bind fun out_c =>
      (copyVertexColors mesh nverts k (i + 1)).bind fun rest =>
      Except.ok (out_c :: rest)

/-- The part of `ConvertMesh` from "copy vertices" to "copy vertex colors":
the output mesh before its material index is set. The local variable
`normals` is bound to `mesh.GetVertices()`, as in the source. -/
def buildMesh (cfg : BuildConfig) (mesh : MeshGeometry F) : Except Fault (aiMesh F) :=
  let vertices := mesh.vertices
  let fl := generateFaces mesh.faces
  let normals := mesh.vertices
  (convertNormals cfg vertices.length normals).bind fun mNormals =>
  (convertTangents cfg vertices.length normals mesh.tangents mesh.binormals).bind fun tb =>
  (copyTextureCoords mesh vertices.length cfg.AI_MAX_NUMBER_OF_TEXTURECOORDS 0).bind fun uv =>
  (copyVertexColors mesh vertices.length cfg.AI_MAX_NUMBER_OF_COLOR_SETS 0).bind fun cols =>
  Except.ok
    { slotMaterial := none
      mPrimitiveTypes := fl.mPrimitiveTypes
      mVertices := vertices
      mFaces := fl.mFaces
      mNormals := mNormals
      mTangents := tb.1
      mBitangents := tb.2
      mTextureCoords := uv
      mNumUVComponents := uv.map fun _ => 2
      mColors := cols
      mMaterialIndex := 0 }

end MeshBuilding

/-! ## The converter state -/

/-- A line of the importer's log (`FBXImporter::LogWarn`, `LogError`). -/
inductive LogEntry where
  | warn (msg : String)
  | error (msg : String)
deriving DecidableEq, Repr

/-- An output `aiNode`. Nodes live in the arena `Converter.nodes`; a pointer
to a node is its position there. -/
structure aiNode where
  mName : String
  mParent : Option Nat
  mChildren : List Nat
  mMeshes : List Nat
deriving DecidableEq, Repr

/-- The output `aiScene`: `mRootNode` points into the node arena (`none` is
null), `mMeshes` and `mMaterials` are the flat lists. -/
structure aiScene (F : Type) where
  mRootNode : Option Nat
  mMeshes : List (aiMesh F)
  mMaterials : List (aiMaterial F)
deriving DecidableEq, Repr

/-- Find in a `std::map` kept as an association list. -/
def mapFind {β : Type} (m : List (Nat × β)) (k : Nat) : Option β :=
  match m with
  | [] => none
  | (k', v) :: rest => if k' = k then some v else mapFind rest k

/-- The assignment `m[k] = v` of a `std::map`: replaces the entry of `k` or
inserts one at its place in key order. -/
def mapInsert {β : Type} (m : List (Nat × β)) (k : Nat) (v : β) : List (Nat × β) :=
  match m with
  | [] => [(k, v)]
  | (k', v') :: rest =>
    if k < k' then (k, v) :: (k', v') :: rest
    else if k = k' then (k, v) :: rest
    else (k', v') :: mapInsert rest k v

/-- The data members of `class Converter`, with the node arena and the log.
`materials_converted` and `meshes_converted` are keyed by the address of the
source object; an entry of `meshes_converted` also holds the geometry the key
points to. -/
structure Converter (F : Type) where
  defaultMaterialIndex : Nat
  meshes : List (aiMesh F)
  materials : List (aiMaterial F)
  materials_converted : List (Nat × Nat)
  meshes_converted : List (Nat × MeshGeometry F × Nat)
  out : aiScene F
  nodes : List aiNode
  log : List LogEntry
deriving DecidableEq, Repr

/-- Embeds `FBXImporter::LogWarn(msg)`. -/
def Converter.LogWarn {F : Type} (s : Converter F) (msg : String) : Converter F :=
  { s with log := s.log ++ [LogEntry.warn msg] }

/-- Embeds `FBXImporter::LogError(msg)`. -/
def Converter.LogError {F : Type} (s : Converter F) (msg : String) : Converter F :=
  { s with log := s.log ++ [LogEntry.error msg] }

/-- The members as the constructor's initialiser list `out(out), doc(doc)`
leaves them: the containers are empty and `defaultMaterialIndex`, which has
no initialiser, holds whatever value `uninit` its memory held. The scene
handed in is a fresh, empty one. -/
def Converter.initial {F : Type} (uninit : Nat) : Converter F :=
  { defaultMaterialIndex := uninit
    meshes := []
    materials := []
    materials_converted := []
    meshes_converted := []
    out := { mRootNode := none, mMeshes := [], mMaterials := [] }
    nodes := []
    log := [] }

/-! ## Materials -/

section Materials

variable {F : Type} [FloatOps F]

/-- Embeds `GetColorPropertyFromMaterial(props, baseName, result)`: the colour and
the flag `result`. -/
def GetColorPropertyFromMaterial (props : PropertyTable F) (baseName : String) :
    aiColor3D F × Bool :=
  match PropertyGet_vec3 props baseName with
  | some Diffuse => (⟨Diffuse.x, Diffuse.y, Diffuse.z⟩, true)
  | none =>
    match PropertyGet_vec3 props (baseName ++ "Color") with
    | some DiffuseColor =>
      let DiffuseColor :=
        match PropertyGet_float props (baseName ++ "Factor") with
        | some DiffuseFactor => DiffuseColor.scale DiffuseFactor
        | none => DiffuseColor
      (⟨DiffuseColor.x, DiffuseColor.y, DiffuseColor.z⟩, true)
    | none => (⟨FloatOps.zero, FloatOps.zero, FloatOps.zero⟩, false)

/-- Embeds `if(ok) out_mat->AddProperty(&c, 1, key)` for a colour found by
`GetColorPropertyFromMaterial`. -/
def addColorIfOk (out_mat : aiMaterial F) (c : aiColor3D F × Bool) (key : MatKey) :
    aiMaterial F :=
  if c.2 then out_mat.AddProperty (MatValue.color c.1) key aiTextureType.NONE 0 else out_mat

/-- Embeds `if(ok) out_mat->AddProperty(&f, 1, key)` for a float found by
`PropertyGet<float>`. -/
def addFloatIfOk (out_mat : aiMaterial F) (f : Option F) (key : MatKey) : aiMaterial F :=
  match f with
  | some v => out_mat.AddProperty (MatValue.float v) key aiTextureType.NONE 0
  | none => out_mat

/-- Embeds `SetShadingPropertiesCommon(out_mat, props)`. -/
def SetShadingPropertiesCommon (out_mat : aiMaterial F) (props : PropertyTable F) :
    aiMaterial F :=
  let out_mat := addColorIfOk out_mat (GetColorPropertyFromMaterial props "Diffuse")
    MatKey.COLOR_EMISSIVE
  let out_mat := addColorIfOk out_mat (GetColorPropertyFromMaterial props "Emissive")
    MatKey.COLOR_EMISSIVE
  let out_mat := addColorIfOk out_mat (GetColorPropertyFromMaterial props "Ambient")
    MatKey.COLOR_AMBIENT
  let out_mat := addColorIfOk out_mat (GetColorPropertyFromMaterial props "Specular")
    MatKey.COLOR_SPECULAR
  let out_mat := addFloatIfOk out_mat (PropertyGet_float props "Opacity") MatKey.OPACITY
  let out_mat := addFloatIfOk out_mat (PropertyGet_float props "Reflectivity")
    MatKey.REFLECTIVITY
  let out_mat := addFloatIfOk out_mat (PropertyGet_float props "Shininess")
    MatKey.SHININESS_STRENGTH
  addFloatIfOk out_mat (PropertyGet_float props "ShininessExponent") MatKey.SHININESS

/-- The inner loop of `TrySetTextureProperties` over the UV channels of one
mesh, from channel `i` with `remaining` iterations to go: the value of
`index` after it (`-1` when no channel is named `uvSet`). -/
def findUVChannel (mesh : MeshGeometry F) (uvSet : String) :
    (remaining : Nat) → (i : Nat) → Int
  | 0, _ => -1
  | k + 1, i =>
    if (mesh.GetTextureCoords i).isEmpty then -1
    else if mesh.GetTextureCoordChannelName i = uvSet then (i : Int)
    else findUVChannel mesh uvSet k (i + 1)

/-- One iteration of `BOOST_FOREACH(const MeshMap::value_type& v,
meshes_converted)` in `TrySetTextureProperties`; the loop variables are
`uvIndex` and the log. -/
def uvSearchStep (cfg : BuildConfig) (uvSet : String) (matIndex : Nat)
    (st : Int × List LogEntry) (v : Nat × MeshGeometry F × Nat) : Int × List LogEntry :=
  let mesh := v.2.1
  let mats := mesh.materialIndices
  if !(mats.contains matIndex) then st
  else
    let index := findUVChannel mesh uvSet cfg.AI_MAX_NUMBER_OF_TEXTURECOORDS 0
    if index = -1 then
      (st.1, st.2 ++ [LogEntry.warn
        ("did not find UV channel named " ++ uvSet ++ " in a mesh using this material")])
    else if st.1 = -1 then (index, st.2)
    else
      (st.1, st.2 ++ [LogEntry.warn
        ("the UV channel named " ++ uvSet ++
          " appears at different positions in meshes, results will be wrong")])

/-- The computation of `uvIndex` in `TrySetTextureProperties`, with the log
lines it adds. `matIndex` is the position of `out_mat` in `materials`. -/
def resolveUVIndex (cfg : BuildConfig) (s : Converter F) (matIndex : Nat)
    (props : PropertyTable F) : Int × List LogEntry :=
  match PropertyGet_string props "UVSet" with
  | some uvSet =>
    if uvSet ≠ "default" ∧ uvSet.length ≠ 0 then
      let r := s.meshes_converted.foldl (uvSearchStep cfg uvSet matIndex) (-1, [])
      if r.1 = -1 then
        (0, r.2 ++ [LogEntry.warn
          ("failed to resolve UV channel " ++ uvSet ++ ", using first UV channel")])
      else r
    else (0, [])
  | none => (0, [])

/-- Embeds `TrySetTextureProperties(out_mat, textures, propName, target)`: the
material after the call and the log lines the call emits. The pointer
`out_mat` is given by the material under construction and by `matIndex`, its
position in `materials`, which is what the source finds with `std::find`; of
the converter state the function reads `meshes_converted` only. -/
def TrySetTextureProperties (cfg : BuildConfig) (s : Converter F) (matIndex : Nat)
    (out_mat : aiMaterial F) (textures : List (String × Texture F)) (propName : String)
    (target : aiTextureType) : aiMaterial F × List LogEntry :=
  match textures.lookup propName with
  | none => (out_mat, [])
  | some tex =>
    let out_mat := out_mat.AddProperty (MatValue.str tex.RelativeFilename)
      MatKey.TEXTURE_BASE target 0
    let out_mat := out_mat.AddProperty (MatValue.uvTransform tex.UVScaling tex.UVTranslation)
      MatKey.UVTRANSFORM_BASE target 0
    let r := resolveUVIndex cfg s matIndex tex.Props
    (out_mat.AddProperty (MatValue.int r.1) MatKey.UVWSRC_BASE target 0, r.2)

/-- The nine calls of `SetTextureProperties`, in order. -/
def textureSlots : List (String × aiTextureType) :=
  [("DiffuseColor", aiTextureType.DIFFUSE), ("AmbientColor", aiTextureType.AMBIENT),
   ("EmissiveColor", aiTextureType.EMISSIVE), ("SpecularColor", aiTextureType.SPECULAR),
   ("TransparentColor", aiTextureType.OPACITY), ("ReflectionColor", aiTextureType.REFLECTION),
   ("DisplacementColor", aiTextureType.DISPLACEMENT), ("NormalMap", aiTextureType.NORMALS),
   ("Bump", aiTextureType.HEIGHT)]

/-- Embeds `SetTextureProperties(out_mat, textures)`: the material after the nine
calls and the log lines they emit. -/
def SetTextureProperties (cfg : BuildConfig) (s : Converter F) (matIndex : Nat)
    (out_mat : aiMaterial F) (textures : List (String × Texture F)) :
    aiMaterial F × List LogEntry :=
  textureSlots.foldl
    (fun acc slot =>
      let r := TrySetTextureProperties cfg s matIndex acc.1 textures slot.1 slot.2
      (r.1, acc.2 ++ r.2))
    (out_mat, [])

/-- Embeds `ConvertMaterial(material)`: the index returned and the state after.
The source pushes the pointer `out_mat` on `materials` before it fills the
material; nothing reads the elements of `materials` in between, so the model
appends the finished material and hands its position to the texture code. -/
def ConvertMaterial (cfg : BuildConfig) (material : Material F) (s : Converter F) :
    Nat × Converter F :=
  let props := material.Props
  let matIndex := s.materials.length
  let s := { s with materials_converted := mapInsert s.materials_converted material.addr matIndex }
  let out_mat : aiMaterial F := { source := some material.addr, props := [] }
  let out_mat := out_mat.AddProperty (MatValue.str material.Name) MatKey.NAME aiTextureType.NONE 0
  let out_mat := SetShadingPropertiesCommon out_mat props
  let r := SetTextureProperties cfg s matIndex out_mat material.Textures
  let s := { s with materials := s.materials ++ [r.1], log := s.log ++ r.2 }
  (s.materials.length - 1, s)

/-- Embeds `GetDefaultMaterial()`: the index returned and the state after. -/
def GetDefaultMaterial (s : Converter F) : Nat × Converter F :=
  if s.defaultMaterialIndex ≠ 0 then (s.defaultMaterialIndex - 1, s)
  else
    let out_mat : aiMaterial F := { source := none, props := [] }
    let out_mat := out_mat.AddProperty
      (MatValue.color ⟨FloatOps.lit08, FloatOps.lit08, FloatOps.lit08⟩)
      MatKey.COLOR_DIFFUSE aiTextureType.NONE 0
    let out_mat := out_mat.AddProperty (MatValue.str "DefaultMaterial")
      MatKey.NAME aiTextureType.NONE 0
    let materials := s.materials ++ [out_mat]
    let s := { s with materials := materials, defaultMaterialIndex := materials.length }
    (s.defaultMaterialIndex - 1, s)

/-- Embeds `ConvertMaterialForMesh(out, model, geo, materialIndex)`: the value
assigned to `out->mMaterialIndex` and the state after. `mats[materialIndex]?`
is `none` exactly when `materialIndex >= mats.size()`. -/
def ConvertMaterialForMesh (cfg : BuildConfig) (model : Model F) (materialIndex : Nat)
    (s : Converter F) : Nat × Converter F :=
  let mats := model.GetMaterials
  match mats[materialIndex]? with
  | none => GetDefaultMaterial (s.LogError "material index out of bounds, ignoring")
  | some mat =>
    match mapFind s.materials_converted mat.addr with
    | some i => (i, s)
    | none =>
      let r := ConvertMaterial cfg mat s
      (r.1, { r.2 with materials_converted := mapInsert r.2.materials_converted mat.addr r.1 })

end Materials

/-! ## Meshes, models, nodes and the conversion as a whole -/

section Conversion

variable {F : Type} [FloatOps F]

/-- Embeds `ConvertMesh(mesh, model)`: the value returned (mesh index + 1, or 0 when
no mesh is produced) and the state after. The source pushes the pointer
`out_mesh` on `meshes` before it fills the mesh; nothing reads the elements of
`meshes` in between, so the model appends the finished mesh, while
`meshes_converted` is updated before the material is resolved, as in the
source. -/
def ConvertMesh (cfg : BuildConfig) (mesh : MeshGeometry F) (model : Model F)
    (s : Converter F) : Except Fault (Nat × Converter F) :=
  match mapFind s.meshes_converted mesh.addr with
  | some it => Except.ok (it.2 + 1, s)
  | none =>
    if mesh.vertices.isEmpty || mesh.faces.isEmpty then
      Except.ok (0, s.LogWarn ("ignoring empty geometry: " ++ mesh.Name))
    else
      let s1 := { s with
        meshes_converted := mapInsert s.meshes_converted mesh.addr (mesh, s.meshes.length) }
      (buildMesh cfg mesh).bind fun out_mesh =>
      let mindices := mesh.materialIndices
      let r := ConvertMaterialForMesh cfg model (mindices.headD 0) s1
      let out_mesh := { out_mesh with
        mMaterialIndex := r.1
        slotMaterial := (model.GetMaterials[mindices.headD 0]?).map fun mat => mat.addr }
      let s2 := { r.2 with meshes := r.2.meshes ++ [out_mesh] }
      Except.ok (s2.meshes.length, s2)

/-- One iteration of `BOOST_FOREACH(const Geometry* geo, geos)` in
`ConvertModel`; the loop variables are the local vector `meshes` and the
converter state. -/
def convertModelStep (cfg : BuildConfig) (model : Model F)
    (st : List Nat × Converter F) (geo : Geometry F) : Except Fault (List Nat × Converter F) :=
  match geo with
  | Geometry.mesh mesh =>
    (ConvertMesh cfg mesh model st.2).bind fun r =>
      if r.1 = 0 then Except.ok (st.1, r.2)
      else Except.ok (st.1 ++ [r.1 - 1], r.2)
  | Geometry.other name =>
    Except.ok (st.1, st.2.LogWarn ("ignoring unrecognized geometry: " ++ name))

/-- Assignment through a node pointer: the node at `nd` is replaced by
`f` of it. -/
def Converter.modifyNode (s : Converter F) (nd : Nat) (f : aiNode → aiNode) : Converter F :=
  { s with nodes := s.nodes.modify f nd }

/-- Embeds `new aiNode()`: the pointer to the fresh node and the state after. -/
def Converter.newNode (s : Converter F) : Nat × Converter F :=
  (s.nodes.length,
   { s with nodes := s.nodes ++ [{ mName := "", mParent := none, mChildren := [], mMeshes := [] }] })

/-- Embeds `ConvertModel(model, nd)`, `nd` a pointer into the node arena. -/
def ConvertModel (cfg : BuildConfig) (model : Model F) (nd : Nat) (s : Converter F) :
    Except Fault (Converter F) :=
  (model.GetGeometry.foldlM (convertModelStep cfg model) (([] : List Nat), s)).bind fun r =>
    let meshes := r.1
    if meshes.length ≠ 0 then
      Except.ok (r.2.modifyNode nd fun n => { n with mMeshes := meshes })
    else Except.ok r.2

/-- Embeds `ConvertNodes(id, parent)` with a recursion budget `fuel`; `parent` is a
pointer into the node arena. The local vector `nodes` is declared and
reserved but nothing is pushed on it. -/
def ConvertNodes (cfg : BuildConfig) (doc : Document F) :
    (fuel : Nat) → (id : Nat) → (parent : Nat) → Converter F → Except Fault (Converter F)
  | 0, _, _, _ => Except.error Fault.outOfFuel
  | fuel + 1, id, parent, s =>
    let conns := doc.GetConnectionsByDestinationSequenced id
    let nodes : List Nat := []
    (conns.foldlM
      (fun (s : Converter F) (con : Connection) =>
        if con.PropertyName.length ≠ 0 then Except.ok s
        else
          match con.SourceObject doc with
          | none => Except.ok (s.LogWarn "failed to convert source object for node link")
          | some (Object.model model) =>
            let a := s.newNode
            let nd := a.1
            let s := a.2.modifyNode nd fun n => { n with mName := model.Name }
            let s := s.modifyNode nd fun n => { n with mParent := some parent }
            (ConvertModel cfg model nd s).bind fun s =>
            ConvertNodes cfg doc fuel model.ID nd s
          | some _ => Except.ok s)
      s).bind fun s =>
    if nodes.length ≠ 0 then
      Except.ok (s.modifyNode parent fun n => { n with mChildren := nodes })
    else Except.ok s

/-- Embeds `ConvertRootNode()`. -/
def ConvertRootNode (cfg : BuildConfig) (doc : Document F) (fuel : Nat) (s : Converter F) :
    Except Fault (Converter F) :=
  let a := s.newNode
  let s := { a.2 with out := { a.2.out with mRootNode := some a.1 } }
  let s := s.modifyNode a.1 fun n => { n with mName := "Model::RootNode" }
  ConvertNodes cfg doc fuel 0 a.1 s

/-- One iteration of `BOOST_FOREACH(const ObjectMap::value_type& v,
doc.Objects())` in the constructor. -/
def readAllMaterialsStep (cfg : BuildConfig) (s : Converter F) (v : Nat × Option (Object F)) :
    Converter F :=
  match v.2 with
  | some (Object.material mat) =>
    if mapFind s.materials_converted mat.addr = none then (ConvertMaterial cfg mat s).2
    else s
  | _ => s

/-- Embeds `TransferDataToScene()`: the scene after the transfer. -/
def TransferDataToScene (cfg : BuildConfig) (s : Converter F) : Except Fault (aiScene F) :=
  (ai_assert cfg s.out.mMeshes.isEmpty).bind fun _ =>
  let out := { s.out with mMeshes := s.meshes }
  if s.materials.length ≠ 0 then Except.ok { out with mMaterials := s.materials }
  else Except.ok out

/-- What a conversion leaves behind: the scene, the node arena its node
pointers refer to, and the log. -/
structure ConversionResult (F : Type) where
  scene : aiScene F
  nodes : List aiNode
  log : List LogEntry
deriving DecidableEq, Repr

/-- The constructor `Converter(out, doc)` up to the call of
`TransferDataToScene`: the converter state just before the transfer. -/
def Converter.beforeTransfer (cfg : BuildConfig) (doc : Document F) (uninit fuel : Nat) :
    Except Fault (Converter F) :=
  (ConvertRootNode cfg doc fuel (Converter.initial uninit)).bind fun s =>
  let s := if doc.readAllMaterials then doc.Objects.foldl (readAllMaterialsStep cfg) s else s
  let a := s.newNode
  let s := { a.2 with out := { a.2.out with mRootNode := some a.1 } }
  Except.ok (s.modifyNode a.1 fun n => { n with mMeshes := List.range s.meshes.length })

/-- Embeds `ConvertToAssimpScene(out, doc)`, that is the constructor `Converter(out,
doc)`: `uninit` is the value the uninitialised member `defaultMaterialIndex`
starts with, `fuel` the recursion budget of `ConvertNodes`. -/
def ConvertToAssimpScene (cfg : BuildConfig) (doc : Document F) (uninit fuel : Nat) :
    Except Fault (ConversionResult F) :=
  (Converter.beforeTransfer cfg doc uninit fuel).bind fun s =>
  (TransferDataToScene cfg s).bind fun scene =>
  Except.ok { scene := scene, nodes := s.nodes, log := s.log }

end Conversion

/-! ## Specification predicates and example data -/

section Predicates

variable {F : Type}

/-- Every per-vertex array of the geometry that the converter reads is empty
or has as many entries as there are vertices. -/
def MeshGeometry.SizesAgree (g : MeshGeometry F) : Prop :=
  (g.tangents.length = 0 ∨ g.tangents.length = g.vertices.length) ∧
  (g.binormals.length = 0 ∨ g.binormals.length = g.vertices.length) ∧
  (∀ uvs ∈ g.textureCoords, uvs.length = 0 ∨ uvs.length = g.vertices.length) ∧
  (∀ c ∈ g.vertexColors, c.length = 0 ∨ c.length = g.vertices.length)

instance (g : MeshGeometry F) : Decidable g.SizesAgree := by
  unfold MeshGeometry.SizesAgree
  infer_instance

/-- A property of the converter state that ignores the node arena, the log
and the root pointer of the scene. -/
def FrameStable (P : Converter F → Prop) : Prop :=
  ∀ s s' : Converter F, P s → s'.defaultMaterialIndex = s.defaultMaterialIndex →
    s'.meshes = s.meshes → s'.materials = s.materials →
    s'.materials_converted = s.materials_converted →
    s'.meshes_converted = s.meshes_converted →
    s'.out.mMeshes = s.out.mMeshes → s'.out.mMaterials = s.out.mMaterials → P s'

/-- The material bookkeeping is consistent: an entry of `materials_converted`
points to the output material converted from its key, every output material
converted from a source material sits where that source's entry points, and
a mesh whose slot holds a source material carries the index of that
material's entry. -/
structure Converter.MaterialsConsistent (s : Converter F) : Prop where
  cache_sound : ∀ a i, mapFind s.materials_converted a = some i →
    ∃ m, s.materials[i]? = some m ∧ m.source = some a
  cache_complete : ∀ i m a, s.materials[i]? = some m → m.source = some a →
    mapFind s.materials_converted a = some i
  mesh_slot : ∀ m ∈ s.meshes, ∀ a, m.slotMaterial = some a →
    mapFind s.materials_converted a = some m.mMaterialIndex

/-- Until `TransferDataToScene` the flat lists of the scene are empty. -/
def Converter.SceneUntouched (s : Converter F) : Prop :=
  s.out.mMeshes = [] ∧ s.out.mMaterials = []

/-- The default-material bookkeeping is consistent: a non-zero
`defaultMaterialIndex` is one more than the index of a material built by
`GetDefaultMaterial`, and a mesh whose slot holds no source material carries
that index. -/
structure Converter.DefaultConsistent (s : Converter F) : Prop where
  default_sound : s.defaultMaterialIndex ≠ 0 →
    ∃ mat, s.materials[s.defaultMaterialIndex - 1]? = some mat ∧ mat.source = none
  mesh_default : ∀ m ∈ s.meshes, m.slotMaterial = none →
    m.mMaterialIndex + 1 = s.defaultMaterialIndex

/-- Channel `k` is the first UV channel named `uvSet` among the leading
non-empty channels of the mesh, below the channel maximum `max`. -/
def MeshGeometry.ChannelNamed (mesh : MeshGeometry F) (max : Nat) (uvSet : String) (k : Nat) :
    Prop :=
  k < max ∧ (∀ j, j ≤ k → mesh.GetTextureCoords j ≠ []) ∧
    mesh.GetTextureCoordChannelName k = uvSet ∧
    ∀ j, j < k → mesh.GetTextureCoordChannelName j ≠ uvSet

/-- Every output material comes from the default or from the source material
in the slot of some mesh of the list. -/
def Converter.MaterialsFromMeshes (s : Converter F) : Prop :=
  ∀ m ∈ s.materials, m.source = none ∨ ∃ mesh ∈ s.meshes, mesh.slotMaterial = m.source

/-- The model objects of the document. -/
def Document.models (doc : Document F) : List (Model F) :=
  doc.Objects.filterMap fun v =>
    match v.2 with
    | some (Object.model m) => some m
    | _ => none

/-- Mesh indices are in range: every index recorded in the mesh cache or
stored on a node is an index into the mesh list, and no node has children. -/
structure Converter.NodeMeshesBounded (s : Converter F) : Prop where
  cache : ∀ k e, mapFind s.meshes_converted k = some e → e.2 < s.meshes.length
  nodes : ∀ node ∈ s.nodes, node.mChildren = [] ∧ ∀ i ∈ node.mMeshes, i < s.meshes.length

/-- Addresses identify the mesh geometries of the document: two mesh
geometries attached to models of the document that have the same address are
the same geometry. -/
def Document.AddressesIdentify (doc : Document F) : Prop :=
  ∀ m1 ∈ doc.models, ∀ m2 ∈ doc.models, ∀ g1 g2,
    Geometry.mesh g1 ∈ m1.GetGeometry → Geometry.mesh g2 ∈ m2.GetGeometry →
    g1.addr = g2.addr → g1 = g2

/-- The mesh cache is sound for the document: an entry is keyed by the
address of its geometry, the geometry is non-empty and attached to a model of
the document, and the entry's index holds a mesh with the vertices of the
geometry. -/
def Converter.MeshCacheSound (doc : Document F) (s : Converter F) : Prop :=
  ∀ k g i, mapFind s.meshes_converted k = some (g, i) →
    g.addr = k ∧ g.vertices ≠ [] ∧ g.faces ≠ [] ∧
    (∃ model ∈ doc.models, Geometry.mesh g ∈ model.GetGeometry) ∧
    ∃ m, s.meshes[i]? = some m ∧ m.mVertices = g.vertices

/-- The later state keeps every cache entry and every mesh of the earlier. -/
def Converter.Extends (s t : Converter F) : Prop :=
  (∀ k e, mapFind s.meshes_converted k = some e → mapFind t.meshes_converted k = some e) ∧
  ∀ (i : Nat) m, s.meshes[i]? = some m → t.meshes[i]? = some m

/-- The mesh geometries attached to a model that have at least one vertex and
at least one face, in attachment order. -/
def Model.nonEmptyMeshes (model : Model F) : List (MeshGeometry F) :=
  model.GetGeometry.filterMap fun geo =>
    match geo with
    | Geometry.mesh g => if g.vertices.isEmpty || g.faces.isEmpty then none else some g
    | Geometry.other _ => none

/-- The geometries `gs` have the meshes at the indices `is`, one by one: index
`i` holds a mesh with the vertices of its geometry. -/
def MeshesOf (meshes : List (aiMesh F)) (gs : List (MeshGeometry F)) (is : List Nat) : Prop :=
  List.Forall₂ (fun g i => ∃ m, meshes[i]? = some m ∧ m.mVertices = g.vertices) gs is

/-- A node is parentless or was built for a model of the document: it has the
model's name and lists, in attachment order, the indices of the meshes of the
model's non-empty mesh geometries. -/
def NodeOfModel (doc : Document F) (meshes : List (aiMesh F)) (node : aiNode) : Prop :=
  node.mParent = none ∨ ∃ model ∈ doc.models, node.mName = model.Name ∧
    MeshesOf meshes model.nonEmptyMeshes node.mMeshes

/-- Every node of the arena is parentless or built for a model, and the mesh
cache is sound. -/
structure Converter.NodesOfModels (doc : Document F) (s : Converter F) : Prop where
  cache : s.MeshCacheSound doc
  nodes : ∀ node ∈ s.nodes, NodeOfModel doc s.meshes node

end Predicates

/-- An example build: assertions off, four UV channels and colour sets. -/
def exampleConfig : BuildConfig := ⟨false, 4, 4⟩

/-- An example geometry over integer scalars with the given address,
vertices, face sizes, normals and tangents, and nothing else. -/
def exampleGeometry (addr : Nat) (vertices : List (aiVector3D Int)) (faces : List Nat)
    (normals tangents : List (aiVector3D Int)) : MeshGeometry Int :=
  { addr := addr, Name := "Geometry::example", vertices := vertices, faces := faces,
    normals := normals, tangents := tangents, binormals := [], textureCoords := [],
    textureCoordChannelNames := [], vertexColors := [], materialIndices := [] }

/-- An example model that owns the given geometry and materials. -/
def exampleModel (geos : List (Geometry Int)) (mats : List (Material Int)) : Model Int :=
  { ID := 1, Name := "Model::example", GetGeometry := geos, GetMaterials := mats }

/-- One vertex and the single face size `0`. -/
def zeroFaceGeometry : MeshGeometry Int :=
  exampleGeometry 100 [⟨1, 0, 0⟩] [0] [] []

/-- One vertex at `(1,0,0)` with normal `(0,0,1)` and tangent `(0,1,0)`, and
no binormals. -/
def tangentGeometry : MeshGeometry Int :=
  exampleGeometry 100 [⟨1, 0, 0⟩] [1] [⟨0, 0, 1⟩] [⟨0, 1, 0⟩]

/-- One vertex at `(1,0,0)` with tangent `(0,1,0)`, no normals and no
binormals. -/
def tangentOnlyGeometry : MeshGeometry Int :=
  exampleGeometry 100 [⟨1, 0, 0⟩] [1] [] [⟨0, 1, 0⟩]

/-- Eight vertices in faces of sizes 3, 4 and 1. -/
def mixedFaceGeometry : MeshGeometry Int :=
  exampleGeometry 100 (List.replicate 8 ⟨0, 0, 0⟩) [3, 4, 1] [] []

/-- One vertex and the face sizes 4294967295 and 2, which sum to more than
2^32. -/
def wrappingFaceGeometry : MeshGeometry Int :=
  exampleGeometry 100 [⟨0, 0, 0⟩] [4294967295, 2] [] []

/-- As many as 4294967297 vertices in faces of the sizes 4294967295 and 2. -/
def wrappingVertexGeometry : MeshGeometry Int :=
  exampleGeometry 100 (List.replicate 4294967297 ⟨0, 0, 0⟩) [4294967295, 2] [] []

/-- An example source material at address 500. -/
def sharedMaterial : Material Int :=
  { addr := 500, Name := "Material::shared", Props := [], Textures := [] }

/-- A document with two models under the root, each with its own one-vertex
mesh geometry, both using `sharedMaterial`. -/
def sharedMaterialDocument : Document Int :=
  { readAllMaterials := true
    Objects :=
      [(1, some (Object.model
          { ID := 1, Name := "Model::a"
            GetGeometry := [Geometry.mesh (exampleGeometry 100 [⟨1, 0, 0⟩] [1] [] [])]
            GetMaterials := [sharedMaterial] })),
       (2, some (Object.model
          { ID := 2, Name := "Model::b"
            GetGeometry := [Geometry.mesh (exampleGeometry 200 [⟨0, 1, 0⟩] [1] [] [])]
            GetMaterials := [sharedMaterial] })),
       (3, some (Object.material sharedMaterial))]
    connections := [⟨1, 0, ""⟩, ⟨2, 0, ""⟩] }

/-- A document with one model under the root whose only geometry has one
vertex and whose material list is empty. -/
def noMaterialDocument : Document Int :=
  { readAllMaterials := false
    Objects :=
      [(1, some (Object.model
          { ID := 1, Name := "Model::a"
            GetGeometry := [Geometry.mesh (exampleGeometry 100 [⟨1, 0, 0⟩] [1] [] [])]
            GetMaterials := [] }))]
    connections := [⟨1, 0, ""⟩] }

/-- An example geometry with one vertex, one face, a non-empty UV channel for
each of the given channel names, and the given material indices. -/
def uvGeometry (addr : Nat) (names : List String) (materialIndices : List Nat) :
    MeshGeometry Int :=
  { addr := addr, Name := "Geometry::uv", vertices := [⟨0, 0, 0⟩], faces := [1],
    normals := [], tangents := [], binormals := [],
    textureCoords := names.map fun _ => [⟨0, 0⟩],
    textureCoordChannelNames := names, vertexColors := [], materialIndices := materialIndices }

/-- An example texture that asks for the UV set named "UV2". -/
def uvTexture : Texture Int :=
  { RelativeFilename := "texture.png", UVScaling := ⟨1, 1⟩, UVTranslation := ⟨0, 0⟩,
    Props := [("UVSet", PropValue.str "UV2")] }

/-- An example material that binds `uvTexture` as its diffuse texture. -/
def uvMaterial (addr : Nat) : Material Int :=
  { addr := addr, Name := "Material::uv", Props := [], Textures := [("DiffuseColor", uvTexture)] }

/-- Mesh A of the UV examples: channels "UV1", "UV2", material index 0. -/
def uvMeshA : MeshGeometry Int := uvGeometry 100 ["UV1", "UV2"] [0]

/-- Mesh B of the UV examples: the single channel "UV1", material index 0. -/
def uvMeshB : MeshGeometry Int := uvGeometry 200 ["UV1"] [0]

/-- A document with one model under the root that has the geometries B and A
attached in this order and the one material `uvMaterial 500`. -/
def uvOrderDocument : Document Int :=
  { readAllMaterials := false
    Objects :=
      [(1, some (Object.model
          { ID := 1, Name := "Model::a"
            GetGeometry := [Geometry.mesh uvMeshB, Geometry.mesh uvMeshA]
            GetMaterials := [uvMaterial 500] }))]
    connections := [⟨1, 0, ""⟩] }

/-- A document with one model under the root that has the geometries A
("UV1", "UV2") and B ("UV1") attached in this order, both using material slot
1, and the materials `sharedMaterial` in slot 0 and `uvMaterial 600` in slot 1. -/
def uvSlotDocument : Document Int :=
  { readAllMaterials := false
    Objects :=
      [(1, some (Object.model
          { ID := 1, Name := "Model::a"
            GetGeometry := [Geometry.mesh (uvGeometry 100 ["UV1", "UV2"] [1]),
              Geometry.mesh (uvGeometry 200 ["UV1"] [1])]
            GetMaterials := [sharedMaterial, uvMaterial 600] }))]
    connections := [⟨1, 0, ""⟩] }

/-- A converter state whose mesh cache holds A and B. -/
def uvCacheState : Converter Int :=
  { (Converter.initial 0 : Converter Int) with
    meshes_converted := [(100, (uvMeshA, 0)), (200, (uvMeshB, 1))] }

/-- A document with two models under the root; each has one geometry with the
single UV channel "UV2" and the materials `sharedMaterial`, `uvMaterial 600`.
The first geometry uses material slots 0 and 1, the second slot 1. -/
def uvAgreeDocument : Document Int :=
  { readAllMaterials := false
    Objects :=
      [(1, some (Object.model
          { ID := 1, Name := "Model::a"
            GetGeometry := [Geometry.mesh (uvGeometry 100 ["UV2"] [0, 1])]
            GetMaterials := [sharedMaterial, uvMaterial 600] })),
       (2, some (Object.model
          { ID := 2, Name := "Model::b"
            GetGeometry := [Geometry.mesh (uvGeometry 200 ["UV2"] [1])]
            GetMaterials := [sharedMaterial, uvMaterial 600] }))]
    connections := [⟨1, 0, ""⟩, ⟨2, 0, ""⟩] }

/-- A document with one model under the root whose only geometry has one
vertex and one face and no material, with a material object that no model
uses, and the eager pass over all materials on. -/
def unusedMaterialDocument : Document Int :=
  { readAllMaterials := true
    Objects :=
      [(1, some (Object.model
          { ID := 1, Name := "Model::a"
            GetGeometry := [Geometry.mesh (exampleGeometry 100 [⟨1, 0, 0⟩] [1] [] [])]
            GetMaterials := [] })),
       (3, some (Object.material sharedMaterial))]
    connections := [⟨1, 0, ""⟩] }

/-- A document with two models under the root: the first has an empty
geometry, a geometry of another kind and a one-vertex mesh geometry, the
second has the same mesh geometry and one more. -/
def nodeMeshesDocument : Document Int :=
  { readAllMaterials := false
    Objects :=
      [(1, some (Object.model
          { ID := 1, Name := "Model::a"
            GetGeometry := [Geometry.mesh (exampleGeometry 300 [] [] [] []),
              Geometry.other "Geometry::line",
              Geometry.mesh (exampleGeometry 100 [⟨1, 0, 0⟩] [1] [] [])]
            GetMaterials := [] })),
       (2, some (Object.model
          { ID := 2, Name := "Model::b"
            GetGeometry := [Geometry.mesh (exampleGeometry 200 [⟨0, 1, 0⟩] [1] [] []),
              Geometry.mesh (exampleGeometry 100 [⟨1, 0, 0⟩] [1] [] [])]
            GetMaterials := [] }))]
    connections := [⟨1, 0, ""⟩, ⟨2, 0, ""⟩] }

/-- A document whose only model is connected to the root and to itself. -/
def selfLoopDocument : Document Int :=
  { readAllMaterials := false
    Objects :=
      [(1, some (Object.model
          { ID := 1, Name := "Model::a", GetGeometry := [], GetMaterials := [] }))]
    connections := [⟨1, 0, ""⟩, ⟨1, 1, ""⟩] }

/-- A document with two models: the first is connected to the root, the second
to the first and the first to the second. -/
def cycleDocument : Document Int :=
  { readAllMaterials := false
    Objects :=
      [(1, some (Object.model
          { ID := 1, Name := "Model::a", GetGeometry := [], GetMaterials := [] })),
       (2, some (Object.model
          { ID := 2, Name := "Model::b", GetGeometry := [], GetMaterials := [] }))]
    connections := [⟨1, 0, ""⟩, ⟨2, 1, ""⟩, ⟨1, 2, ""⟩] }

/-- A build in which `ai_assert` is compiled in. -/
def debugConfig : BuildConfig := ⟨true, 4, 4⟩

/-- One vertex, one face, and a first UV channel with two entries. -/
def longUVGeometry : MeshGeometry Int :=
  { addr := 100, Name := "Geometry::uv", vertices := [⟨0, 0, 0⟩], faces := [1],
    normals := [], tangents := [], binormals := [],
    textureCoords := [[⟨0, 0⟩, ⟨1, 1⟩]],
    textureCoordChannelNames := ["UV0"], vertexColors := [], materialIndices := [] }

/-- One vertex, one face, and a first colour set with two entries. -/
def longColorGeometry : MeshGeometry Int :=
  { addr := 100, Name := "Geometry::colour", vertices := [⟨0, 0, 0⟩], faces := [1],
    normals := [], tangents := [], binormals := [],
    textureCoords := [], textureCoordChannelNames := [],
    vertexColors := [[⟨0, 0, 0, 1⟩, ⟨1, 1, 1, 1⟩]], materialIndices := [] }

/-- One vertex, one face, two tangents and no binormals. -/
def longTangentGeometry : MeshGeometry Int :=
  exampleGeometry 100 [⟨1, 0, 0⟩] [1] [] [⟨0, 1, 0⟩, ⟨0, 0, 1⟩]

/-- Two vertices in one face; the UV channels 0, 1 and 3 have two entries
each and channel 2 is empty; there is one colour set. -/
def channelGeometry : MeshGeometry Int :=
  { addr := 100, Name := "Geometry::channels", vertices := [⟨0, 0, 0⟩, ⟨1, 0, 0⟩],
    faces := [2], normals := [], tangents := [], binormals := [],
    textureCoords := [[⟨1, 2⟩, ⟨3, 4⟩], [⟨5, 6⟩, ⟨7, 8⟩], [], [⟨9, 9⟩, ⟨9, 9⟩]],
    textureCoordChannelNames := ["a", "b", "c", "d"],
    vertexColors := [[⟨1, 0, 0, 1⟩, ⟨0, 1, 0, 1⟩]], materialIndices := [] }

/-! ## Lemmas -/

section Lemmas

variable {F : Type}

/-! ### The maps -/

theorem mapFind_mapInsert_self {β : Type} (m : List (Nat × β)) (k : Nat) (v : β) :
    mapFind (mapInsert m k v) k = some v := by
  induction m with
  | nil => simp [mapInsert, mapFind]
  | cons hd tl ih =>
    obtain ⟨k', v'⟩ := hd
    unfold mapInsert
    split_ifs with h1 h2
    · simp [mapFind]
    · simp [mapFind]
    · simp only [mapFind]
      rw [if_neg (fun h => h2 h.symm)]
      exact ih

theorem mapFind_mapInsert_of_ne {β : Type} (m : List (Nat × β)) (k k2 : Nat) (v : β)
    (hne : k ≠ k2) : mapFind (mapInsert m k v) k2 = mapFind m k2 := by
  induction m with
  | nil => simp [mapInsert, mapFind, hne]
  | cons hd tl ih =>
    obtain ⟨k', v'⟩ := hd
    unfold mapInsert
    split_ifs with h1 h2
    · simp [mapFind, hne]
    · subst h2
      simp [mapFind, hne]
    · simp only [mapFind]
      rw [ih]

/-! ### Materials -/

theorem addColorIfOk_source (m : aiMaterial F) (c : aiColor3D F × Bool) (key : MatKey) :
    (addColorIfOk m c key).source = m.source := by
  unfold addColorIfOk
  split <;> rfl

theorem addFloatIfOk_source (m : aiMaterial F) (f : Option F) (key : MatKey) :
    (addFloatIfOk m f key).source = m.source := by
  unfold addFloatIfOk
  split <;> rfl

theorem SetShadingPropertiesCommon_source [FloatOps F] (m : aiMaterial F)
    (props : PropertyTable F) : (SetShadingPropertiesCommon m props).source = m.source := by
  simp only [SetShadingPropertiesCommon, addColorIfOk_source, addFloatIfOk_source]

theorem TrySetTextureProperties_source (cfg : BuildConfig) (s : Converter F) (matIndex : Nat)
    (out_mat : aiMaterial F) (textures : List (String × Texture F)) (propName : String)
    (target : aiTextureType) :
    (TrySetTextureProperties cfg s matIndex out_mat textures propName target).1.source
      = out_mat.source := by
  unfold TrySetTextureProperties
  split <;> rfl

theorem SetTextureProperties_source (cfg : BuildConfig) (s : Converter F) (matIndex : Nat)
    (out_mat : aiMaterial F) (textures : List (String × Texture F)) :
    (SetTextureProperties cfg s matIndex out_mat textures).1.source = out_mat.source := by
  unfold SetTextureProperties
  generalize textureSlots = slots
  generalize ([] : List LogEntry) = l
  induction slots generalizing out_mat l with
  | nil => rfl
  | cons hd tl ih =>
    simp only [List.foldl_cons]
    rw [ih, TrySetTextureProperties_source]

/-- The material `ConvertMaterial` appends. -/
theorem ConvertMaterial_eq [FloatOps F] (cfg : BuildConfig) (mat : Material F) (s : Converter F) :
    ∃ m l, m.source = some mat.addr ∧ ConvertMaterial cfg mat s =
      (s.materials.length,
       { s with
         materials_converted := mapInsert s.materials_converted mat.addr s.materials.length
         materials := s.materials ++ [m]
         log := s.log ++ l }) := by
  refine ⟨?m, ?l, ?h1, ?h2⟩
  case h2 =>
    simp only [ConvertMaterial, List.length_append, List.length_singleton, Nat.add_sub_cancel]
    exact rfl
  case h1 =>
    rw [SetTextureProperties_source, SetShadingPropertiesCommon_source]
    rfl

theorem GetDefaultMaterial_frame [FloatOps F] (s : Converter F) :
    (GetDefaultMaterial s).2.meshes = s.meshes ∧
    (GetDefaultMaterial s).2.meshes_converted = s.meshes_converted ∧
    (GetDefaultMaterial s).2.materials_converted = s.materials_converted ∧
    (GetDefaultMaterial s).2.out = s.out ∧
    (GetDefaultMaterial s).2.nodes = s.nodes := by
  unfold GetDefaultMaterial
  split <;> simp

theorem ConvertMaterialForMesh_frame [FloatOps F] (cfg : BuildConfig) (model : Model F)
    (materialIndex : Nat) (s : Converter F) :
    (ConvertMaterialForMesh cfg model materialIndex s).2.meshes = s.meshes ∧
    (ConvertMaterialForMesh cfg model materialIndex s).2.meshes_converted = s.meshes_converted ∧
    (ConvertMaterialForMesh cfg model materialIndex s).2.out = s.out ∧
    (ConvertMaterialForMesh cfg model materialIndex s).2.nodes = s.nodes := by
  cases h : model.GetMaterials[materialIndex]? with
  | none =>
    simp only [ConvertMaterialForMesh, h]
    have h := GetDefaultMaterial_frame (s.LogError "material index out of bounds, ignoring")
    exact ⟨h.1, h.2.1, h.2.2.2.1, h.2.2.2.2⟩
  | some mat =>
    cases h2 : mapFind s.materials_converted mat.addr with
    | some i => simp only [ConvertMaterialForMesh, h, h2, and_self]
    | none =>
      simp only [ConvertMaterialForMesh, h, h2]
      obtain ⟨m, l, _, h3⟩ := ConvertMaterial_eq cfg mat s
      rw [h3]
      simp

/-! ### The face loop -/

/-- Reducing the start of a run modulo `uintSize` does not change the run
modulo `uintSize`. -/
theorem range'_map_mod (k : Nat) : ∀ a : Nat,
    (List.range' (a % uintSize) k).map (fun x => x % uintSize) =
      (List.range' a k).map (fun x => x % uintSize) := by
  induction k with
  | zero => intro a; rfl
  | succ k ih =>
    intro a
    simp only [List.range'_succ, List.map_cons, Nat.mod_mod]
    congr 1
    rw [← ih (a % uintSize + 1), ← ih (a + 1), Nat.mod_add_mod]

/-- A run that stays below `uintSize` is not changed by reducing it modulo
`uintSize`. -/
theorem range'_map_mod_of_le (a k : Nat) (h : a + k ≤ uintSize) :
    (List.range' a k).map (fun x => x % uintSize) = List.range' a k := by
  conv_rhs => rw [← List.map_id (List.range' a k)]
  apply List.map_congr_left
  intro x hx
  have := (List.mem_range'_1.mp hx).2
  exact Nat.mod_eq_of_lt (by omega)

theorem fillIndices_eq (k : Nat) : ∀ cursor : Nat, cursor < uintSize →
    fillIndices k cursor =
      ((List.range' cursor k).map (fun x => x % uintSize), (cursor + k) % uintSize) := by
  induction k with
  | zero =>
    intro cursor h
    simp only [fillIndices, List.range'_zero, List.map_nil, Nat.add_zero,
      Nat.mod_eq_of_lt h]
  | succ k ih =>
    intro cursor h
    unfold fillIndices
    rw [ih _ (Nat.mod_lt _ (by decide))]
    simp only [List.range'_succ, List.map_cons, Nat.mod_eq_of_lt h, range'_map_mod,
      Nat.mod_add_mod, Prod.mk.injEq, true_and]
    congr 1
    omega

theorem faceStep_eq (st : FaceLoopState) (pcount : Nat) (h : st.cursor < uintSize) :
    faceStep st pcount =
      { cursor := (st.cursor + pcount) % uintSize
        mFaces := st.mFaces ++ [(List.range' st.cursor pcount).map fun x => x % uintSize]
        mPrimitiveTypes := st.mPrimitiveTypes ||| primitiveTypeOf pcount } := by
  simp only [faceStep, fillIndices_eq pcount st.cursor h]

theorem faceStep_mPrimitiveTypes (st : FaceLoopState) (pcount : Nat) :
    (faceStep st pcount).mPrimitiveTypes = st.mPrimitiveTypes ||| primitiveTypeOf pcount :=
  rfl

/-- The sizes up to and including face `j` sum to at most the sum of all. -/
theorem sum_take_add_getElem_le (faces : List Nat) (j : Nat) (hj : j < faces.length) :
    (faces.take j).sum + faces[j] ≤ faces.sum := by
  have h1 := List.sum_take_add_sum_drop faces j
  rw [List.drop_eq_getElem_cons hj, List.sum_cons] at h1
  omega

/-- The face loop with its wrapping cursor: the cursor ends at the sum of the
face sizes modulo `uintSize`, there is one face for each size, and face `j`
holds, modulo `uintSize`, the run of `faces[j]` numbers that starts at the sum
of the sizes before it. -/
theorem generateFaces_wrap (faces : List Nat) :
    (generateFaces faces).cursor = faces.sum % uintSize ∧
    (generateFaces faces).mFaces.length = faces.length ∧
    ∀ j (hj : j < faces.length),
      (generateFaces faces).mFaces[j]? =
        some ((List.range' (faces.take j).sum faces[j]).map fun x => x % uintSize) := by
  induction faces using List.reverseRecOn with
  | nil => exact ⟨rfl, rfl, fun j hj => absurd hj (Nat.not_lt_zero _)⟩
  | append_singleton init n ih =>
    obtain ⟨ih1, ih2, ih3⟩ := ih
    have hstep : generateFaces (init ++ [n]) = faceStep (generateFaces init) n := by
      simp only [generateFaces, List.foldl_append, List.foldl_cons, List.foldl_nil]
    have hlt : (generateFaces init).cursor < uintSize := by
      rw [ih1]; exact Nat.mod_lt _ (by decide)
    rw [hstep, faceStep_eq _ _ hlt]
    refine ⟨?_, ?_, ?_⟩
    · simp [ih1]
    · simp [ih2]
    · intro j hj
      simp only [List.length_append, List.length_singleton] at hj
      by_cases hlt : j < init.length
      · rw [List.getElem?_append_left (by omega), ih3 j hlt,
          List.take_append_of_le_length (by omega), List.getElem_append_left hlt]
      · have hje : j = init.length := by omega
        subst hje
        rw [List.getElem?_append_right (by omega)]
        simp [ih2, ih1, range'_map_mod]

/-- The face loop for face sizes that sum to at most `uintSize`: there is one
face for each size, and face `j` is the run of `faces[j]` indices that starts
at the sum of the sizes before it. -/
theorem generateFaces_spec (faces : List Nat) (hb : faces.sum ≤ uintSize) :
    (generateFaces faces).mFaces.length = faces.length ∧
    ∀ j (hj : j < faces.length),
      (generateFaces faces).mFaces[j]? = some (List.range' (faces.take j).sum faces[j]) := by
  obtain ⟨_, h2, h3⟩ := generateFaces_wrap faces
  refine ⟨h2, ?_⟩
  intro j hj
  rw [h3 j hj, range'_map_mod_of_le]
  have := sum_take_add_getElem_le faces j hj
  omega

theorem generateFaces_prim_testBit (faces : List Nat) (i : Nat) :
    (generateFaces faces).mPrimitiveTypes.testBit i =
      faces.any fun n => (primitiveTypeOf n).testBit i := by
  induction faces using List.reverseRecOn with
  | nil => simp [generateFaces]
  | append_singleton init n ih =>
    have hstep : generateFaces (init ++ [n]) = faceStep (generateFaces init) n := by
      simp only [generateFaces, List.foldl_append, List.foldl_cons, List.foldl_nil]
    rw [hstep, faceStep_mPrimitiveTypes]
    simp only [Nat.testBit_lor, ih, List.any_append, List.any_cons, List.any_nil, Bool.or_false]

theorem generateFaces_prim (faces : List Nat) :
    (generateFaces faces).mPrimitiveTypes =
      faces.foldl (fun acc n => acc ||| primitiveTypeOf n) 0 := by
  induction faces using List.reverseRecOn with
  | nil => rfl
  | append_singleton init n ih =>
    have hstep : generateFaces (init ++ [n]) = faceStep (generateFaces init) n := by
      simp only [generateFaces, List.foldl_append, List.foldl_cons, List.foldl_nil]
    rw [hstep, faceStep_mPrimitiveTypes]
    simp only [List.foldl_append, List.foldl_cons, List.foldl_nil, ih]


/-! ### The arrays of a mesh -/

theorem synthBinormalsLoop_ok [FloatOps F] (normals tangents : List (aiVector3D F)) :
    ∀ (k i : Nat) (temp : List (aiVector3D F)),
      i + k ≤ normals.length → i + k ≤ tangents.length → temp.length = normals.length →
      ∃ b, synthBinormalsLoop normals tangents k i temp = Except.ok b ∧
        b.length = normals.length := by
  intro k
  induction k with
  | zero => intro i temp _ _ ht; exact ⟨temp, rfl, ht⟩
  | succ k ih =>
    intro i temp hn htg ht
    have h1 : i < normals.length := by omega
    have h2 : i < tangents.length := by omega
    have h3 : i < temp.length := by omega
    unfold synthBinormalsLoop
    rw [List.getElem?_eq_getElem h1, List.getElem?_eq_getElem h2]
    simp only [h3, if_true]
    apply ih
    · omega
    · omega
    · simpa using ht

theorem synthBinormals_ok [FloatOps F] (normals tangents : List (aiVector3D F))
    (h : tangents.length ≤ normals.length) :
    ∃ b, synthBinormals normals tangents = Except.ok b ∧ b.length = normals.length := by
  unfold synthBinormals
  apply synthBinormalsLoop_ok
  · omega
  · omega
  · simp

theorem newArrayCopy_ok {α : Type} (n : Nat) (d : α) (src : List α) (h : src.length ≤ n) :
    newArrayCopy n d src = Except.ok (src ++ List.replicate (n - src.length) d) := by
  simp [newArrayCopy, h]

theorem newArrayCopy_length {α : Type} (n : Nat) (d : α) (src out : List α)
    (h : newArrayCopy n d src = Except.ok out) : out.length = n := by
  unfold newArrayCopy at h
  split_ifs at h with hle
  cases h
  simp
  omega

theorem copyTextureCoords_ok [FloatOps F] (mesh : MeshGeometry F) (n : Nat)
    (h : ∀ uvs ∈ mesh.textureCoords, uvs.length ≤ n) :
    ∀ (k i : Nat), ∃ uv, copyTextureCoords mesh n k i = Except.ok uv := by
  intro k
  induction k with
  | zero => intro i; exact ⟨[], rfl⟩
  | succ k ih =>
    intro i
    unfold copyTextureCoords
    by_cases he : (mesh.GetTextureCoords i).isEmpty
    · simp only [he, if_true]; exact ⟨[], rfl⟩
    · simp only [he]
      have hlen : (mesh.GetTextureCoords i).length ≤ n := by
        unfold MeshGeometry.GetTextureCoords at he ⊢
        rw [List.getD_eq_getElem?_getD] at he ⊢
        cases hg : mesh.textureCoords[i]? with
        | none => simp [hg] at he
        | some uvs =>
          simp only [hg, Option.getD_some]
          exact h uvs (List.getElem?_mem hg)
      rw [newArrayCopy_ok _ _ _ (by simpa using hlen)]
      obtain ⟨rest, hr⟩ := ih (i + 1)
      rw [hr]
      exact ⟨_, rfl⟩

theorem copyVertexColors_ok [FloatOps F] (mesh : MeshGeometry F) (n : Nat)
    (h : ∀ c ∈ mesh.vertexColors, c.length ≤ n) :
    ∀ (k i : Nat), ∃ cols, copyVertexColors mesh n k i = Except.ok cols := by
  intro k
  induction k with
  | zero => intro i; exact ⟨[], rfl⟩
  | succ k ih =>
    intro i
    unfold copyVertexColors
    by_cases he : (mesh.GetVertexColors i).isEmpty
    · simp only [he, if_true]; exact ⟨[], rfl⟩
    · simp only [he]
      have hlen : (mesh.GetVertexColors i).length ≤ n := by
        unfold MeshGeometry.GetVertexColors at he ⊢
        rw [List.getD_eq_getElem?_getD] at he ⊢
        cases hg : mesh.vertexColors[i]? with
        | none => simp [hg] at he
        | some c =>
          simp only [hg, Option.getD_some]
          exact h c (List.getElem?_mem hg)
      rw [newArrayCopy_ok _ _ _ hlen]
      obtain ⟨rest, hr⟩ := ih (i + 1)
      rw [hr]
      exact ⟨_, rfl⟩

theorem ai_assert_true (cfg : BuildConfig) : ai_assert cfg true = Except.ok () := by
  simp [ai_assert]

theorem convertNormals_self [FloatOps F] (cfg : BuildConfig) (vs : List (aiVector3D F)) :
    convertNormals cfg vs.length vs = Except.ok (if vs.length ≠ 0 then some vs else none) := by
  unfold convertNormals
  split_ifs with h
  · simp [ai_assert, newArrayCopy, Except.bind, Except.map]
  · rfl

theorem resolveBinormals_ok [FloatOps F] (n : Nat) (normals tangents binormals : List (aiVector3D F))
    (hn : normals.length = n) (ht : tangents.length ≤ n) (hb : binormals.length = 0 ∨ binormals.length = n) :
    ∃ b?, resolveBinormals normals tangents binormals = Except.ok b? ∧
      ∀ b, b? = some b → b.length = n := by
  unfold resolveBinormals
  split_ifs with h1 h2
  · obtain ⟨b, hb1, hb2⟩ := synthBinormals_ok normals tangents (by omega)
    refine ⟨some b, by simp [hb1, Except.map], ?_⟩
    intro b' hb'
    cases hb'
    omega
  · exact ⟨none, rfl, by simp⟩
  · refine ⟨some binormals, rfl, ?_⟩
    intro b' hb'
    cases hb'
    omega

theorem convertTangents_ok [FloatOps F] (cfg : BuildConfig) (n : Nat)
    (normals tangents binormals : List (aiVector3D F))
    (hn : normals.length = n) (ht : tangents.length = 0 ∨ tangents.length = n)
    (hb : binormals.length = 0 ∨ binormals.length = n) :
    ∃ tb, convertTangents cfg n normals tangents binormals = Except.ok tb := by
  unfold convertTangents
  split_ifs with h1
  · have htn : tangents.length = n := by omega
    obtain ⟨b?, hb1, hb2⟩ := resolveBinormals_ok n normals tangents binormals hn (by omega) hb
    rw [hb1]
    cases b? with
    | none => exact ⟨_, rfl⟩
    | some b =>
      have hbl := hb2 b rfl
      simp only [Except.bind, htn, hbl, beq_self_eq_true, Bool.and_self, ai_assert_true]
      rw [newArrayCopy_ok _ _ _ (by omega), newArrayCopy_ok _ _ _ (by omega)]
      exact ⟨_, rfl⟩
  · exact ⟨_, rfl⟩

theorem buildMesh_ok [FloatOps F] (cfg : BuildConfig) (mesh : MeshGeometry F)
    (h : mesh.SizesAgree) : ∃ m, buildMesh cfg mesh = Except.ok m := by
  obtain ⟨h1, h2, h3, h4⟩ := h
  unfold buildMesh
  simp only [convertNormals_self]
  obtain ⟨tb, htb⟩ := convertTangents_ok cfg mesh.vertices.length mesh.vertices mesh.tangents
    mesh.binormals rfl h1 h2
  obtain ⟨uv, huv⟩ := copyTextureCoords_ok mesh mesh.vertices.length
    (fun uvs hu => by have := h3 uvs hu; omega) cfg.AI_MAX_NUMBER_OF_TEXTURECOORDS 0
  obtain ⟨cols, hc⟩ := copyVertexColors_ok mesh mesh.vertices.length
    (fun c hu => by have := h4 c hu; omega) cfg.AI_MAX_NUMBER_OF_COLOR_SETS 0
  simp only [htb, huv, hc, Except.bind]
  exact ⟨_, rfl⟩

/-- What `buildMesh` returns fixes the faces, the primitive types and the
vertices of the mesh. -/
theorem buildMesh_faces [FloatOps F] (cfg : BuildConfig) (mesh : MeshGeometry F) (m : aiMesh F)
    (h : buildMesh cfg mesh = Except.ok m) :
    m.mFaces = (generateFaces mesh.faces).mFaces ∧
    m.mPrimitiveTypes = (generateFaces mesh.faces).mPrimitiveTypes ∧
    m.mVertices = mesh.vertices ∧
    ∃ tb, convertTangents cfg mesh.vertices.length mesh.vertices mesh.tangents mesh.binormals
        = Except.ok tb ∧ m.mTangents = tb.1 ∧ m.mBitangents = tb.2 := by
  unfold buildMesh at h
  simp only [convertNormals_self, Except.bind] at h
  split at h
  · cases h
  · rename_i tb htb
    split at h
    · cases h
    · split at h
      · cases h
      · cases h
        exact ⟨rfl, rfl, rfl, tb, htb, rfl, rfl⟩

/-! ### `ConvertMesh` -/

/-- The state `ConvertMesh` resolves the material in: the cache already holds
the geometry. -/
theorem ConvertMesh_fresh [FloatOps F] (cfg : BuildConfig) (mesh : MeshGeometry F)
    (model : Model F) (s : Converter F)
    (hc : mapFind s.meshes_converted mesh.addr = none)
    (hv : mesh.vertices ≠ []) (hf : mesh.faces ≠ []) :
    ConvertMesh cfg mesh model s =
      (buildMesh cfg mesh).bind fun out_mesh =>
        let s1 := { s with
          meshes_converted := mapInsert s.meshes_converted mesh.addr (mesh, s.meshes.length) }
        let r := ConvertMaterialForMesh cfg model (mesh.materialIndices.headD 0) s1
        Except.ok (s.meshes.length + 1,
          { r.2 with meshes := s.meshes ++ [{ out_mesh with
              mMaterialIndex := r.1
              slotMaterial :=
                (model.GetMaterials[mesh.materialIndices.headD 0]?).map fun mat => mat.addr }] }) := by
  have h1 : mesh.vertices.isEmpty = false := by
    cases h : mesh.vertices with
    | nil => exact absurd h hv
    | cons a l => rfl
  have h2 : mesh.faces.isEmpty = false := by
    cases h : mesh.faces with
    | nil => exact absurd h hf
    | cons a l => rfl
  unfold ConvertMesh
  simp only [hc, h1, h2, Bool.or_self, Bool.false_eq_true, if_false]
  congr 1
  funext out_mesh
  have hfr := ConvertMaterialForMesh_frame cfg model (mesh.materialIndices.headD 0)
    { s with meshes_converted := mapInsert s.meshes_converted mesh.addr (mesh, s.meshes.length) }
  simp only [hfr.1, List.length_append, List.length_singleton]

theorem ConvertMesh_ok_of_sizesAgree [FloatOps F] (cfg : BuildConfig) (mesh : MeshGeometry F)
    (model : Model F) (s : Converter F) (h : mesh.SizesAgree) :
    ∃ r s1, ConvertMesh cfg mesh model s = Except.ok (r, s1) := by
  unfold ConvertMesh
  split
  · exact ⟨_, _, rfl⟩
  · split
    · exact ⟨_, _, rfl⟩
    · obtain ⟨m, hm⟩ := buildMesh_ok cfg mesh h
      rw [hm]
      exact ⟨_, _, rfl⟩

theorem and_bit_ne_zero (x i : Nat) : x &&& 2 ^ i ≠ 0 ↔ x.testBit i = true := by
  rw [Nat.and_two_pow]
  cases h : x.testBit i <;> simp

/-- The mesh a successful conversion of a fresh, non-empty geometry appends:
what `buildMesh` gives, with the material index set. -/
theorem ConvertMesh_produces [FloatOps F] (cfg : BuildConfig) (mesh : MeshGeometry F)
    (model : Model F) (s : Converter F)
    (hc : mapFind s.meshes_converted mesh.addr = none)
    (hv : mesh.vertices ≠ []) (hf : mesh.faces ≠ [])
    (r : Nat) (s1 : Converter F) (h : ConvertMesh cfg mesh model s = Except.ok (r, s1)) :
    ∃ out_mesh i sm, buildMesh cfg mesh = Except.ok out_mesh ∧
      s1.meshes[r - 1]? = some { out_mesh with mMaterialIndex := i, slotMaterial := sm } := by
  rw [ConvertMesh_fresh cfg mesh model s hc hv hf] at h
  cases hb : buildMesh cfg mesh with
  | error e => rw [hb] at h; cases h
  | ok out_mesh =>
    rw [hb] at h
    simp only [Except.bind] at h
    cases h
    refine ⟨out_mesh, ?i, ?sm, rfl, ?h⟩
    case h =>
      simp only [Nat.add_sub_cancel, List.getElem?_append_right (Nat.le_refl _), Nat.sub_self,
        List.getElem?_cons_zero]
      exact rfl

theorem primitiveTypeOf_eq (n : Nat) :
    primitiveTypeOf n =
      if n = 1 then aiPrimitiveType_POINT else if n = 2 then aiPrimitiveType_LINE
      else if n = 3 then aiPrimitiveType_TRIANGLE else aiPrimitiveType_POLYGON := by
  rcases n with _ | _ | _ | _ | n
  · rfl
  · rfl
  · rfl
  · rfl
  · simp [primitiveTypeOf]

theorem primitiveTypeOf_testBit (n i : Nat) :
    (primitiveTypeOf n).testBit i =
      decide ((n = 1 ∧ i = 0) ∨ (n = 2 ∧ i = 1) ∨ (n = 3 ∧ i = 2) ∨
        (n ≠ 1 ∧ n ≠ 2 ∧ n ≠ 3 ∧ i = 3)) := by
  rw [primitiveTypeOf_eq]
  have e1 : aiPrimitiveType_POINT = 2 ^ 0 := rfl
  have e2 : aiPrimitiveType_LINE = 2 ^ 1 := rfl
  have e3 : aiPrimitiveType_TRIANGLE = 2 ^ 2 := rfl
  have e4 : aiPrimitiveType_POLYGON = 2 ^ 3 := rfl
  rw [e1, e2, e3, e4]
  split_ifs with h1 h2 h3
  · subst h1; rw [Nat.testBit_two_pow]; simp; omega
  · subst h2; rw [Nat.testBit_two_pow]; simp; omega
  · subst h3; rw [Nat.testBit_two_pow]; simp; omega
  · rw [Nat.testBit_two_pow]; simp [h1, h2, h3]; omega

theorem generateFaces_bits (faces : List Nat) :
    ((generateFaces faces).mPrimitiveTypes &&& aiPrimitiveType_POINT ≠ 0 ↔ 1 ∈ faces) ∧
    ((generateFaces faces).mPrimitiveTypes &&& aiPrimitiveType_LINE ≠ 0 ↔ 2 ∈ faces) ∧
    ((generateFaces faces).mPrimitiveTypes &&& aiPrimitiveType_TRIANGLE ≠ 0 ↔ 3 ∈ faces) ∧
    ((generateFaces faces).mPrimitiveTypes &&& aiPrimitiveType_POLYGON ≠ 0 ↔
      ∃ n ∈ faces, n = 0 ∨ 3 < n) := by
  have e1 : aiPrimitiveType_POINT = 2 ^ 0 := rfl
  have e2 : aiPrimitiveType_LINE = 2 ^ 1 := rfl
  have e3 : aiPrimitiveType_TRIANGLE = 2 ^ 2 := rfl
  have e4 : aiPrimitiveType_POLYGON = 2 ^ 3 := rfl
  rw [e1, e2, e3, e4]
  simp only [and_bit_ne_zero, generateFaces_prim_testBit, List.any_eq_true,
    primitiveTypeOf_testBit, decide_eq_true_eq]
  refine ⟨?_, ?_, ?_, ?_⟩
  · constructor
    · rintro ⟨n, hn, h⟩
      have : n = 1 := by omega
      subst this; exact hn
    · intro h; exact ⟨1, h, by simp⟩
  · constructor
    · rintro ⟨n, hn, h⟩
      have : n = 2 := by omega
      subst this; exact hn
    · intro h; exact ⟨2, h, by simp⟩
  · constructor
    · rintro ⟨n, hn, h⟩
      have : n = 3 := by omega
      subst this; exact hn
    · intro h; exact ⟨3, h, by simp⟩
  · constructor
    · rintro ⟨n, hn, h⟩
      exact ⟨n, hn, by omega⟩
    · rintro ⟨n, hn, h⟩
      refine ⟨n, hn, ?_⟩
      simp only [and_true]
      omega

theorem convertTangents_both [FloatOps F] (cfg : BuildConfig) (n : Nat)
    (normals tangents binormals : List (aiVector3D F))
    (tb : Option (List (aiVector3D F)) × Option (List (aiVector3D F)))
    (h : convertTangents cfg n normals tangents binormals = Except.ok tb) :
    tb.1.isSome = tb.2.isSome := by
  unfold convertTangents at h
  split_ifs at h with h1
  · cases hr : resolveBinormals normals tangents binormals with
    | error e => rw [hr] at h; cases h
    | ok b? =>
      rw [hr] at h
      cases b? with
      | none => simp only [Except.bind] at h; cases h; rfl
      | some b =>
        simp only [Except.bind] at h
        split at h
        · cases h
        · split at h
          · cases h
          · split at h
            · cases h
            · cases h; rfl
  · cases h; rfl

/-! ### The synthesised bitangents -/

theorem synthBinormalsLoop_spec [FloatOps F] (normals tangents : List (aiVector3D F))
    (hle : tangents.length ≤ normals.length) :
    ∀ (k i : Nat) (temp : List (aiVector3D F)),
      i + k = tangents.length → temp.length = normals.length →
      ∃ b, synthBinormalsLoop normals tangents k i temp = Except.ok b ∧
        b.length = normals.length ∧
        (∀ j, j < i → b[j]? = temp[j]?) ∧
        (∀ j, tangents.length ≤ j → b[j]? = temp[j]?) ∧
        (∀ j n t, i ≤ j → normals[j]? = some n → tangents[j]? = some t →
          b[j]? = some (n.cross t)) := by
  intro k
  induction k with
  | zero =>
    intro i temp hik ht
    refine ⟨temp, rfl, ht, fun j _ => rfl, fun j _ => rfl, ?_⟩
    intro j n t hij _ htj
    have : j < tangents.length := (List.getElem?_eq_some_iff.mp htj).1
    omega
  | succ k ih =>
    intro i temp hik ht
    have h1 : i < normals.length := by omega
    have h2 : i < tangents.length := by omega
    have h3 : i < temp.length := by omega
    unfold synthBinormalsLoop
    rw [List.getElem?_eq_getElem h1, List.getElem?_eq_getElem h2]
    simp only [h3, if_true]
    obtain ⟨b, hb, hlen, hlow, hhigh, hmid⟩ :=
      ih (i + 1) (temp.set i (normals[i].cross tangents[i])) (by omega) (by simpa using ht)
    refine ⟨b, hb, hlen, ?_, ?_, ?_⟩
    · intro j hj
      rw [hlow j (by omega), List.getElem?_set_ne (by omega)]
    · intro j hj
      rw [hhigh j hj, List.getElem?_set_ne (by omega)]
    · intro j n t hij hn htj
      by_cases hji : j = i
      · subst hji
        rw [hlow j (by omega), List.getElem?_set_self h3]
        rw [List.getElem?_eq_getElem h1] at hn
        rw [List.getElem?_eq_getElem h2] at htj
        cases hn; cases htj; rfl
      · exact hmid j n t (by omega) hn htj

theorem synthBinormals_eq [FloatOps F] (normals tangents : List (aiVector3D F))
    (h : tangents.length = normals.length) :
    synthBinormals normals tangents
      = Except.ok (List.zipWith aiVector3D.cross normals tangents) := by
  obtain ⟨b, hb, hlen, _, _, hmid⟩ := synthBinormalsLoop_spec normals tangents (by omega)
    tangents.length 0 (List.replicate normals.length aiVector3D.zero) (by omega) (by simp)
  unfold synthBinormals
  rw [hb]
  congr 1
  apply List.ext_getElem?
  intro j
  by_cases hj : j < normals.length
  · have hjt : j < tangents.length := by omega
    rw [hmid j normals[j] tangents[j] (by omega) (List.getElem?_eq_getElem hj)
      (List.getElem?_eq_getElem hjt)]
    simp [List.getElem?_zipWith, List.getElem?_eq_getElem hj, List.getElem?_eq_getElem hjt]
  · rw [List.getElem?_eq_none (by omega), List.getElem?_eq_none (by simp; omega)]

/-- What the tangent block of `ConvertMesh` does for a geometry that has as
many tangents as vertices and no binormals: the mesh gets the tangents and,
as bitangents, the cross products of the vertex positions with the tangents;
the geometry's normals play no part. -/
theorem ConvertMesh_bitangents_from_vertices [FloatOps F] (cfg : BuildConfig)
    (mesh : MeshGeometry F) (model : Model F) (s : Converter F)
    (hc : mapFind s.meshes_converted mesh.addr = none)
    (hv : mesh.vertices ≠ []) (hf : mesh.faces ≠ [])
    (ht : mesh.tangents.length = mesh.vertices.length) (hb : mesh.binormals = [])
    (r : Nat) (s1 : Converter F) (h : ConvertMesh cfg mesh model s = Except.ok (r, s1)) :
    ∃ m, s1.meshes[r - 1]? = some m ∧ m.mTangents = some mesh.tangents ∧
      m.mBitangents = some (List.zipWith aiVector3D.cross mesh.vertices mesh.tangents) := by
  obtain ⟨out_mesh, i, sm, hbm, hm⟩ := ConvertMesh_produces cfg mesh model s hc hv hf r s1 h
  obtain ⟨_, _, _, tb, htb, h1, h2⟩ := buildMesh_faces cfg mesh out_mesh hbm
  refine ⟨_, hm, ?_, ?_⟩
  all_goals
    simp only [h1, h2]
    have hvl : mesh.vertices.length ≠ 0 := fun h0 => hv (List.length_eq_zero.mp h0)
    have htl : mesh.tangents.length ≠ 0 := by omega
    unfold convertTangents resolveBinormals at htb
    rw [synthBinormals_eq _ _ ht] at htb
    simp [hb, hvl, htl, ht, Except.bind, Except.map, ai_assert, newArrayCopy] at htb
    rw [← htb]

/-! ### Induction over a conversion -/

theorem foldlM_except_invariant {σ α ε : Type} (f : σ → α → Except ε σ) (Q : σ → Prop)
    (hstep : ∀ st a st', Q st → f st a = Except.ok st' → Q st') :
    ∀ (l : List α) (st st' : σ), Q st → l.foldlM f st = Except.ok st' → Q st' := by
  intro l
  induction l with
  | nil =>
    intro st st' hq h
    simp only [List.foldlM_nil, pure, Except.pure] at h
    cases h
    exact hq
  | cons a l ih =>
    intro st st' hq h
    simp only [List.foldlM_cons, bind, Except.bind] at h
    split at h
    · cases h
    · rename_i st1 h1
      exact ih st1 st' (hstep st a st1 hq h1) h

theorem ConvertModel_invariant [FloatOps F] (cfg : BuildConfig) (P : Converter F → Prop)
    (hframe : FrameStable P)
    (hmesh : ∀ s mesh model r s', P s → ConvertMesh cfg mesh model s = Except.ok (r, s') → P s')
    (model : Model F) (nd : Nat) (s s' : Converter F) (hp : P s)
    (h : ConvertModel cfg model nd s = Except.ok s') : P s' := by
  unfold ConvertModel at h
  cases hfold : model.GetGeometry.foldlM (convertModelStep cfg model) (([] : List Nat), s) with
  | error e => rw [hfold] at h; cases h
  | ok st =>
    rw [hfold] at h
    have hq : P st.2 := by
      refine foldlM_except_invariant (convertModelStep cfg model) (fun st => P st.2) ?_
        model.GetGeometry _ st hp hfold
      intro st0 geo st1 hq0 hs
      unfold convertModelStep at hs
      cases geo with
      | mesh mesh =>
        simp only at hs
        cases hcm : ConvertMesh cfg mesh model st0.2 with
        | error e => rw [hcm] at hs; cases hs
        | ok r =>
          rw [hcm] at hs
          simp only [Except.bind] at hs
          have hr : P r.2 := hmesh st0.2 mesh model r.1 r.2 hq0 hcm
          split_ifs at hs <;> (cases hs; exact hr)
      | other name =>
        simp only at hs
        cases hs
        exact hframe _ _ hq0 rfl rfl rfl rfl rfl rfl rfl
    simp only [Except.bind] at h
    split_ifs at h
    · cases h
      exact hframe _ _ hq rfl rfl rfl rfl rfl rfl rfl
    · cases h
      exact hq

theorem ConvertNodes_invariant [FloatOps F] (cfg : BuildConfig) (doc : Document F)
    (P : Converter F → Prop) (hframe : FrameStable P)
    (hmesh : ∀ s mesh model r s', P s → ConvertMesh cfg mesh model s = Except.ok (r, s') → P s') :
    ∀ (fuel id parent : Nat) (s s' : Converter F), P s →
      ConvertNodes cfg doc fuel id parent s = Except.ok s' → P s' := by
  intro fuel
  induction fuel with
  | zero => intro id parent s s' _ h; cases h
  | succ fuel ih =>
    intro id parent s s' hp h
    unfold ConvertNodes at h
    simp only [Except.bind] at h
    split at h
    · cases h
    · rename_i st hfold
      have hq : P st := by
        refine foldlM_except_invariant _ P ?_ _ s st hp hfold
        intro st0 con st1 hq0 hs
        simp only at hs
        split_ifs at hs with hpn
        · cases hs; exact hq0
        · split at hs
          · cases hs
            exact hframe _ _ hq0 rfl rfl rfl rfl rfl rfl rfl
          · rename_i model _
            split at hs
            · cases hs
            · rename_i s2 hcm
              refine ih _ _ s2 st1 ?_ hs
              refine ConvertModel_invariant cfg P hframe hmesh model _ _ s2 ?_ hcm
              exact hframe _ _ hq0 rfl rfl rfl rfl rfl rfl rfl
          · cases hs; exact hq0
      simp only [List.length_nil, ne_eq, not_true_eq_false, if_false] at h
      cases h
      exact hq

theorem readAllMaterials_invariant [FloatOps F] (cfg : BuildConfig) (P : Converter F → Prop)
    (hmat : ∀ s mat, P s → mapFind s.materials_converted mat.addr = none →
      P (ConvertMaterial cfg mat s).2) :
    ∀ (objs : List (Nat × Option (Object F))) (s : Converter F), P s →
      P (objs.foldl (readAllMaterialsStep cfg) s) := by
  intro objs
  induction objs with
  | nil => intro s hp; exact hp
  | cons v objs ih =>
    intro s hp
    simp only [List.foldl_cons]
    apply ih
    unfold readAllMaterialsStep
    split
    · rename_i mat _
      split_ifs with hno
      · exact hmat s mat hp hno
      · exact hp
    · exact hp

/-- Induction over a conversion: a property of the converter state that
ignores nodes, scene and log, holds at the start and is kept by `ConvertMesh`
and by `ConvertMaterial` on a material not in the cache holds when the
constructor reaches `TransferDataToScene`. -/
theorem beforeTransfer_invariant [FloatOps F] (cfg : BuildConfig) (doc : Document F)
    (uninit fuel : Nat) (P : Converter F → Prop) (hframe : FrameStable P)
    (hmesh : ∀ s mesh model r s', P s → ConvertMesh cfg mesh model s = Except.ok (r, s') → P s')
    (hmat : ∀ s mat, P s → mapFind s.materials_converted mat.addr = none →
      P (ConvertMaterial cfg mat s).2)
    (h0 : P (Converter.initial uninit)) (s : Converter F)
    (h : Converter.beforeTransfer cfg doc uninit fuel = Except.ok s) : P s := by
  unfold Converter.beforeTransfer at h
  simp only [Except.bind] at h
  split at h
  · cases h
  · rename_i s1 h1
    have hp1 : P s1 := by
      unfold ConvertRootNode at h1
      refine ConvertNodes_invariant cfg doc P hframe hmesh fuel 0 _ _ s1 ?_ h1
      exact hframe _ _ h0 rfl rfl rfl rfl rfl rfl rfl
    have hp2 : P (if doc.readAllMaterials then doc.Objects.foldl (readAllMaterialsStep cfg) s1
        else s1) := by
      split_ifs
      · exact readAllMaterials_invariant cfg P hmat _ _ hp1
      · exact hp1
    cases h
    exact hframe _ _ hp2 rfl rfl rfl rfl rfl rfl rfl

/-! ### The material bookkeeping -/

theorem MaterialsConsistent_of_eq (s s' : Converter F) (h : s.MaterialsConsistent)
    (h2 : s'.meshes = s.meshes) (h3 : s'.materials = s.materials)
    (h4 : s'.materials_converted = s.materials_converted) : s'.MaterialsConsistent := by
  constructor
  · rw [h3, h4]; exact h.cache_sound
  · rw [h3, h4]; exact h.cache_complete
  · rw [h2, h4]; exact h.mesh_slot

theorem MaterialsConsistent_frameStable :
    FrameStable (fun s : Converter F => s.MaterialsConsistent) :=
  fun s s' h _ h2 h3 h4 _ _ _ => MaterialsConsistent_of_eq s s' h h2 h3 h4

theorem MaterialsConsistent_initial (uninit : Nat) :
    (Converter.initial uninit : Converter F).MaterialsConsistent := by
  constructor
  · intro a i h; cases h
  · intro i m a h; cases h
  · intro m hm; cases hm

theorem MaterialsConsistent_GetDefaultMaterial [FloatOps F] (s : Converter F)
    (h : s.MaterialsConsistent) : (GetDefaultMaterial s).2.MaterialsConsistent := by
  unfold GetDefaultMaterial
  split_ifs with hd
  · exact h
  · constructor
    · intro a i hf
      obtain ⟨m, hm, hs⟩ := h.cache_sound a i hf
      have hi : i < s.materials.length := (List.getElem?_eq_some_iff.mp hm).1
      exact ⟨m, by simp only [List.getElem?_append_left hi]; exact hm, hs⟩
    · intro i m a hm hs
      simp only at hm
      by_cases hi : i < s.materials.length
      · rw [List.getElem?_append_left hi] at hm
        exact h.cache_complete i m a hm hs
      · rw [List.getElem?_append_right (by omega)] at hm
        cases hsub : i - s.materials.length with
        | zero =>
          rw [hsub] at hm
          simp only [List.getElem?_cons_zero, Option.some.injEq] at hm
          subst hm
          cases hs
        | succ k => rw [hsub] at hm; simp at hm
    · exact h.mesh_slot

theorem MaterialsConsistent_ConvertMaterial [FloatOps F] (cfg : BuildConfig) (mat : Material F)
    (s : Converter F) (h : s.MaterialsConsistent)
    (hno : mapFind s.materials_converted mat.addr = none) :
    (ConvertMaterial cfg mat s).2.MaterialsConsistent := by
  obtain ⟨m0, l, hsrc, heq⟩ := ConvertMaterial_eq cfg mat s
  rw [heq]
  have hne : ∀ a i, mapFind s.materials_converted a = some i → mat.addr ≠ a := by
    intro a i hf he
    rw [← he, hno] at hf
    cases hf
  constructor
  · intro a i hf
    simp only at hf ⊢
    by_cases ha : mat.addr = a
    · subst ha
      rw [mapFind_mapInsert_self] at hf
      cases hf
      exact ⟨m0, by simp, hsrc⟩
    · rw [mapFind_mapInsert_of_ne _ _ _ _ ha] at hf
      obtain ⟨m, hm, hs⟩ := h.cache_sound a i hf
      have hi : i < s.materials.length := (List.getElem?_eq_some_iff.mp hm).1
      exact ⟨m, by rw [List.getElem?_append_left hi]; exact hm, hs⟩
  · intro i m a hm hs
    simp only at hm ⊢
    by_cases hi : i < s.materials.length
    · rw [List.getElem?_append_left hi] at hm
      have hf := h.cache_complete i m a hm hs
      rw [mapFind_mapInsert_of_ne _ _ _ _ (hne a i hf)]
      exact hf
    · rw [List.getElem?_append_right (by omega)] at hm
      cases hsub : i - s.materials.length with
      | zero =>
        rw [hsub] at hm
        simp only [List.getElem?_cons_zero, Option.some.injEq] at hm
        subst hm
        rw [hsrc] at hs
        cases hs
        have : i = s.materials.length := by omega
        subst this
        exact mapFind_mapInsert_self _ _ _
      | succ k => rw [hsub] at hm; simp at hm
  · intro m hm a hs
    simp only at hm ⊢
    have hf := h.mesh_slot m hm a hs
    rw [mapFind_mapInsert_of_ne _ _ _ _ (hne a _ hf)]
    exact hf

theorem mapInsert_idem {β : Type} (m : List (Nat × β)) (k : Nat) (v : β)
    (h : mapFind m k = some v) (k2 : Nat) :
    mapFind (mapInsert m k v) k2 = mapFind m k2 := by
  by_cases hk : k = k2
  · subst hk; rw [mapFind_mapInsert_self, h]
  · exact mapFind_mapInsert_of_ne m k k2 v hk

/-- The function `ConvertMaterialForMesh` keeps the bookkeeping consistent, and when the
slot holds a source material the index it assigns is that of the material's
cache entry. -/
theorem MaterialsConsistent_ConvertMaterialForMesh [FloatOps F] (cfg : BuildConfig)
    (model : Model F) (materialIndex : Nat) (s : Converter F) (h : s.MaterialsConsistent) :
    (ConvertMaterialForMesh cfg model materialIndex s).2.MaterialsConsistent ∧
    ∀ mat, model.GetMaterials[materialIndex]? = some mat →
      mapFind (ConvertMaterialForMesh cfg model materialIndex s).2.materials_converted mat.addr
        = some (ConvertMaterialForMesh cfg model materialIndex s).1 := by
  cases hm : model.GetMaterials[materialIndex]? with
  | none =>
    simp only [ConvertMaterialForMesh, hm]
    refine ⟨MaterialsConsistent_GetDefaultMaterial _ ?_, ?_⟩
    · exact MaterialsConsistent_of_eq s _ h rfl rfl rfl
    · intro mat hmat; cases hmat
  | some mat =>
    cases hf : mapFind s.materials_converted mat.addr with
    | some i =>
      simp only [ConvertMaterialForMesh, hm, hf]
      refine ⟨h, ?_⟩
      intro mat' hmat
      cases hmat
      exact hf
    | none =>
      simp only [ConvertMaterialForMesh, hm, hf]
      have hc := MaterialsConsistent_ConvertMaterial cfg mat s h hf
      obtain ⟨m0, l, hsrc, heq⟩ := ConvertMaterial_eq cfg mat s
      have hfind : mapFind (ConvertMaterial cfg mat s).2.materials_converted mat.addr
          = some (ConvertMaterial cfg mat s).1 := by
        rw [heq]; exact mapFind_mapInsert_self _ _ _
      refine ⟨?_, ?_⟩
      · constructor
        · intro a i hfa
          simp only at hfa ⊢
          rw [mapInsert_idem _ _ _ hfind] at hfa
          exact hc.cache_sound a i hfa
        · intro i m a hma hs
          simp only at hma ⊢
          rw [mapInsert_idem _ _ _ hfind]
          exact hc.cache_complete i m a hma hs
        · intro m hmm a hs
          simp only at hmm ⊢
          rw [mapInsert_idem _ _ _ hfind]
          exact hc.mesh_slot m hmm a hs
      · intro mat' hmat
        cases hmat
        exact mapFind_mapInsert_self _ _ _

theorem MaterialsConsistent_ConvertMesh [FloatOps F] (cfg : BuildConfig) (s : Converter F)
    (mesh : MeshGeometry F) (model : Model F) (r : Nat) (s' : Converter F)
    (h : s.MaterialsConsistent) (hcm : ConvertMesh cfg mesh model s = Except.ok (r, s')) :
    s'.MaterialsConsistent := by
  unfold ConvertMesh at hcm
  split at hcm
  · cases hcm; exact h
  · split_ifs at hcm
    · cases hcm
      exact MaterialsConsistent_of_eq s _ h rfl rfl rfl
    · cases hb : buildMesh cfg mesh with
      | error e => rw [hb] at hcm; cases hcm
      | ok out_mesh =>
        rw [hb] at hcm
        simp only [Except.bind] at hcm
        cases hcm
        have hs1 : Converter.MaterialsConsistent { s with
            meshes_converted := mapInsert s.meshes_converted mesh.addr (mesh, s.meshes.length) } :=
          MaterialsConsistent_of_eq s _ h rfl rfl rfl
        obtain ⟨hc, hidx⟩ := MaterialsConsistent_ConvertMaterialForMesh cfg model
          (mesh.materialIndices.headD 0) _ hs1
        constructor
        · exact hc.cache_sound
        · exact hc.cache_complete
        · intro m hm a hsl
          simp only [List.mem_append, List.mem_singleton] at hm
          rcases hm with hm | hm
          · exact hc.mesh_slot m hm a hsl
          · subst hm
            simp only [Option.map_eq_some'] at hsl
            obtain ⟨mat, hmat, ha⟩ := hsl
            subst ha
            exact hidx mat hmat

theorem ConvertMesh_out [FloatOps F] (cfg : BuildConfig) (s : Converter F)
    (mesh : MeshGeometry F) (model : Model F) (r : Nat) (s' : Converter F)
    (hcm : ConvertMesh cfg mesh model s = Except.ok (r, s')) : s'.out = s.out := by
  unfold ConvertMesh at hcm
  split at hcm
  · cases hcm; rfl
  · split_ifs at hcm
    · cases hcm; rfl
    · cases hb : buildMesh cfg mesh with
      | error e => rw [hb] at hcm; cases hcm
      | ok out_mesh =>
        rw [hb] at hcm
        simp only [Except.bind] at hcm
        cases hcm
        exact (ConvertMaterialForMesh_frame cfg model _ _).2.2.1

theorem ConvertMaterial_out [FloatOps F] (cfg : BuildConfig) (mat : Material F)
    (s : Converter F) : (ConvertMaterial cfg mat s).2.out = s.out := by
  obtain ⟨m0, l, _, heq⟩ := ConvertMaterial_eq cfg mat s
  rw [heq]

theorem beforeTransfer_sceneUntouched [FloatOps F] (cfg : BuildConfig) (doc : Document F)
    (uninit fuel : Nat) (s : Converter F)
    (h : Converter.beforeTransfer cfg doc uninit fuel = Except.ok s) : s.SceneUntouched := by
  refine beforeTransfer_invariant cfg doc uninit fuel (fun s => s.SceneUntouched) ?_ ?_ ?_ ?_ s h
  · intro s s' hp _ _ _ _ _ h6 h7
    exact ⟨h6.trans hp.1, h7.trans hp.2⟩
  · intro s mesh model r s' hp hcm
    have := ConvertMesh_out cfg s mesh model r s' hcm
    exact ⟨by rw [this]; exact hp.1, by rw [this]; exact hp.2⟩
  · intro s mat hp _
    have := ConvertMaterial_out cfg mat s
    exact ⟨by rw [this]; exact hp.1, by rw [this]; exact hp.2⟩
  · exact ⟨rfl, rfl⟩

theorem beforeTransfer_materialsConsistent [FloatOps F] (cfg : BuildConfig) (doc : Document F)
    (uninit fuel : Nat) (s : Converter F)
    (h : Converter.beforeTransfer cfg doc uninit fuel = Except.ok s) : s.MaterialsConsistent :=
  beforeTransfer_invariant cfg doc uninit fuel (fun s => s.MaterialsConsistent)
    MaterialsConsistent_frameStable
    (fun s mesh model r s' hp hcm => MaterialsConsistent_ConvertMesh cfg s mesh model r s' hp hcm)
    (fun s mat hp hno => MaterialsConsistent_ConvertMaterial cfg mat s hp hno)
    (MaterialsConsistent_initial uninit) s h

/-- A finished conversion hands over the mesh list and the material list of
the converter as they are before the transfer. -/
theorem ConvertToAssimpScene_inv [FloatOps F] (cfg : BuildConfig) (doc : Document F)
    (uninit fuel : Nat) (res : ConversionResult F)
    (h : ConvertToAssimpScene cfg doc uninit fuel = Except.ok res) :
    ∃ s, Converter.beforeTransfer cfg doc uninit fuel = Except.ok s ∧
      res.scene.mMeshes = s.meshes ∧ res.scene.mMaterials = s.materials ∧
      res.scene.mRootNode = s.out.mRootNode ∧ res.nodes = s.nodes ∧ res.log = s.log := by
  unfold ConvertToAssimpScene at h
  cases hb : Converter.beforeTransfer cfg doc uninit fuel with
  | error e => rw [hb] at h; cases h
  | ok s =>
    rw [hb] at h
    have hu := beforeTransfer_sceneUntouched cfg doc uninit fuel s hb
    refine ⟨s, rfl, ?_⟩
    simp only [Except.bind, TransferDataToScene] at h
    split at h
    · cases h
    · rename_i sc hsc
      cases h
      split at hsc
      · cases hsc
      · split_ifs at hsc with hlen
        · cases hsc
          exact ⟨rfl, rfl, rfl, rfl, rfl⟩
        · cases hsc
          refine ⟨rfl, ?_, rfl, rfl, rfl⟩
          simp only [hu.2]
          have : s.materials.length = 0 := by omega
          exact (List.length_eq_zero.mp this).symm

theorem filter_length_le_one {α : Type} (p : α → Bool) (l : List α)
    (h : ∀ (i j : Nat) (x y : α), l[i]? = some x → l[j]? = some y → p x = true → p y = true →
      i = j) :
    (l.filter p).length ≤ 1 := by
  induction l with
  | nil => simp
  | cons x tl ih =>
    have htl : ∀ (i j : Nat) (x' y' : α), tl[i]? = some x' → tl[j]? = some y' → p x' = true → p y' = true →
        i = j := by
      intro i j x' y' hi hj hx hy
      have := h (i + 1) (j + 1) x' y' (by simpa using hi) (by simpa using hj) hx hy
      omega
    by_cases hx : p x = true
    · have hnil : tl.filter p = [] := by
        rw [List.filter_eq_nil_iff]
        intro y hy hpy
        obtain ⟨j, hj⟩ := List.getElem?_of_mem hy
        have := h 0 (j + 1) x y (by simp) (by simpa using hj) hx hpy
        omega
      simp [List.filter_cons, hx, hnil]
    · simp only [List.filter_cons, hx]
      exact ih htl

/-! ### The default material -/

theorem GetDefaultMaterial_initialised [FloatOps F] (s : Converter F)
    (h : s.defaultMaterialIndex = 0) :
    (GetDefaultMaterial s).1 = s.materials.length ∧
    (∃ mat, mat.source = none ∧ (GetDefaultMaterial s).2.materials = s.materials ++ [mat]) ∧
    GetDefaultMaterial (GetDefaultMaterial s).2 = GetDefaultMaterial s := by
  simp [GetDefaultMaterial, h, aiMaterial.AddProperty]

theorem DefaultConsistent_of_eq (s s' : Converter F) (h : s.DefaultConsistent)
    (h1 : s'.defaultMaterialIndex = s.defaultMaterialIndex)
    (h2 : s'.meshes = s.meshes) (h3 : s'.materials = s.materials) : s'.DefaultConsistent := by
  constructor
  · rw [h1, h3]; exact h.default_sound
  · rw [h1, h2]; exact h.mesh_default

theorem DefaultConsistent_GetDefaultMaterial [FloatOps F] (s : Converter F)
    (h : s.DefaultConsistent) :
    (GetDefaultMaterial s).2.DefaultConsistent ∧
    (GetDefaultMaterial s).1 + 1 = (GetDefaultMaterial s).2.defaultMaterialIndex := by
  unfold GetDefaultMaterial
  split_ifs with hd
  · exact ⟨h, by simp only; omega⟩
  · refine ⟨⟨?_, ?_⟩, ?_⟩
    · intro _
      simp [aiMaterial.AddProperty]
    · intro m hm hs
      have := h.mesh_default m hm hs
      omega
    · simp

theorem DefaultConsistent_ConvertMaterial [FloatOps F] (cfg : BuildConfig) (mat : Material F)
    (s : Converter F) (h : s.DefaultConsistent) :
    (ConvertMaterial cfg mat s).2.DefaultConsistent := by
  obtain ⟨m0, l, _, heq⟩ := ConvertMaterial_eq cfg mat s
  rw [heq]
  constructor
  · intro hd
    obtain ⟨m, hm, hs⟩ := h.default_sound hd
    have hi : s.defaultMaterialIndex - 1 < s.materials.length :=
      (List.getElem?_eq_some_iff.mp hm).1
    exact ⟨m, by simp only [List.getElem?_append_left hi]; exact hm, hs⟩
  · exact h.mesh_default

theorem DefaultConsistent_ConvertMaterialForMesh [FloatOps F] (cfg : BuildConfig)
    (model : Model F) (materialIndex : Nat) (s : Converter F) (h : s.DefaultConsistent) :
    (ConvertMaterialForMesh cfg model materialIndex s).2.DefaultConsistent ∧
    (model.GetMaterials[materialIndex]? = none →
      (ConvertMaterialForMesh cfg model materialIndex s).1 + 1
        = (ConvertMaterialForMesh cfg model materialIndex s).2.defaultMaterialIndex) := by
  cases hm : model.GetMaterials[materialIndex]? with
  | none =>
    simp only [ConvertMaterialForMesh, hm]
    have h1 : (s.LogError "material index out of bounds, ignoring").DefaultConsistent :=
      DefaultConsistent_of_eq s _ h rfl rfl rfl
    obtain ⟨h2, h3⟩ := DefaultConsistent_GetDefaultMaterial _ h1
    exact ⟨h2, fun _ => h3⟩
  | some mat =>
    cases hf : mapFind s.materials_converted mat.addr with
    | some i =>
      simp only [ConvertMaterialForMesh, hm, hf]
      exact ⟨h, fun hn => by cases hn⟩
    | none =>
      simp only [ConvertMaterialForMesh, hm, hf]
      refine ⟨?_, fun hn => by cases hn⟩
      exact DefaultConsistent_of_eq _ _ (DefaultConsistent_ConvertMaterial cfg mat s h)
        rfl rfl rfl

theorem DefaultConsistent_ConvertMesh [FloatOps F] (cfg : BuildConfig) (s : Converter F)
    (mesh : MeshGeometry F) (model : Model F) (r : Nat) (s' : Converter F)
    (h : s.DefaultConsistent) (hcm : ConvertMesh cfg mesh model s = Except.ok (r, s')) :
    s'.DefaultConsistent := by
  unfold ConvertMesh at hcm
  split at hcm
  · cases hcm; exact h
  · split_ifs at hcm
    · cases hcm
      exact DefaultConsistent_of_eq s _ h rfl rfl rfl
    · cases hb : buildMesh cfg mesh with
      | error e => rw [hb] at hcm; cases hcm
      | ok out_mesh =>
        rw [hb] at hcm
        simp only [Except.bind] at hcm
        cases hcm
        have hs1 : Converter.DefaultConsistent { s with
            meshes_converted := mapInsert s.meshes_converted mesh.addr (mesh, s.meshes.length) } :=
          DefaultConsistent_of_eq s _ h rfl rfl rfl
        obtain ⟨hc, hidx⟩ := DefaultConsistent_ConvertMaterialForMesh cfg model
          (mesh.materialIndices.headD 0) _ hs1
        constructor
        · exact hc.default_sound
        · intro m hm hsl
          simp only [List.mem_append, List.mem_singleton] at hm
          rcases hm with hm | hm
          · exact hc.mesh_default m hm hsl
          · subst hm
            simp only [Option.map_eq_none'] at hsl
            exact hidx hsl

/-- With `defaultMaterialIndex` initialised to 0, a finished conversion leaves
every mesh with a material index inside the material list, and the material
there is the one converted from the source material of the mesh's slot, or a
default material when the slot holds none. -/
theorem conversion_material_index_valid_of_initialised [FloatOps F] (cfg : BuildConfig)
    (doc : Document F) (fuel : Nat) (res : ConversionResult F)
    (h : ConvertToAssimpScene cfg doc 0 fuel = Except.ok res) :
    ∀ m ∈ res.scene.mMeshes, m.mMaterialIndex < res.scene.mMaterials.length ∧
      ∃ mat, res.scene.mMaterials[m.mMaterialIndex]? = some mat ∧
        mat.source = m.slotMaterial := by
  obtain ⟨s, hs, hmeshes, hmats, _, _, _⟩ := ConvertToAssimpScene_inv cfg doc 0 fuel res h
  have hc := beforeTransfer_materialsConsistent cfg doc 0 fuel s hs
  have hd : s.DefaultConsistent := by
    refine beforeTransfer_invariant cfg doc 0 fuel (fun s => s.DefaultConsistent) ?_ ?_ ?_ ?_ s hs
    · intro s s' hp h1 h2 h3 _ _ _ _
      exact DefaultConsistent_of_eq s s' hp h1 h2 h3
    · intro s mesh model r s' hp hcm
      exact DefaultConsistent_ConvertMesh cfg s mesh model r s' hp hcm
    · intro s mat hp _
      exact DefaultConsistent_ConvertMaterial cfg mat s hp
    · exact ⟨fun hne => absurd rfl hne, fun m hm => by cases hm⟩
  rw [hmeshes, hmats]
  intro m hm
  have key : ∃ mat, s.materials[m.mMaterialIndex]? = some mat ∧ mat.source = m.slotMaterial := by
    cases hsl : m.slotMaterial with
    | some a => exact hc.cache_sound a _ (hc.mesh_slot m hm a hsl)
    | none =>
      have h1 := hd.mesh_default m hm hsl
      obtain ⟨mat, hmat, hsrc⟩ := hd.default_sound (by omega)
      have h2 : s.defaultMaterialIndex - 1 = m.mMaterialIndex := by omega
      rw [h2] at hmat
      exact ⟨mat, hmat, hsrc⟩
  obtain ⟨mat, hmat, hsrc⟩ := key
  exact ⟨(List.getElem?_eq_some_iff.mp hmat).1, mat, hmat, hsrc⟩

/-! ### Normals and shading properties -/

theorem buildMesh_normals [FloatOps F] (cfg : BuildConfig) (mesh : MeshGeometry F) (m : aiMesh F)
    (h : buildMesh cfg mesh = Except.ok m) :
    m.mNormals = if mesh.vertices.length ≠ 0 then some mesh.vertices else none := by
  unfold buildMesh at h
  simp only [convertNormals_self, Except.bind] at h
  split at h
  · cases h
  · split at h
    · cases h
    · split at h
      · cases h
      · cases h
        rfl

/-- What `ConvertMesh` puts into `mNormals`: a copy of the vertex positions,
whatever normals the geometry has. -/
theorem ConvertMesh_normals_are_vertices [FloatOps F] (cfg : BuildConfig)
    (mesh : MeshGeometry F) (model : Model F) (s : Converter F)
    (hc : mapFind s.meshes_converted mesh.addr = none)
    (hv : mesh.vertices ≠ []) (hf : mesh.faces ≠ [])
    (r : Nat) (s1 : Converter F) (h : ConvertMesh cfg mesh model s = Except.ok (r, s1)) :
    ∃ m, s1.meshes[r - 1]? = some m ∧ m.mNormals = some mesh.vertices := by
  obtain ⟨out_mesh, i, sm, hbm, hm⟩ := ConvertMesh_produces cfg mesh model s hc hv hf r s1 h
  refine ⟨_, hm, ?_⟩
  have hn := buildMesh_normals cfg mesh out_mesh hbm
  have hvl : mesh.vertices.length ≠ 0 := fun h0 => hv (List.length_eq_zero.mp h0)
  simp only [hn, hvl, ne_eq, not_false_eq_true, if_true]

theorem addColorIfOk_props (m : aiMaterial F) (c : aiColor3D F × Bool) (key : MatKey) :
    (addColorIfOk m c key).props =
      m.props ++ (if c.2 then [⟨key, aiTextureType.NONE, 0, MatValue.color c.1⟩] else []) := by
  unfold addColorIfOk
  split <;> simp [aiMaterial.AddProperty]

theorem addFloatIfOk_props (m : aiMaterial F) (f : Option F) (key : MatKey) :
    (addFloatIfOk m f key).props =
      m.props ++ (f.toList.map fun v => ⟨key, aiTextureType.NONE, 0, MatValue.float v⟩) := by
  unfold addFloatIfOk
  split <;> simp [aiMaterial.AddProperty]

/-! ### The UV channel search -/

theorem findUVChannel_aux (mesh : MeshGeometry F) (uvSet : String) :
    ∀ (n i : Nat),
      (findUVChannel mesh uvSet n i = -1 ∧
        ∀ k, i ≤ k → k < i + n → (∀ j, i ≤ j → j ≤ k → mesh.GetTextureCoords j ≠ []) →
          mesh.GetTextureCoordChannelName k ≠ uvSet) ∨
      ∃ k : Nat, findUVChannel mesh uvSet n i = (k : Int) ∧ i ≤ k ∧ k < i + n ∧
        (∀ j, i ≤ j → j ≤ k → mesh.GetTextureCoords j ≠ []) ∧
        mesh.GetTextureCoordChannelName k = uvSet ∧
        ∀ j, i ≤ j → j < k → mesh.GetTextureCoordChannelName j ≠ uvSet := by
  intro n
  induction n with
  | zero =>
    intro i
    left
    exact ⟨rfl, fun k h1 h2 => by omega⟩
  | succ n ih =>
    intro i
    unfold findUVChannel
    by_cases he : (mesh.GetTextureCoords i).isEmpty = true
    · left
      simp only [he, if_true, true_and]
      intro k h1 _ h3
      exact absurd (List.isEmpty_iff.mp he) (h3 i (Nat.le_refl _) h1)
    · have hne : mesh.GetTextureCoords i ≠ [] := fun h => he (List.isEmpty_iff.mpr h)
      simp only [he]
      by_cases hn : mesh.GetTextureCoordChannelName i = uvSet
      · right
        refine ⟨i, by simp [hn], Nat.le_refl _, by omega, ?_, hn, ?_⟩
        · intro j h1 h2
          have : j = i := by omega
          subst this; exact hne
        · intro j h1 h2; omega
      · simp only [hn, if_false]
        rcases ih (i + 1) with ⟨h1, h2⟩ | ⟨k, h1, h2, h3, h4, h5, h6⟩
        · left
          refine ⟨h1, ?_⟩
          intro k hk1 hk2 hk3
          by_cases hki : k = i
          · subst hki; exact hn
          · exact h2 k (by omega) (by omega) (fun j hj1 hj2 => hk3 j (by omega) hj2)
        · right
          refine ⟨k, h1, by omega, by omega, ?_, h5, ?_⟩
          · intro j hj1 hj2
            by_cases hji : j = i
            · subst hji; exact hne
            · exact h4 j (by omega) hj2
          · intro j hj1 hj2
            by_cases hji : j = i
            · subst hji; exact hn
            · exact h6 j (by omega) hj2

theorem ChannelNamed_unique (mesh : MeshGeometry F) (max : Nat) (uvSet : String) (k k' : Nat)
    (h : mesh.ChannelNamed max uvSet k) (h' : mesh.ChannelNamed max uvSet k') : k = k' := by
  obtain ⟨_, _, h3, h4⟩ := h
  obtain ⟨_, _, h3', h4'⟩ := h'
  rcases Nat.lt_trichotomy k k' with hlt | heq | hgt
  · exact absurd h3 (h4' k hlt)
  · exact heq
  · exact absurd h3' (h4 k' hgt)

/-- The inner loop finds the first channel named `uvSet` among the leading
non-empty channels, or reports `-1` when there is none. -/
theorem findUVChannel_spec (mesh : MeshGeometry F) (uvSet : String) (max : Nat) :
    (findUVChannel mesh uvSet max 0 = -1 ∧ ∀ k, ¬ mesh.ChannelNamed max uvSet k) ∨
    ∃ k : Nat, findUVChannel mesh uvSet max 0 = (k : Int) ∧ mesh.ChannelNamed max uvSet k := by
  rcases findUVChannel_aux mesh uvSet max 0 with ⟨h1, h2⟩ | ⟨k, h1, _, h3, h4, h5, h6⟩
  · left
    refine ⟨h1, ?_⟩
    rintro k ⟨c1, c2, c3, _⟩
    exact h2 k (Nat.zero_le _) (by omega) (fun j _ hj => c2 j hj) c3
  · right
    exact ⟨k, h1, by omega, fun j hj => h4 j (Nat.zero_le _) hj, h5,
      fun j hj => h6 j (Nat.zero_le _) hj⟩

theorem findUVChannel_of_channelNamed (mesh : MeshGeometry F) (uvSet : String) (max k : Nat)
    (h : mesh.ChannelNamed max uvSet k) : findUVChannel mesh uvSet max 0 = (k : Int) := by
  rcases findUVChannel_spec mesh uvSet max with ⟨_, h2⟩ | ⟨k', h1, h2⟩
  · exact absurd h (h2 k)
  · rw [h1, ChannelNamed_unique mesh max uvSet k k' h h2]

theorem findUVChannel_of_not_channelNamed (mesh : MeshGeometry F) (uvSet : String) (max : Nat)
    (h : ∀ k, ¬ mesh.ChannelNamed max uvSet k) : findUVChannel mesh uvSet max 0 = -1 := by
  rcases findUVChannel_spec mesh uvSet max with ⟨h1, _⟩ | ⟨k', _, h2⟩
  · exact h1
  · exact absurd h2 (h k')

theorem failed_ne_didNotFind (uvSet : String) :
    "failed to resolve UV channel " ++ uvSet ++ ", using first UV channel" ≠
      "did not find UV channel named " ++ uvSet ++ " in a mesh using this material" := by
  intro h
  have h2 := congrArg (fun s => s.data.head?) h
  simp [String.data_append] at h2

theorem failed_ne_differentPositions (uvSet : String) :
    "failed to resolve UV channel " ++ uvSet ++ ", using first UV channel" ≠
      "the UV channel named " ++ uvSet ++
        " appears at different positions in meshes, results will be wrong" := by
  intro h
  have h2 := congrArg (fun s => s.data.head?) h
  simp [String.data_append] at h2

theorem uvSearch_sticky (cfg : BuildConfig) (uvSet : String) (matIndex : Nat) :
    ∀ (l : List (Nat × MeshGeometry F × Nat)) (st : Int × List LogEntry), st.1 ≠ -1 →
      (l.foldl (uvSearchStep cfg uvSet matIndex) st).1 = st.1 := by
  intro l
  induction l with
  | nil => intro st _; rfl
  | cons v l ih =>
    intro st hst
    simp only [List.foldl_cons]
    have hstep : (uvSearchStep cfg uvSet matIndex st v).1 = st.1 := by
      unfold uvSearchStep
      simp only [hst, if_false]
      split_ifs <;> rfl
    rw [ih _ (by rw [hstep]; exact hst), hstep]

theorem uvSearch_none (cfg : BuildConfig) (uvSet : String) (matIndex : Nat) :
    ∀ (l : List (Nat × MeshGeometry F × Nat)) (st : Int × List LogEntry),
      (∀ v ∈ l, v.2.1.materialIndices.contains matIndex = false ∨
        findUVChannel v.2.1 uvSet cfg.AI_MAX_NUMBER_OF_TEXTURECOORDS 0 = -1) →
      (l.foldl (uvSearchStep cfg uvSet matIndex) st).1 = st.1 := by
  intro l
  induction l with
  | nil => intro st _; rfl
  | cons v l ih =>
    intro st h
    simp only [List.foldl_cons]
    have hstep : (uvSearchStep cfg uvSet matIndex st v).1 = st.1 := by
      unfold uvSearchStep
      rcases h v (List.mem_cons_self _ _) with hc | hf
      · simp only [hc, Bool.not_false, if_true]
      · simp only [hf, if_true]
        split_ifs <;> rfl
    rw [ih _ (fun u hu => h u (List.mem_cons_of_mem _ hu)), hstep]

theorem uvSearchStep_match (cfg : BuildConfig) (uvSet : String) (matIndex : Nat)
    (st : Int × List LogEntry) (v : Nat × MeshGeometry F × Nat) (hst : st.1 = -1)
    (hc : v.2.1.materialIndices.contains matIndex = true)
    (hf : findUVChannel v.2.1 uvSet cfg.AI_MAX_NUMBER_OF_TEXTURECOORDS 0 ≠ -1) :
    (uvSearchStep cfg uvSet matIndex st v).1 =
      findUVChannel v.2.1 uvSet cfg.AI_MAX_NUMBER_OF_TEXTURECOORDS 0 := by
  unfold uvSearchStep
  simp only [hc, Bool.not_true, Bool.false_eq_true, if_false, hf, hst, if_true]

theorem uvSearch_first (cfg : BuildConfig) (uvSet : String) (matIndex : Nat)
    (pre post : List (Nat × MeshGeometry F × Nat)) (v : Nat × MeshGeometry F × Nat)
    (lg : List LogEntry)
    (hpre : ∀ u ∈ pre, u.2.1.materialIndices.contains matIndex = false ∨
      findUVChannel u.2.1 uvSet cfg.AI_MAX_NUMBER_OF_TEXTURECOORDS 0 = -1)
    (hc : v.2.1.materialIndices.contains matIndex = true)
    (hf : findUVChannel v.2.1 uvSet cfg.AI_MAX_NUMBER_OF_TEXTURECOORDS 0 ≠ -1) :
    ((pre ++ v :: post).foldl (uvSearchStep cfg uvSet matIndex) (-1, lg)).1 =
      findUVChannel v.2.1 uvSet cfg.AI_MAX_NUMBER_OF_TEXTURECOORDS 0 := by
  rw [List.foldl_append, List.foldl_cons]
  have h1 := uvSearch_none cfg uvSet matIndex pre (-1, lg) hpre
  have hstep := uvSearchStep_match cfg uvSet matIndex
    (pre.foldl (uvSearchStep cfg uvSet matIndex) (-1, lg)) v h1 hc hf
  rw [uvSearch_sticky cfg uvSet matIndex post _ (by rw [hstep]; exact hf), hstep]

theorem uvSearch_log (cfg : BuildConfig) (uvSet : String) (matIndex : Nat) :
    ∀ (l : List (Nat × MeshGeometry F × Nat)) (st : Int × List LogEntry),
      ∀ e ∈ (l.foldl (uvSearchStep cfg uvSet matIndex) st).2,
        e ∈ st.2 ∨
        e = LogEntry.warn
          ("did not find UV channel named " ++ uvSet ++ " in a mesh using this material") ∨
        e = LogEntry.warn ("the UV channel named " ++ uvSet ++
          " appears at different positions in meshes, results will be wrong") := by
  intro l
  induction l with
  | nil => intro st e he; exact Or.inl he
  | cons v l ih =>
    intro st e he
    simp only [List.foldl_cons] at he
    rcases ih _ e he with h | h | h
    · unfold uvSearchStep at h
      simp only at h
      split_ifs at h
      · exact Or.inl h
      · simp only [List.mem_append, List.mem_singleton] at h
        rcases h with h | h
        · exact Or.inl h
        · exact Or.inr (Or.inl h)
      · exact Or.inl h
      · simp only [List.mem_append, List.mem_singleton] at h
        rcases h with h | h
        · exact Or.inl h
        · exact Or.inr (Or.inr h)
    · exact Or.inr (Or.inl h)
    · exact Or.inr (Or.inr h)

theorem TrySetTextureProperties_recorded (cfg : BuildConfig) (s : Converter F) (matIndex : Nat)
    (out_mat : aiMaterial F) (textures : List (String × Texture F)) (propName : String)
    (target : aiTextureType) (tex : Texture F) (htex : textures.lookup propName = some tex) :
    (TrySetTextureProperties cfg s matIndex out_mat textures propName target).1.props.getLast?
      = some ⟨MatKey.UVWSRC_BASE, target, 0,
          MatValue.int (resolveUVIndex cfg s matIndex tex.Props).1⟩ ∧
    (TrySetTextureProperties cfg s matIndex out_mat textures propName target).2
      = (resolveUVIndex cfg s matIndex tex.Props).2 := by
  simp [TrySetTextureProperties, htex, aiMaterial.AddProperty]

theorem resolveUVIndex_named (cfg : BuildConfig) (s : Converter F) (matIndex : Nat)
    (props : PropertyTable F) (uvSet : String)
    (h1 : PropertyGet_string props "UVSet" = some uvSet) (h2 : uvSet ≠ "default")
    (h3 : uvSet.length ≠ 0) :
    resolveUVIndex cfg s matIndex props =
      if (s.meshes_converted.foldl (uvSearchStep cfg uvSet matIndex) (-1, [])).1 = -1 then
        (0, (s.meshes_converted.foldl (uvSearchStep cfg uvSet matIndex) (-1, [])).2 ++
          [LogEntry.warn ("failed to resolve UV channel " ++ uvSet ++ ", using first UV channel")])
      else s.meshes_converted.foldl (uvSearchStep cfg uvSet matIndex) (-1, []) := by
  simp only [resolveUVIndex, h1, h2, h3, ne_eq, not_false_eq_true, and_self, if_true]

theorem resolveUVIndex_first (cfg : BuildConfig) (s : Converter F) (matIndex : Nat)
    (props : PropertyTable F) (uvSet : String)
    (h1 : PropertyGet_string props "UVSet" = some uvSet) (h2 : uvSet ≠ "default")
    (h3 : uvSet.length ≠ 0)
    (pre post : List (Nat × MeshGeometry F × Nat)) (v : Nat × MeshGeometry F × Nat) (k : Nat)
    (hsplit : s.meshes_converted = pre ++ v :: post)
    (hc : v.2.1.materialIndices.contains matIndex = true)
    (hk : v.2.1.ChannelNamed cfg.AI_MAX_NUMBER_OF_TEXTURECOORDS uvSet k)
    (hpre : ∀ u ∈ pre, u.2.1.materialIndices.contains matIndex = false ∨
      ∀ k', ¬ u.2.1.ChannelNamed cfg.AI_MAX_NUMBER_OF_TEXTURECOORDS uvSet k') :
    (resolveUVIndex cfg s matIndex props).1 = (k : Int) ∧
    LogEntry.warn ("failed to resolve UV channel " ++ uvSet ++ ", using first UV channel")
      ∉ (resolveUVIndex cfg s matIndex props).2 := by
  have hf := findUVChannel_of_channelNamed v.2.1 uvSet _ k hk
  have hfold : (s.meshes_converted.foldl (uvSearchStep cfg uvSet matIndex) (-1, [])).1
      = (k : Int) := by
    rw [hsplit, uvSearch_first cfg uvSet matIndex pre post v [] ?_ hc (by rw [hf]; omega), hf]
    intro u hu
    rcases hpre u hu with h | h
    · exact Or.inl h
    · exact Or.inr (findUVChannel_of_not_channelNamed _ _ _ h)
  rw [resolveUVIndex_named cfg s matIndex props uvSet h1 h2 h3]
  have hne : ¬ ((s.meshes_converted.foldl (uvSearchStep cfg uvSet matIndex) (-1, [])).1 = -1) := by
    rw [hfold]; omega
  simp only [hne, if_false]
  refine ⟨hfold, ?_⟩
  intro hmem
  rcases uvSearch_log cfg uvSet matIndex _ _ _ hmem with h | h | h
  · cases h
  · exact failed_ne_didNotFind uvSet (LogEntry.warn.inj h)
  · exact failed_ne_differentPositions uvSet (LogEntry.warn.inj h)

theorem resolveUVIndex_unmatched (cfg : BuildConfig) (s : Converter F) (matIndex : Nat)
    (props : PropertyTable F) (uvSet : String)
    (h1 : PropertyGet_string props "UVSet" = some uvSet) (h2 : uvSet ≠ "default")
    (h3 : uvSet.length ≠ 0)
    (hall : ∀ u ∈ s.meshes_converted, u.2.1.materialIndices.contains matIndex = false ∨
      ∀ k', ¬ u.2.1.ChannelNamed cfg.AI_MAX_NUMBER_OF_TEXTURECOORDS uvSet k') :
    (resolveUVIndex cfg s matIndex props).1 = 0 ∧
    LogEntry.warn ("failed to resolve UV channel " ++ uvSet ++ ", using first UV channel")
      ∈ (resolveUVIndex cfg s matIndex props).2 := by
  have hfold : (s.meshes_converted.foldl (uvSearchStep cfg uvSet matIndex) (-1, [])).1 = -1 := by
    apply uvSearch_none
    intro u hu
    rcases hall u hu with h | h
    · exact Or.inl h
    · exact Or.inr (findUVChannel_of_not_channelNamed _ _ _ h)
  rw [resolveUVIndex_named cfg s matIndex props uvSet h1 h2 h3]
  simp only [hfold, if_true, List.mem_append, List.mem_singleton, or_true, and_self]

theorem resolveUVIndex_default (cfg : BuildConfig) (s : Converter F) (matIndex : Nat)
    (props : PropertyTable F)
    (h : PropertyGet_string props "UVSet" = none ∨
      PropertyGet_string props "UVSet" = some "default") :
    resolveUVIndex cfg s matIndex props = (0, []) := by
  rcases h with h | h <;> simp [resolveUVIndex, h]

theorem uvMeshA_channel : uvMeshA.ChannelNamed 4 "UV2" 1 := by
  refine ⟨by decide, ?_, by decide, ?_⟩
  · intro j hj
    interval_cases j <;> decide
  · intro j hj
    interval_cases j
    decide

theorem uvMeshB_no_channel : ∀ k, ¬ uvMeshB.ChannelNamed 4 "UV2" k := by
  intro k hk
  have h := findUVChannel_of_channelNamed uvMeshB "UV2" 4 k hk
  have h2 : findUVChannel uvMeshB "UV2" 4 0 = -1 := by decide
  rw [h2] at h
  omega

/-! ### The root node -/

theorem modify_append_singleton {α : Type} (f : α → α) (l : List α) (x : α) :
    List.modify f l.length (l ++ [x]) = l ++ [f x] := by
  induction l with
  | nil => rfl
  | cons a l ih => simp only [List.length_cons, List.cons_append, List.modify_succ_cons, ih]

/-- The shape of the constructor up to the transfer: the traversal from the
synthetic root, the optional pass over all materials, and a fresh root node
appended to the node arena that lists every mesh. -/
theorem beforeTransfer_eq [FloatOps F] (cfg : BuildConfig) (doc : Document F)
    (uninit fuel : Nat) (s : Converter F)
    (h : Converter.beforeTransfer cfg doc uninit fuel = Except.ok s) :
    ∃ s1 s2, ConvertRootNode cfg doc fuel (Converter.initial uninit) = Except.ok s1 ∧
      s2 = (if doc.readAllMaterials then doc.Objects.foldl (readAllMaterialsStep cfg) s1 else s1) ∧
      s.nodes = s2.nodes ++ [⟨"", none, [], List.range s2.meshes.length⟩] ∧
      s.out.mRootNode = some s2.nodes.length ∧
      s.meshes = s2.meshes ∧ s.materials = s2.materials ∧
      s.materials_converted = s2.materials_converted ∧
      s.meshes_converted = s2.meshes_converted ∧
      s.defaultMaterialIndex = s2.defaultMaterialIndex ∧ s.log = s2.log := by
  unfold Converter.beforeTransfer at h
  simp only [Except.bind] at h
  split at h
  · cases h
  · rename_i s1 h1
    refine ⟨s1, _, h1, rfl, ?_⟩
    cases h
    simp [Converter.modifyNode, Converter.newNode, modify_append_singleton]

/-- The root of a finished scene: the node allocated last, which has an empty
name, no parent, no children and the mesh indices `0, ..., n-1`. -/
theorem ConvertToAssimpScene_root [FloatOps F] (cfg : BuildConfig) (doc : Document F)
    (uninit fuel : Nat) (res : ConversionResult F)
    (h : ConvertToAssimpScene cfg doc uninit fuel = Except.ok res) :
    res.scene.mRootNode = some (res.nodes.length - 1) ∧
    res.nodes[res.nodes.length - 1]? =
      some ⟨"", none, [], List.range res.scene.mMeshes.length⟩ := by
  obtain ⟨s, hs, hmeshes, _, hroot, hnodes, _⟩ := ConvertToAssimpScene_inv cfg doc uninit fuel res h
  obtain ⟨s1, s2, _, _, hn, hr, hm, _⟩ := beforeTransfer_eq cfg doc uninit fuel s hs
  rw [hroot, hnodes, hmeshes, hn, hr, hm]
  simp

/-- Induction over a conversion as in `beforeTransfer_invariant`, where
`ConvertMaterial` on a material not in the cache has to keep the property only
when the document asks for the pass over all materials. -/
theorem beforeTransfer_invariant_gated [FloatOps F] (cfg : BuildConfig) (doc : Document F)
    (uninit fuel : Nat) (P : Converter F → Prop) (hframe : FrameStable P)
    (hmesh : ∀ s mesh model r s', P s → ConvertMesh cfg mesh model s = Except.ok (r, s') → P s')
    (hmat : doc.readAllMaterials = true → ∀ s mat, P s →
      mapFind s.materials_converted mat.addr = none → P (ConvertMaterial cfg mat s).2)
    (h0 : P (Converter.initial uninit)) (s : Converter F)
    (h : Converter.beforeTransfer cfg doc uninit fuel = Except.ok s) : P s := by
  unfold Converter.beforeTransfer at h
  simp only [Except.bind] at h
  split at h
  · cases h
  · rename_i s1 h1
    have hp1 : P s1 := by
      unfold ConvertRootNode at h1
      refine ConvertNodes_invariant cfg doc P hframe hmesh fuel 0 _ _ s1 ?_ h1
      exact hframe _ _ h0 rfl rfl rfl rfl rfl rfl rfl
    have hp2 : P (if doc.readAllMaterials then doc.Objects.foldl (readAllMaterialsStep cfg) s1
        else s1) := by
      split_ifs with hr
      · exact readAllMaterials_invariant cfg P (hmat hr) _ _ hp1
      · exact hp1
    cases h
    exact hframe _ _ hp2 rfl rfl rfl rfl rfl rfl rfl

theorem MaterialsConsistent_count_le_one (s : Converter F) (hc : s.MaterialsConsistent)
    (a : Nat) : (s.materials.filter fun mat => decide (mat.source = some a)).length ≤ 1 := by
  apply filter_length_le_one
  intro i j x y hi hj hx hy
  have h1 := hc.cache_complete i x a hi (of_decide_eq_true hx)
  have h2 := hc.cache_complete j y a hj (of_decide_eq_true hy)
  rw [h1] at h2
  exact Option.some.inj h2

theorem readAllMaterialsStep_mono [FloatOps F] (cfg : BuildConfig) (s : Converter F)
    (v : Nat × Option (Object F)) (a : Nat)
    (h : (mapFind s.materials_converted a).isSome) :
    (mapFind (readAllMaterialsStep cfg s v).materials_converted a).isSome := by
  unfold readAllMaterialsStep
  split
  · rename_i mat _
    split_ifs with hno
    · obtain ⟨m0, l, _, heq⟩ := ConvertMaterial_eq cfg mat s
      rw [heq]
      simp only
      by_cases ha : mat.addr = a
      · subst ha; rw [mapFind_mapInsert_self]; rfl
      · rw [mapFind_mapInsert_of_ne _ _ _ _ ha]; exact h
    · exact h
  · exact h

theorem readAllMaterials_mono [FloatOps F] (cfg : BuildConfig) (a : Nat) :
    ∀ (objs : List (Nat × Option (Object F))) (s : Converter F),
      (mapFind s.materials_converted a).isSome →
      (mapFind (objs.foldl (readAllMaterialsStep cfg) s).materials_converted a).isSome := by
  intro objs
  induction objs with
  | nil => intro s h; exact h
  | cons v objs ih =>
    intro s h
    simp only [List.foldl_cons]
    exact ih _ (readAllMaterialsStep_mono cfg s v a h)

/-- After the pass over all materials every material object of the document
has an entry in `materials_converted`. -/
theorem readAllMaterials_covers [FloatOps F] (cfg : BuildConfig) :
    ∀ (objs : List (Nat × Option (Object F))) (s : Converter F),
      ∀ v ∈ objs, ∀ mat, v.2 = some (Object.material mat) →
      (mapFind (objs.foldl (readAllMaterialsStep cfg) s).materials_converted mat.addr).isSome := by
  intro objs
  induction objs with
  | nil => intro s v hv; cases hv
  | cons x objs ih =>
    intro s v hv mat hmat
    simp only [List.foldl_cons]
    rcases List.mem_cons.mp hv with hx | hx
    · subst hx
      apply readAllMaterials_mono
      unfold readAllMaterialsStep
      simp only [hmat]
      split_ifs with hno
      · obtain ⟨m0, l, _, heq⟩ := ConvertMaterial_eq cfg mat s
        rw [heq]
        simp only
        rw [mapFind_mapInsert_self]; rfl
      · cases hf : mapFind s.materials_converted mat.addr with
        | none => exact absurd hf hno
        | some i => rfl
    · exact ih _ v hx mat hmat

theorem ConvertMaterialForMesh_materials [FloatOps F] (cfg : BuildConfig) (model : Model F)
    (materialIndex : Nat) (s : Converter F) :
    ∃ extra, (ConvertMaterialForMesh cfg model materialIndex s).2.materials
        = s.materials ++ extra ∧
      ∀ m ∈ extra, m.source = none ∨
        m.source = (model.GetMaterials[materialIndex]?).map fun mat => mat.addr := by
  cases hm : model.GetMaterials[materialIndex]? with
  | none =>
    simp only [ConvertMaterialForMesh, hm, GetDefaultMaterial]
    split_ifs
    · exact ⟨[], by simp [Converter.LogError], fun m hm => by cases hm⟩
    · refine ⟨_, rfl, ?_⟩
      intro m hmem
      simp only [List.mem_singleton] at hmem
      subst hmem
      left; rfl
  | some mat =>
    cases hf : mapFind s.materials_converted mat.addr with
    | some i =>
      simp only [ConvertMaterialForMesh, hm, hf]
      exact ⟨[], by simp, fun m hm => by cases hm⟩
    | none =>
      simp only [ConvertMaterialForMesh, hm, hf]
      obtain ⟨m0, l, hsrc, heq⟩ := ConvertMaterial_eq cfg mat s
      rw [heq]
      refine ⟨[m0], rfl, ?_⟩
      intro m hmem
      simp only [List.mem_singleton] at hmem
      subst hmem
      right; rw [hsrc]; rfl

theorem MaterialsFromMeshes_ConvertMesh [FloatOps F] (cfg : BuildConfig) (s : Converter F)
    (mesh : MeshGeometry F) (model : Model F) (r : Nat) (s' : Converter F)
    (h : s.MaterialsFromMeshes) (hcm : ConvertMesh cfg mesh model s = Except.ok (r, s')) :
    s'.MaterialsFromMeshes := by
  unfold ConvertMesh at hcm
  split at hcm
  · cases hcm; exact h
  · split_ifs at hcm
    · cases hcm; exact h
    · cases hb : buildMesh cfg mesh with
      | error e => rw [hb] at hcm; cases hcm
      | ok out_mesh =>
        rw [hb] at hcm
        simp only [Except.bind] at hcm
        cases hcm
        obtain ⟨extra, hext, hsrc⟩ := ConvertMaterialForMesh_materials cfg model
          (mesh.materialIndices.headD 0) { s with
            meshes_converted := mapInsert s.meshes_converted mesh.addr (mesh, s.meshes.length) }
        have hfr := ConvertMaterialForMesh_frame cfg model (mesh.materialIndices.headD 0)
          { s with
            meshes_converted := mapInsert s.meshes_converted mesh.addr (mesh, s.meshes.length) }
        intro m hm
        simp only [hext, List.mem_append] at hm
        simp only [hfr.1]
        rcases hm with hm | hm
        · rcases h m hm with h1 | ⟨mesh1, hmesh1, h1⟩
          · exact Or.inl h1
          · exact Or.inr ⟨mesh1, List.mem_append_left _ hmesh1, h1⟩
        · rcases hsrc m hm with h1 | h1
          · exact Or.inl h1
          · right
            refine ⟨_, List.mem_append_right _ (List.mem_singleton_self _), ?_⟩
            rw [h1]

theorem lookup_mem {α β : Type} [BEq α] [LawfulBEq α] (a : α) (b : β) :
    ∀ (l : List (α × β)), l.lookup a = some b → (a, b) ∈ l := by
  intro l
  induction l with
  | nil => intro h; cases h
  | cons x l ih =>
    intro h
    obtain ⟨k, v⟩ := x
    simp only [List.lookup_cons] at h
    split at h
    · rename_i heq
      have hk : a = k := eq_of_beq heq
      cases h
      subst hk
      exact List.mem_cons_self _ _
    · exact List.mem_cons_of_mem _ (ih h)

theorem SourceObject_model_mem (doc : Document F) (con : Connection) (model : Model F)
    (h : con.SourceObject doc = some (Object.model model)) : model ∈ doc.models := by
  unfold Connection.SourceObject at h
  cases hl : doc.Objects.lookup con.src with
  | none => rw [hl] at h; cases h
  | some o =>
    rw [hl] at h
    simp only [Option.join] at h
    subst h
    have hmem := lookup_mem con.src _ doc.Objects hl
    unfold Document.models
    rw [List.mem_filterMap]
    exact ⟨_, hmem, rfl⟩

/-- The three ways in which `ConvertMesh` returns: from the cache, with 0 for
an empty geometry, or with a new mesh built from the geometry. -/
theorem ConvertMesh_cases [FloatOps F] (cfg : BuildConfig) (mesh : MeshGeometry F)
    (model : Model F) (s : Converter F) (r : Nat) (s' : Converter F)
    (h : ConvertMesh cfg mesh model s = Except.ok (r, s')) :
    (∃ e, mapFind s.meshes_converted mesh.addr = some e ∧ r = e.2 + 1 ∧ s' = s) ∨
    (mapFind s.meshes_converted mesh.addr = none ∧ (mesh.vertices = [] ∨ mesh.faces = []) ∧
      r = 0 ∧ s'.meshes = s.meshes ∧ s'.meshes_converted = s.meshes_converted ∧
      s'.nodes = s.nodes) ∨
    (mapFind s.meshes_converted mesh.addr = none ∧ mesh.vertices ≠ [] ∧ mesh.faces ≠ [] ∧
      r = s.meshes.length + 1 ∧
      (∃ m, m.mVertices = mesh.vertices ∧ s'.meshes = s.meshes ++ [m]) ∧
      s'.meshes_converted = mapInsert s.meshes_converted mesh.addr (mesh, s.meshes.length) ∧
      s'.nodes = s.nodes) := by
  cases hc : mapFind s.meshes_converted mesh.addr with
  | some e =>
    left
    unfold ConvertMesh at h
    simp only [hc] at h
    cases h
    exact ⟨e, rfl, rfl, rfl⟩
  | none =>
    right
    by_cases he : mesh.vertices = [] ∨ mesh.faces = []
    · left
      have h1 : (mesh.vertices.isEmpty || mesh.faces.isEmpty) = true := by
        rcases he with h | h <;> simp [h]
      unfold ConvertMesh at h
      simp only [hc, h1, if_true] at h
      cases h
      exact ⟨rfl, he, rfl, rfl, rfl, rfl⟩
    · right
      have hv : mesh.vertices ≠ [] := fun h => he (Or.inl h)
      have hf : mesh.faces ≠ [] := fun h => he (Or.inr h)
      rw [ConvertMesh_fresh cfg mesh model s hc hv hf] at h
      cases hb : buildMesh cfg mesh with
      | error e => rw [hb] at h; cases h
      | ok out_mesh =>
        rw [hb] at h
        simp only [Except.bind] at h
        cases h
        obtain ⟨_, _, hverts, _⟩ := buildMesh_faces cfg mesh out_mesh hb
        have hfr := ConvertMaterialForMesh_frame cfg model (mesh.materialIndices.headD 0)
          { s with
            meshes_converted := mapInsert s.meshes_converted mesh.addr (mesh, s.meshes.length) }
        refine ⟨rfl, hv, hf, rfl, ⟨?m, ?h1, ?h2⟩, hfr.2.1, hfr.2.2.2⟩
        case h2 => exact rfl
        case h1 => exact hverts

theorem readAllMaterials_frame [FloatOps F] (cfg : BuildConfig) :
    ∀ (objs : List (Nat × Option (Object F))) (s : Converter F),
      (objs.foldl (readAllMaterialsStep cfg) s).meshes = s.meshes ∧
      (objs.foldl (readAllMaterialsStep cfg) s).meshes_converted = s.meshes_converted ∧
      (objs.foldl (readAllMaterialsStep cfg) s).nodes = s.nodes := by
  intro objs
  induction objs with
  | nil => intro s; exact ⟨rfl, rfl, rfl⟩
  | cons v objs ih =>
    intro s
    simp only [List.foldl_cons]
    obtain ⟨h1, h2, h3⟩ := ih (readAllMaterialsStep cfg s v)
    have hstep : (readAllMaterialsStep cfg s v).meshes = s.meshes ∧
        (readAllMaterialsStep cfg s v).meshes_converted = s.meshes_converted ∧
        (readAllMaterialsStep cfg s v).nodes = s.nodes := by
      unfold readAllMaterialsStep
      split
      · rename_i mat _
        split_ifs
        · obtain ⟨m0, l, _, heq⟩ := ConvertMaterial_eq cfg mat s
          rw [heq]
          exact ⟨rfl, rfl, rfl⟩
        · exact ⟨rfl, rfl, rfl⟩
      · exact ⟨rfl, rfl, rfl⟩
    exact ⟨h1.trans hstep.1, h2.trans hstep.2.1, h3.trans hstep.2.2⟩

/-- The state in which `ConvertNodes` calls `ConvertModel` for a new node:
the node, named after the model and linked to its parent, is appended to the
node arena. -/
theorem newNode_named (s : Converter F) (name : String) (parent : Nat) :
    ((s.newNode.2.modifyNode s.newNode.1 fun n => { n with mName := name }).modifyNode
        s.newNode.1 fun n => { n with mParent := some parent }) =
      { s with nodes := s.nodes ++ [⟨name, some parent, [], []⟩] } := by
  simp [Converter.modifyNode, Converter.newNode, modify_append_singleton]

/-- Induction over `ConvertNodes` for a property of the whole converter
state, node arena included: it is enough that logging keeps it and that it
holds after `ConvertModel` has run on a freshly appended node of a model of
the document. -/
theorem ConvertNodes_node_invariant [FloatOps F] (cfg : BuildConfig) (doc : Document F)
    (Q : Converter F → Prop)
    (hlog : ∀ s msg, Q s → Q (s.LogWarn msg))
    (hmodel : ∀ s model parent s2, Q s → model ∈ doc.models →
      ConvertModel cfg model s.nodes.length
        { s with nodes := s.nodes ++ [⟨model.Name, some parent, [], []⟩] } = Except.ok s2 →
      Q s2) :
    ∀ (fuel id parent : Nat) (s s' : Converter F), Q s →
      ConvertNodes cfg doc fuel id parent s = Except.ok s' → Q s' := by
  intro fuel
  induction fuel with
  | zero => intro id parent s s' _ h; cases h
  | succ fuel ih =>
    intro id parent s s' hp h
    unfold ConvertNodes at h
    simp only [Except.bind] at h
    split at h
    · cases h
    · rename_i st hfold
      have hq : Q st := by
        refine foldlM_except_invariant _ Q ?_ _ s st hp hfold
        intro st0 con st1 hq0 hs
        simp only at hs
        split_ifs at hs with hpn
        · cases hs; exact hq0
        · split at hs
          · cases hs
            exact hlog _ _ hq0
          · rename_i model hsrc
            rw [newNode_named] at hs
            split at hs
            · cases hs
            · rename_i s2 hcm
              refine ih _ _ s2 st1 ?_ hs
              exact hmodel st0 model parent s2 hq0 (SourceObject_model_mem doc con model hsrc) hcm
          · cases hs; exact hq0
      simp only [List.length_nil, ne_eq, not_true_eq_false, if_false] at h
      cases h
      exact hq

theorem ConvertModel_eq [FloatOps F] (cfg : BuildConfig) (model : Model F) (nd : Nat)
    (s s' : Converter F) (h : ConvertModel cfg model nd s = Except.ok s') :
    ∃ acc t, model.GetGeometry.foldlM (convertModelStep cfg model) (([] : List Nat), s)
        = Except.ok (acc, t) ∧
      s'.meshes = t.meshes ∧ s'.meshes_converted = t.meshes_converted ∧
      s'.nodes = if acc.length ≠ 0 then t.nodes.modify (fun n => { n with mMeshes := acc }) nd
        else t.nodes := by
  unfold ConvertModel at h
  cases hfold : model.GetGeometry.foldlM (convertModelStep cfg model) (([] : List Nat), s) with
  | error e => rw [hfold] at h; cases h
  | ok st =>
    rw [hfold] at h
    simp only [Except.bind] at h
    refine ⟨st.1, st.2, rfl, ?_⟩
    split_ifs at h with hl
    · cases h
      simp [Converter.modifyNode, hl]
    · cases h
      simp [hl]

theorem convertModelStep_cases [FloatOps F] (cfg : BuildConfig) (model : Model F)
    (st st' : List Nat × Converter F) (geo : Geometry F)
    (h : convertModelStep cfg model st geo = Except.ok st') :
    (∃ mesh r, geo = Geometry.mesh mesh ∧
      ConvertMesh cfg mesh model st.2 = Except.ok (r, st'.2) ∧
      st'.1 = if r = 0 then st.1 else st.1 ++ [r - 1]) ∨
    (∃ name, geo = Geometry.other name ∧ st'.1 = st.1 ∧ st'.2.meshes = st.2.meshes ∧
      st'.2.meshes_converted = st.2.meshes_converted ∧ st'.2.nodes = st.2.nodes) := by
  unfold convertModelStep at h
  cases geo with
  | mesh mesh =>
    left
    simp only at h
    cases hcm : ConvertMesh cfg mesh model st.2 with
    | error e => rw [hcm] at h; cases h
    | ok r =>
      obtain ⟨r1, r2⟩ := r
      rw [hcm] at h
      simp only [Except.bind] at h
      refine ⟨mesh, r1, rfl, ?_, ?_⟩
      · split_ifs at h <;> (cases h; exact hcm)
      · split_ifs at h with h0
        · cases h; simp [h0]
        · cases h; simp [h0]
  | other name =>
    right
    simp only at h
    cases h
    exact ⟨name, rfl, rfl, rfl, rfl, rfl⟩

theorem ConvertMesh_bounded [FloatOps F] (cfg : BuildConfig) (mesh : MeshGeometry F)
    (model : Model F) (s : Converter F) (r : Nat) (s' : Converter F)
    (hc : ∀ k e, mapFind s.meshes_converted k = some e → e.2 < s.meshes.length)
    (h : ConvertMesh cfg mesh model s = Except.ok (r, s')) :
    (∀ k e, mapFind s'.meshes_converted k = some e → e.2 < s'.meshes.length) ∧
    s.meshes.length ≤ s'.meshes.length ∧ s'.nodes = s.nodes ∧
    (r ≠ 0 → r - 1 < s'.meshes.length) := by
  rcases ConvertMesh_cases cfg mesh model s r s' h with
    ⟨e, he, hr, hs⟩ | ⟨_, _, hr, hm, hmc, hn⟩ | ⟨hno, _, _, hr, ⟨m, _, hm⟩, hmc, hn⟩
  · subst hs
    refine ⟨hc, Nat.le_refl _, rfl, ?_⟩
    intro _
    have := hc _ e he
    omega
  · refine ⟨?_, by rw [hm], hn, fun h0 => absurd hr h0⟩
    rw [hm, hmc]; exact hc
  · refine ⟨?_, by rw [hm]; simp, hn, ?_⟩
    · intro k e hke
      rw [hmc] at hke
      rw [hm]
      simp only [List.length_append, List.length_singleton]
      by_cases hk : mesh.addr = k
      · subst hk
        rw [mapFind_mapInsert_self] at hke
        cases hke
        simp
      · rw [mapFind_mapInsert_of_ne _ _ _ _ hk] at hke
        have := hc k e hke
        omega
    · intro _
      rw [hm, hr]
      simp

theorem NodeMeshesBounded_ConvertModel [FloatOps F] (cfg : BuildConfig) (model : Model F)
    (nd : Nat) (s s' : Converter F) (hb : s.NodeMeshesBounded)
    (h : ConvertModel cfg model nd s = Except.ok s') : s'.NodeMeshesBounded := by
  obtain ⟨acc, t, hfold, hm, hmc, hn⟩ := ConvertModel_eq cfg model nd s s' h
  have hq : (∀ k e, mapFind t.meshes_converted k = some e → e.2 < t.meshes.length) ∧
      (∀ i ∈ acc, i < t.meshes.length) ∧ t.nodes = s.nodes ∧
      s.meshes.length ≤ t.meshes.length := by
    refine foldlM_except_invariant (convertModelStep cfg model)
      (fun st => (∀ k e, mapFind st.2.meshes_converted k = some e → e.2 < st.2.meshes.length) ∧
        (∀ i ∈ st.1, i < st.2.meshes.length) ∧ st.2.nodes = s.nodes ∧
        s.meshes.length ≤ st.2.meshes.length) ?_ model.GetGeometry (([] : List Nat), s) (acc, t)
      ?_ hfold
    swap
    · exact ⟨hb.cache, fun i hi => absurd hi (List.not_mem_nil i), rfl, Nat.le_refl _⟩
    rintro st0 geo st1 ⟨q1, q2, q3, q4⟩ hs
    rcases convertModelStep_cases cfg model st0 st1 geo hs with
      ⟨mesh, r, _, hcm, hacc⟩ | ⟨name, _, hacc, hm1, hmc1, hn1⟩
    · obtain ⟨b1, b2, b3, b4⟩ := ConvertMesh_bounded cfg mesh model st0.2 r st1.2 q1 hcm
      refine ⟨b1, ?_, b3.trans q3, by omega⟩
      intro i hi
      rw [hacc] at hi
      split_ifs at hi with h0
      · have := q2 i hi; omega
      · simp only [List.mem_append, List.mem_singleton] at hi
        rcases hi with hi | hi
        · have := q2 i hi; omega
        · subst hi; exact b4 h0
    · refine ⟨by rw [hm1, hmc1]; exact q1, by rw [hacc, hm1]; exact q2, hn1.trans q3,
        by rw [hm1]; exact q4⟩
  obtain ⟨q1, q2, q3, q4⟩ := hq
  constructor
  · rw [hm, hmc]; exact q1
  · intro node hnode
    rw [hm]
    rw [hn] at hnode
    split_ifs at hnode with hl
    · obtain ⟨j, hj⟩ := List.mem_iff_getElem?.mp hnode
      rw [List.getElem?_modify, q3] at hj
      cases hold : s.nodes[j]? with
      | none => rw [hold] at hj; cases hj
      | some old =>
        rw [hold] at hj
        simp only [Option.map_eq_map, Option.map_some', Option.some.injEq] at hj
        obtain ⟨o1, o2⟩ := hb.nodes old (List.getElem?_mem hold)
        split_ifs at hj with hnd
        · subst hj
          exact ⟨o1, q2⟩
        · subst hj
          exact ⟨o1, fun i hi => by have := o2 i hi; omega⟩
    · rw [q3] at hnode
      obtain ⟨o1, o2⟩ := hb.nodes node hnode
      exact ⟨o1, fun i hi => by have := o2 i hi; omega⟩

/-- Induction over a conversion for a property of the whole converter state
that ignores materials, log and scene: it holds before the transfer when it
holds at the start, logging keeps it, `ConvertModel` on a freshly appended
node keeps it, and appending a parentless node that lists all meshes keeps
it. -/
theorem beforeTransfer_node_invariant [FloatOps F] (cfg : BuildConfig) (doc : Document F)
    (uninit fuel : Nat) (Q : Converter F → Prop)
    (hframe : ∀ s s' : Converter F, Q s → s'.meshes = s.meshes →
      s'.meshes_converted = s.meshes_converted → s'.nodes = s.nodes → Q s')
    (hnode : ∀ s s' : Converter F, Q s → s'.meshes = s.meshes →
      s'.meshes_converted = s.meshes_converted → ∀ name meshes,
      (∀ i ∈ meshes, i < s.meshes.length) →
      s'.nodes = s.nodes ++ [⟨name, none, [], meshes⟩] → Q s')
    (hmodel : ∀ s model parent s2, Q s → model ∈ doc.models →
      ConvertModel cfg model s.nodes.length
        { s with nodes := s.nodes ++ [⟨model.Name, some parent, [], []⟩] } = Except.ok s2 →
      Q s2)
    (h0 : Q (Converter.initial uninit)) (s : Converter F)
    (h : Converter.beforeTransfer cfg doc uninit fuel = Except.ok s) : Q s := by
  obtain ⟨s1, s2, h1, h2, hn, _, hm, _, _, hgc, _, _⟩ :=
    beforeTransfer_eq cfg doc uninit fuel s h
  have hq1 : Q s1 := by
    unfold ConvertRootNode at h1
    refine ConvertNodes_node_invariant cfg doc Q (fun s msg hq => hframe s _ hq rfl rfl rfl)
      hmodel fuel 0 _ _ s1 ?_ h1
    refine hnode _ _ h0 rfl rfl "Model::RootNode" [] (fun i hi => by cases hi) ?_
    simp [Converter.modifyNode, Converter.newNode, Converter.initial]
  have hq2 : Q s2 := by
    rw [h2]
    split_ifs
    · obtain ⟨f1, f2, f3⟩ := readAllMaterials_frame cfg doc.Objects s1
      exact hframe _ _ hq1 f1 f2 f3
    · exact hq1
  exact hnode s2 s hq2 hm hgc "" (List.range s2.meshes.length)
    (fun i hi => List.mem_range.mp hi) hn

theorem NodeMeshesBounded_beforeTransfer [FloatOps F] (cfg : BuildConfig) (doc : Document F)
    (uninit fuel : Nat) (s : Converter F)
    (h : Converter.beforeTransfer cfg doc uninit fuel = Except.ok s) : s.NodeMeshesBounded := by
  refine beforeTransfer_node_invariant cfg doc uninit fuel (fun s => s.NodeMeshesBounded)
    ?_ ?_ ?_ ?_ s h
  · intro s s' hq h1 h2 h3
    exact ⟨by rw [h1, h2]; exact hq.cache, by rw [h1, h3]; exact hq.nodes⟩
  · intro s s' hq h1 h2 name meshes hb h3
    refine ⟨by rw [h1, h2]; exact hq.cache, ?_⟩
    intro node hnode
    rw [h3] at hnode
    rw [h1]
    simp only [List.mem_append, List.mem_singleton] at hnode
    rcases hnode with hnode | hnode
    · exact hq.nodes node hnode
    · subst hnode
      exact ⟨rfl, hb⟩
  · intro s model parent s2 hq _ hcm
    refine NodeMeshesBounded_ConvertModel cfg model _ _ s2 ?_ hcm
    refine ⟨hq.cache, ?_⟩
    intro node hnode
    simp only [List.mem_append, List.mem_singleton] at hnode
    rcases hnode with hnode | hnode
    · exact hq.nodes node hnode
    · subst hnode
      exact ⟨rfl, fun i hi => by cases hi⟩
  · exact ⟨fun k e he => (by cases he), fun node hn => (by cases hn)⟩

theorem Extends_refl (s : Converter F) : s.Extends s := ⟨fun _ _ h => h, fun _ _ h => h⟩

theorem Extends_trans (s t u : Converter F) (h1 : s.Extends t) (h2 : t.Extends u) :
    s.Extends u :=
  ⟨fun k e h => h2.1 k e (h1.1 k e h), fun i m h => h2.2 i m (h1.2 i m h)⟩

theorem isEmpty_false_of_ne_nil {α : Type} (l : List α) (h : l ≠ []) : l.isEmpty = false := by
  cases l with
  | nil => exact absurd rfl h
  | cons a l => rfl

theorem ne_nil_of_isEmpty_false {α : Type} (l : List α) (h : l.isEmpty = false) : l ≠ [] := by
  intro hl; subst hl; cases h

/-- What `ConvertMesh` does to a sound cache, for a geometry attached to a
model of a document whose addresses identify its geometries: the cache stays
sound, nothing is lost, and the index returned is 0 exactly for an empty
geometry and otherwise one more than the index of a mesh with the vertices of
the geometry. -/
theorem MeshCacheSound_ConvertMesh [FloatOps F] (cfg : BuildConfig) (doc : Document F)
    (hdoc : doc.AddressesIdentify) (mesh : MeshGeometry F) (model : Model F)
    (hmodel : model ∈ doc.models) (hmesh : Geometry.mesh mesh ∈ model.GetGeometry)
    (s : Converter F) (r : Nat) (s' : Converter F) (hc : s.MeshCacheSound doc)
    (h : ConvertMesh cfg mesh model s = Except.ok (r, s')) :
    s'.MeshCacheSound doc ∧ s.Extends s' ∧ s'.nodes = s.nodes ∧
    (r = 0 → (mesh.vertices.isEmpty || mesh.faces.isEmpty) = true) ∧
    (r ≠ 0 → (mesh.vertices.isEmpty || mesh.faces.isEmpty) = false ∧
      ∃ m, s'.meshes[r - 1]? = some m ∧ m.mVertices = mesh.vertices) := by
  rcases ConvertMesh_cases cfg mesh model s r s' h with
    ⟨e, he, hr, hs⟩ | ⟨hno, hempty, hr, hm, hmc, hn⟩ | ⟨hno, hv, hf, hr, ⟨m, hmv, hm⟩, hmc, hn⟩
  · subst hs
    obtain ⟨g, i⟩ := e
    obtain ⟨c1, c2, c3, ⟨model2, hmodel2, hg2⟩, m, hm, hmv⟩ := hc _ g i he
    have hg : g = mesh := hdoc model2 hmodel2 model hmodel g mesh hg2 hmesh c1
    subst hg
    refine ⟨hc, Extends_refl _, rfl, fun h0 => by simp [hr] at h0, fun _ => ⟨?_, m, ?_, hmv⟩⟩
    · simp [isEmpty_false_of_ne_nil _ c2, isEmpty_false_of_ne_nil _ c3]
    · simpa [hr] using hm
  · refine ⟨?_, ⟨fun k e hk => by rw [hmc]; exact hk, fun i m hi => by rw [hm]; exact hi⟩, hn,
      ?_, fun h0 => absurd hr h0⟩
    · intro k g i hk
      rw [hmc] at hk
      rw [hm]
      exact hc k g i hk
    · intro _
      rcases hempty with h | h <;> simp [h]
  · have hext : s.Extends s' := by
      refine ⟨?_, ?_⟩
      · intro k e hk
        rw [hmc]
        have hne : mesh.addr ≠ k := by
          intro hk2
          rw [← hk2, hno] at hk
          cases hk
        rw [mapFind_mapInsert_of_ne _ _ _ _ hne]
        exact hk
      · intro i m0 hi
        rw [hm]
        have hlt : i < s.meshes.length := (List.getElem?_eq_some_iff.mp hi).1
        rw [List.getElem?_append_left hlt]
        exact hi
    refine ⟨?_, hext, hn, fun h0 => by simp [hr] at h0, fun _ => ⟨?_, m, ?_, hmv⟩⟩
    · intro k g i hk
      rw [hmc] at hk
      by_cases hka : mesh.addr = k
      · subst hka
        rw [mapFind_mapInsert_self] at hk
        cases hk
        refine ⟨rfl, hv, hf, ⟨model, hmodel, hmesh⟩, m, ?_, hmv⟩
        rw [hm]
        simp
      · rw [mapFind_mapInsert_of_ne _ _ _ _ hka] at hk
        obtain ⟨c1, c2, c3, c4, m0, hm0, hmv0⟩ := hc k g i hk
        exact ⟨c1, c2, c3, c4, m0, hext.2 i m0 hm0, hmv0⟩
    · simp [isEmpty_false_of_ne_nil _ hv, isEmpty_false_of_ne_nil _ hf]
    · rw [hm, hr]
      simp

theorem foldlM_except_prefix {σ α ε : Type} (f : σ → α → Except ε σ)
    (P : List α → σ → Prop) (L : List α)
    (hstep : ∀ pre a st st', a ∈ L → P pre st → f st a = Except.ok st' → P (pre ++ [a]) st') :
    ∀ (l pre : List α) (st st' : σ), (∀ a ∈ l, a ∈ L) → P pre st →
      l.foldlM f st = Except.ok st' → P (pre ++ l) st' := by
  intro l
  induction l with
  | nil =>
    intro pre st st' _ hp h
    simp only [List.foldlM_nil, pure, Except.pure] at h
    cases h
    simpa using hp
  | cons a l ih =>
    intro pre st st' hl hp h
    simp only [List.foldlM_cons, bind, Except.bind] at h
    cases hf : f st a with
    | error e => rw [hf] at h; cases h
    | ok st1 =>
      rw [hf] at h
      have := ih (pre ++ [a]) st1 st' (fun x hx => hl x (List.mem_cons_of_mem a hx))
        (hstep pre a st st1 (hl a (List.mem_cons_self a l)) hp hf) h
      simpa using this

theorem MeshesOf_mono (m1 m2 : List (aiMesh F)) (gs : List (MeshGeometry F)) (is : List Nat)
    (hext : ∀ (i : Nat) m, m1[i]? = some m → m2[i]? = some m) (h : MeshesOf m1 gs is) :
    MeshesOf m2 gs is := by
  unfold MeshesOf at *
  refine List.Forall₂.imp ?_ h
  rintro g i ⟨m, hm, hv⟩
  exact ⟨m, hext i m hm, hv⟩

theorem NodeOfModel_mono (doc : Document F) (m1 m2 : List (aiMesh F)) (node : aiNode)
    (hext : ∀ (i : Nat) m, m1[i]? = some m → m2[i]? = some m) (h : NodeOfModel doc m1 node) :
    NodeOfModel doc m2 node := by
  rcases h with h | ⟨model, hmodel, hname, hm⟩
  · exact Or.inl h
  · exact Or.inr ⟨model, hmodel, hname, MeshesOf_mono m1 m2 _ _ hext hm⟩

/-- The non-empty mesh geometries among a list of geometries, in order. -/
theorem nonEmptyMeshes_append_mesh (pre : List (Geometry F)) (g : MeshGeometry F) :
    (pre ++ [Geometry.mesh g]).filterMap (fun geo =>
      match geo with
      | Geometry.mesh g => if g.vertices.isEmpty || g.faces.isEmpty then none else some g
      | Geometry.other _ => none) =
    pre.filterMap (fun geo =>
      match geo with
      | Geometry.mesh g => if g.vertices.isEmpty || g.faces.isEmpty then none else some g
      | Geometry.other _ => none) ++
      (if g.vertices.isEmpty || g.faces.isEmpty then [] else [g]) := by
  rw [List.filterMap_append]
  congr 1
  simp only [List.filterMap_cons, List.filterMap_nil]
  split_ifs <;> rfl

theorem NodesOfModels_ConvertModel [FloatOps F] (cfg : BuildConfig) (doc : Document F)
    (hdoc : doc.AddressesIdentify) (model : Model F) (hmodel : model ∈ doc.models)
    (parent : Nat) (s s2 : Converter F) (hq : s.NodesOfModels doc)
    (h : ConvertModel cfg model s.nodes.length
      { s with nodes := s.nodes ++ [⟨model.Name, some parent, [], []⟩] } = Except.ok s2) :
    s2.NodesOfModels doc := by
  obtain ⟨acc, t, hfold, hm, hmc, hn⟩ := ConvertModel_eq cfg model _ _ s2 h
  have hp := foldlM_except_prefix (convertModelStep cfg model)
    (fun pre st => st.2.MeshCacheSound doc ∧ s.Extends st.2 ∧
      st.2.nodes = s.nodes ++ [⟨model.Name, some parent, [], []⟩] ∧
      MeshesOf st.2.meshes (pre.filterMap fun geo =>
        match geo with
        | Geometry.mesh g => if g.vertices.isEmpty || g.faces.isEmpty then none else some g
        | Geometry.other _ => none) st.1) model.GetGeometry ?_ model.GetGeometry []
    (([] : List Nat), { s with nodes := s.nodes ++ [⟨model.Name, some parent, [], []⟩] })
    (acc, t) (fun a ha => ha) ?_ hfold
  rotate_left
  · rintro pre geo st0 st1 hgeo ⟨p1, p2, p3, p4⟩ hs
    rcases convertModelStep_cases cfg model st0 st1 geo hs with
      ⟨mesh, r, hg, hcm, hacc⟩ | ⟨name, hg, hacc, hm1, hmc1, hn1⟩
    · subst hg
      obtain ⟨c1, c2, c3, c4, c5⟩ :=
        MeshCacheSound_ConvertMesh cfg doc hdoc mesh model hmodel hgeo st0.2 r st1.2 p1 hcm
      refine ⟨c1, Extends_trans _ _ _ p2 c2, c3.trans p3, ?_⟩
      rw [nonEmptyMeshes_append_mesh, hacc]
      have p4' := MeshesOf_mono _ _ _ _ c2.2 p4
      by_cases hr : r = 0
      · rw [if_pos hr, if_pos (c4 hr), List.append_nil]
        exact p4'
      · obtain ⟨d1, d2⟩ := c5 hr
        rw [if_neg hr, d1]
        simp only [Bool.false_eq_true, if_false]
        exact List.rel_append p4' (List.Forall₂.cons d2 List.Forall₂.nil)
    · subst hg
      refine ⟨?_, ⟨fun k e hk => by rw [hmc1]; exact p2.1 k e hk,
        fun i m hi => by rw [hm1]; exact p2.2 i m hi⟩, hn1.trans p3, ?_⟩
      · intro k g i hk
        rw [hmc1] at hk
        rw [hm1]
        exact p1 k g i hk
      · rw [List.filterMap_append, hacc, hm1]
        simpa using p4
  · exact ⟨hq.cache, Extends_refl _, rfl, List.Forall₂.nil⟩
  obtain ⟨p1, p2, p3, p4⟩ := hp
  simp only [List.nil_append] at p4
  have hnodes : s2.nodes = s.nodes ++ [⟨model.Name, some parent, [], acc⟩] := by
    rw [hn, p3]
    split_ifs with hl
    · simp only [modify_append_singleton]
    · have : acc = [] := List.length_eq_zero.mp (not_not.mp hl)
      rw [this]
  constructor
  · intro k g i hk
    rw [hmc] at hk
    rw [hm]
    exact p1 k g i hk
  · intro node hnode
    rw [hnodes] at hnode
    rw [hm]
    simp only [List.mem_append, List.mem_singleton] at hnode
    rcases hnode with hnode | hnode
    · exact NodeOfModel_mono doc _ _ node p2.2 (hq.nodes node hnode)
    · subst hnode
      exact Or.inr ⟨model, hmodel, rfl, p4⟩

theorem NodesOfModels_beforeTransfer [FloatOps F] (cfg : BuildConfig) (doc : Document F)
    (hdoc : doc.AddressesIdentify) (uninit fuel : Nat) (s : Converter F)
    (h : Converter.beforeTransfer cfg doc uninit fuel = Except.ok s) : s.NodesOfModels doc := by
  refine beforeTransfer_node_invariant cfg doc uninit fuel (fun s => s.NodesOfModels doc)
    ?_ ?_ ?_ ?_ s h
  · intro s s' hq h1 h2 h3
    refine ⟨?_, by rw [h1, h3]; exact hq.nodes⟩
    intro k g i hk
    rw [h2] at hk
    rw [h1]
    exact hq.cache k g i hk
  · intro s s' hq h1 h2 name meshes _ h3
    refine ⟨?_, ?_⟩
    · intro k g i hk
      rw [h2] at hk
      rw [h1]
      exact hq.cache k g i hk
    · intro node hnode
      rw [h3] at hnode
      rw [h1]
      simp only [List.mem_append, List.mem_singleton] at hnode
      rcases hnode with hnode | hnode
      · exact hq.nodes node hnode
      · subst hnode
        exact Or.inl rfl
  · intro s model parent s2 hq hmodel hcm
    exact NodesOfModels_ConvertModel cfg doc hdoc model hmodel parent s s2 hq hcm
  · exact ⟨fun k g i he => (by cases he), fun node hn => (by cases hn)⟩

/-- The addresses 100, 200 and 300 identify the geometries of the example
document. -/
theorem nodeMeshesDocument_addresses : nodeMeshesDocument.AddressesIdentify := by
  intro m1 h1 m2 h2 g1 g2 hg1 hg2 ha
  simp only [Document.models, nodeMeshesDocument, List.filterMap_cons, List.filterMap_nil,
    List.mem_cons, List.mem_singleton, List.not_mem_nil, or_false] at h1 h2
  rcases h1 with h1 | h1 <;> rcases h2 with h2 | h2 <;> subst h1 <;> subst h2 <;>
    simp only [List.mem_cons, List.mem_singleton, List.not_mem_nil, or_false,
      Geometry.mesh.injEq, reduceCtorEq, false_or, or_false] at hg1 hg2 <;>
    rcases hg1 with hg1 | hg1 <;> rcases hg2 with hg2 | hg2 <;> subst hg1 <;> subst hg2 <;>
    first
      | rfl
      | (exact absurd ha (by decide))

/-- In the self-connected document the traversal from the model's id uses up
every recursion budget. -/
theorem ConvertNodes_selfLoop (cfg : BuildConfig) :
    ∀ (fuel parent : Nat) (s : Converter Int),
      ConvertNodes cfg selfLoopDocument fuel 1 parent s = Except.error Fault.outOfFuel := by
  intro fuel
  induction fuel with
  | zero => intro parent s; rfl
  | succ fuel ih =>
    intro parent s
    unfold ConvertNodes
    have hc : selfLoopDocument.GetConnectionsByDestinationSequenced 1 = [⟨1, 1, ""⟩] := by
      decide
    have ho : Connection.SourceObject selfLoopDocument ⟨1, 1, ""⟩ = some (Object.model
        { ID := 1, Name := "Model::a", GetGeometry := [], GetMaterials := [] }) := by decide
    simp only [hc, List.foldlM_cons, List.foldlM_nil, ho, ConvertModel, bind, Except.bind,
      pure, Except.pure, ih]
    rfl

/-- In the document with a cycle of two models the traversal from either
model's id uses up every recursion budget. -/
theorem ConvertNodes_cycle (cfg : BuildConfig) :
    ∀ (fuel : Nat),
      (∀ (parent : Nat) (s : Converter Int),
        ConvertNodes cfg cycleDocument fuel 1 parent s = Except.error Fault.outOfFuel) ∧
      (∀ (parent : Nat) (s : Converter Int),
        ConvertNodes cfg cycleDocument fuel 2 parent s = Except.error Fault.outOfFuel) := by
  intro fuel
  induction fuel with
  | zero => exact ⟨fun parent s => rfl, fun parent s => rfl⟩
  | succ fuel ih =>
    have hc1 : cycleDocument.GetConnectionsByDestinationSequenced 1 = [⟨2, 1, ""⟩] := by
      decide
    have hc2 : cycleDocument.GetConnectionsByDestinationSequenced 2 = [⟨1, 2, ""⟩] := by
      decide
    have ho1 : Connection.SourceObject cycleDocument ⟨2, 1, ""⟩ = some (Object.model
        { ID := 2, Name := "Model::b", GetGeometry := [], GetMaterials := [] }) := by decide
    have ho2 : Connection.SourceObject cycleDocument ⟨1, 2, ""⟩ = some (Object.model
        { ID := 1, Name := "Model::a", GetGeometry := [], GetMaterials := [] }) := by decide
    refine ⟨?_, ?_⟩
    · intro parent s
      unfold ConvertNodes
      simp only [hc1, List.foldlM_cons, List.foldlM_nil, ho1, ConvertModel, bind, Except.bind,
        pure, Except.pure, ih.2]
      rfl
    · intro parent s
      unfold ConvertNodes
      simp only [hc2, List.foldlM_cons, List.foldlM_nil, ho2, ConvertModel, bind, Except.bind,
        pure, Except.pure, ih.1]
      rfl

/-- The face loop from any state: the runs written are consecutive modulo
`uintSize`, so the concatenation of the faces grows by the numbers from the
cursor on, reduced modulo `uintSize`. -/
theorem foldl_faceStep_join (faces : List Nat) :
    ∀ st : FaceLoopState, st.cursor < uintSize →
      (faces.foldl faceStep st).mFaces.flatten =
        st.mFaces.flatten ++ (List.range' st.cursor faces.sum).map fun x => x % uintSize := by
  induction faces with
  | nil => intro st _; simp
  | cons n faces ih =>
    intro st h
    rw [List.foldl_cons, ih _ (by rw [faceStep_eq st n h]; exact Nat.mod_lt _ (by decide)),
      faceStep_eq st n h]
    simp only [List.flatten_append, List.flatten_cons, List.flatten_nil, List.append_nil,
      List.sum_cons, List.append_assoc, range'_map_mod, ← List.map_append,
      List.range'_append_1]
    rw [Nat.add_comm]

/-- The concatenation of the faces of the face loop is `0, 1, ..., n-1` reduced
modulo `uintSize`, for `n` the sum of the face sizes. -/
theorem generateFaces_join_wrap (faces : List Nat) :
    (generateFaces faces).mFaces.flatten =
      (List.range faces.sum).map fun x => x % uintSize := by
  unfold generateFaces
  rw [foldl_faceStep_join _ _ (by decide)]
  simp [List.range_eq_range']

/-- The concatenation of the faces of the face loop is `0, 1, ..., n-1` for
`n` the sum of the face sizes, when that sum is at most `uintSize`. -/
theorem generateFaces_join (faces : List Nat) (hb : faces.sum ≤ uintSize) :
    (generateFaces faces).mFaces.flatten = List.range faces.sum := by
  rw [generateFaces_join_wrap, List.range_eq_range', range'_map_mod_of_le _ _ (by omega)]

/-- An array copy of a source that fills the array is the source. -/
theorem newArrayCopy_full {α : Type} (n : Nat) (d : α) (src : List α) (h : src.length = n) :
    newArrayCopy n d src = Except.ok src := by
  rw [newArrayCopy_ok n d src (by omega), h, Nat.sub_self]
  simp

/-- What `buildMesh` returns holds the channels its two channel loops wrote,
with component count 2 for every UV channel. -/
theorem buildMesh_channels [FloatOps F] (cfg : BuildConfig) (mesh : MeshGeometry F)
    (m : aiMesh F) (h : buildMesh cfg mesh = Except.ok m) :
    copyTextureCoords mesh mesh.vertices.length cfg.AI_MAX_NUMBER_OF_TEXTURECOORDS 0
      = Except.ok m.mTextureCoords ∧
    m.mNumUVComponents = m.mTextureCoords.map (fun _ => 2) ∧
    copyVertexColors mesh mesh.vertices.length cfg.AI_MAX_NUMBER_OF_COLOR_SETS 0
      = Except.ok m.mColors := by
  unfold buildMesh at h
  simp only [convertNormals_self, Except.bind] at h
  split at h
  · cases h
  · split at h
    · cases h
    · rename_i uv huv
      split at h
      · cases h
      · rename_i cols hcols
        cases h
        exact ⟨huv, rfl, hcols⟩

/-- The loop "copy texture coords" when every channel is empty or has one
entry for each vertex: it writes channel `i + d` exactly when `d` is below the
number of iterations and the channels `i, ..., i + d` are all non-empty, and
what it writes is the source channel with a third component 0. -/
theorem copyTextureCoords_spec [FloatOps F] (mesh : MeshGeometry F) (n : Nat)
    (hsz : ∀ j, (mesh.GetTextureCoords j).length = 0 ∨ (mesh.GetTextureCoords j).length = n) :
    ∀ (k i : Nat) (uv : List (List (aiVector3D F))),
      copyTextureCoords mesh n k i = Except.ok uv →
      (∀ d, d < uv.length ↔ d < k ∧ ∀ j, j ≤ d → mesh.GetTextureCoords (i + j) ≠ []) ∧
      (∀ d, d < uv.length → uv[d]? = some ((mesh.GetTextureCoords (i + d)).map
        fun v => (⟨v.x, v.y, FloatOps.zero⟩ : aiVector3D F))) := by
  intro k
  induction k with
  | zero =>
    intro i uv h
    unfold copyTextureCoords at h
    cases h
    simp
  | succ k ih =>
    intro i uv h
    unfold copyTextureCoords at h
    simp only at h
    split_ifs at h with he
    · cases h
      have hnil : mesh.GetTextureCoords i = [] := List.isEmpty_iff.mp he
      refine ⟨?_, fun d hd => absurd hd (by simp)⟩
      intro d
      simp only [List.length_nil, Nat.not_lt_zero, false_iff, not_and, not_forall]
      intro _
      exact ⟨0, Nat.zero_le d, by simpa using hnil⟩
    · have hne : mesh.GetTextureCoords i ≠ [] := by
        intro hnil
        rw [hnil] at he
        exact he rfl
      have hlen : (mesh.GetTextureCoords i).length = n := by
        rcases hsz i with h0 | h0
        · exact absurd (List.length_eq_zero.mp h0) hne
        · exact h0
      rw [newArrayCopy_full _ _ _ (by simpa using hlen)] at h
      simp only [Except.bind] at h
      cases hr : copyTextureCoords mesh n k (i + 1) with
      | error e => rw [hr] at h; cases h
      | ok rest =>
        rw [hr] at h
        cases h
        obtain ⟨ih1, ih2⟩ := ih (i + 1) rest hr
        refine ⟨?_, ?_⟩
        · intro d
          cases d with
          | zero =>
            simp only [List.length_cons, Nat.zero_lt_succ, Nat.le_zero_eq, forall_eq,
              Nat.add_zero, true_and, true_iff]
            exact hne
          | succ d =>
            simp only [List.length_cons, Nat.add_lt_add_iff_right, ih1 d]
            constructor
            · rintro ⟨hk, hall⟩
              refine ⟨hk, ?_⟩
              intro j hj
              cases j with
              | zero => exact hne
              | succ j =>
                have := hall j (by omega)
                rwa [Nat.add_assoc, Nat.add_comm 1 j] at this
            · rintro ⟨hk, hall⟩
              refine ⟨hk, ?_⟩
              intro j hj
              have := hall (j + 1) (by omega)
              rwa [Nat.add_assoc, Nat.add_comm 1 j]
        · intro d hd
          cases d with
          | zero => simp
          | succ d =>
            simp only [List.length_cons, Nat.add_lt_add_iff_right] at hd
            simp only [List.getElem?_cons_succ, ih2 d hd]
            rw [Nat.add_assoc, Nat.add_comm 1 d]

/-- The loop "copy vertex colors" when every colour set is empty or has one
entry for each vertex: it writes set `i + d` exactly when `d` is below the
number of iterations and the sets `i, ..., i + d` are all non-empty, and what
it writes is the source set. -/
theorem copyVertexColors_spec [FloatOps F] (mesh : MeshGeometry F) (n : Nat)
    (hsz : ∀ j, (mesh.GetVertexColors j).length = 0 ∨ (mesh.GetVertexColors j).length = n) :
    ∀ (k i : Nat) (cols : List (List (aiColor4D F))),
      copyVertexColors mesh n k i = Except.ok cols →
      (∀ d, d < cols.length ↔ d < k ∧ ∀ j, j ≤ d → mesh.GetVertexColors (i + j) ≠ []) ∧
      (∀ d, d < cols.length → cols[d]? = some (mesh.GetVertexColors (i + d))) := by
  intro k
  induction k with
  | zero =>
    intro i cols h
    unfold copyVertexColors at h
    cases h
    simp
  | succ k ih =>
    intro i cols h
    unfold copyVertexColors at h
    simp only at h
    split_ifs at h with he
    · cases h
      have hnil : mesh.GetVertexColors i = [] := List.isEmpty_iff.mp he
      refine ⟨?_, fun d hd => absurd hd (by simp)⟩
      intro d
      simp only [List.length_nil, Nat.not_lt_zero, false_iff, not_and, not_forall]
      intro _
      exact ⟨0, Nat.zero_le d, by simpa using hnil⟩
    · have hne : mesh.GetVertexColors i ≠ [] := by
        intro hnil
        rw [hnil] at he
        exact he rfl
      have hlen : (mesh.GetVertexColors i).length = n := by
        rcases hsz i with h0 | h0
        · exact absurd (List.length_eq_zero.mp h0) hne
        · exact h0
      rw [newArrayCopy_full _ _ _ hlen] at h
      simp only [Except.bind] at h
      cases hr : copyVertexColors mesh n k (i + 1) with
      | error e => rw [hr] at h; cases h
      | ok rest =>
        rw [hr] at h
        cases h
        obtain ⟨ih1, ih2⟩ := ih (i + 1) rest hr
        refine ⟨?_, ?_⟩
        · intro d
          cases d with
          | zero =>
            simp only [List.length_cons, Nat.zero_lt_succ, Nat.le_zero_eq, forall_eq,
              Nat.add_zero, true_and, true_iff]
            exact hne
          | succ d =>
            simp only [List.length_cons, Nat.add_lt_add_iff_right, ih1 d]
            constructor
            · rintro ⟨hk, hall⟩
              refine ⟨hk, ?_⟩
              intro j hj
              cases j with
              | zero => exact hne
              | succ j =>
                have := hall j (by omega)
                rwa [Nat.add_assoc, Nat.add_comm 1 j] at this
            · rintro ⟨hk, hall⟩
              refine ⟨hk, ?_⟩
              intro j hj
              have := hall (j + 1) (by omega)
              rwa [Nat.add_assoc, Nat.add_comm 1 j]
        · intro d hd
          cases d with
          | zero => simp
          | succ d =>
            simp only [List.length_cons, Nat.add_lt_add_iff_right] at hd
            simp only [List.getElem?_cons_succ, ih2 d hd]
            rw [Nat.add_assoc, Nat.add_comm 1 d]

/-- A channel read with a default of the empty list agrees in size when every
channel of the list does. -/
theorem getD_length_agrees {α : Type} (l : List (List α)) (n : Nat)
    (h : ∀ x ∈ l, x.length = 0 ∨ x.length = n) (j : Nat) :
    (l.getD j []).length = 0 ∨ (l.getD j []).length = n := by
  rw [List.getD_eq_getElem?_getD]
  cases hj : l[j]? with
  | none => left; rfl
  | some x => exact h x (List.getElem?_mem hj)

/-- Every UV channel the loop "copy texture coords" writes has one entry for
each vertex. -/
theorem copyTextureCoords_lengths [FloatOps F] (mesh : MeshGeometry F) (n : Nat) :
    ∀ (k i : Nat) (uv : List (List (aiVector3D F))),
      copyTextureCoords mesh n k i = Except.ok uv → ∀ ch ∈ uv, ch.length = n := by
  intro k
  induction k with
  | zero =>
    intro i uv h
    unfold copyTextureCoords at h
    cases h
    intro ch hch
    cases hch
  | succ k ih =>
    intro i uv h
    unfold copyTextureCoords at h
    simp only at h
    split_ifs at h with he
    · cases h
      intro ch hch
      cases hch
    · simp only [Except.bind] at h
      split at h
      · cases h
      · rename_i out_uv ho
        split at h
        · cases h
        · rename_i rest hr
          cases h
          intro ch hch
          rcases List.mem_cons.mp hch with hch | hch
          · subst hch
            exact newArrayCopy_length _ _ _ _ ho
          · exact ih (i + 1) rest hr ch hch

/-- Every colour set the loop "copy vertex colors" writes has one entry for
each vertex. -/
theorem copyVertexColors_lengths [FloatOps F] (mesh : MeshGeometry F) (n : Nat) :
    ∀ (k i : Nat) (cols : List (List (aiColor4D F))),
      copyVertexColors mesh n k i = Except.ok cols → ∀ c ∈ cols, c.length = n := by
  intro k
  induction k with
  | zero =>
    intro i cols h
    unfold copyVertexColors at h
    cases h
    intro c hc
    cases hc
  | succ k ih =>
    intro i cols h
    unfold copyVertexColors at h
    simp only at h
    split_ifs at h with he
    · cases h
      intro c hc
      cases hc
    · simp only [Except.bind] at h
      split at h
      · cases h
      · rename_i out_c ho
        split at h
        · cases h
        · rename_i rest hr
          cases h
          intro c hc
          rcases List.mem_cons.mp hc with hc | hc
          · subst hc
            exact newArrayCopy_length _ _ _ _ ho
          · exact ih (i + 1) rest hr c hc

/-- The tangent and bitangent arrays the block "copy tangents" writes have one
entry for each vertex. -/
theorem convertTangents_lengths [FloatOps F] (cfg : BuildConfig) (n : Nat)
    (normals tangents binormals : List (aiVector3D F))
    (tb : Option (List (aiVector3D F)) × Option (List (aiVector3D F)))
    (h : convertTangents cfg n normals tangents binormals = Except.ok tb) :
    (∀ a, tb.1 = some a → a.length = n) ∧ (∀ a, tb.2 = some a → a.length = n) := by
  unfold convertTangents at h
  split_ifs at h with ht
  · simp only [Except.bind] at h
    split at h
    · cases h
    · rename_i b? hb
      cases b? with
      | none =>
        cases h
        exact ⟨fun a ha => (by cases ha), fun a ha => (by cases ha)⟩
      | some b =>
        simp only at h
        split at h
        · cases h
        · split at h
          · cases h
          · rename_i mT hT
            split at h
            · cases h
            · rename_i mB hB
              cases h
              refine ⟨fun a ha => ?_, fun a ha => ?_⟩
              · cases ha
                exact newArrayCopy_length _ _ _ _ hT
              · cases ha
                exact newArrayCopy_length _ _ _ _ hB
  · cases h
    exact ⟨fun a ha => (by cases ha), fun a ha => (by cases ha)⟩

/-- When `buildMesh` returns, every per-vertex array of the mesh has exactly
one entry for each vertex. -/
theorem buildMesh_lengths [FloatOps F] (cfg : BuildConfig) (mesh : MeshGeometry F)
    (m : aiMesh F) (h : buildMesh cfg mesh = Except.ok m) :
    (∀ a, m.mNormals = some a → a.length = m.mVertices.length) ∧
    (∀ a, m.mTangents = some a → a.length = m.mVertices.length) ∧
    (∀ a, m.mBitangents = some a → a.length = m.mVertices.length) ∧
    (∀ ch ∈ m.mTextureCoords, ch.length = m.mVertices.length) ∧
    (∀ c ∈ m.mColors, c.length = m.mVertices.length) := by
  obtain ⟨_, _, hverts, tb, htb, ht, hbt⟩ := buildMesh_faces cfg mesh m h
  obtain ⟨huv, _, hcol⟩ := buildMesh_channels cfg mesh m h
  obtain ⟨t1, t2⟩ := convertTangents_lengths cfg _ _ _ _ tb htb
  have hn := buildMesh_normals cfg mesh m h
  rw [hverts]
  refine ⟨?_, by rw [ht]; exact t1, by rw [hbt]; exact t2,
    copyTextureCoords_lengths mesh _ _ 0 _ huv, copyVertexColors_lengths mesh _ _ 0 _ hcol⟩
  intro a ha
  rw [hn] at ha
  split_ifs at ha
  cases ha
  rfl

/-- The UV lookup depends on the attachment order: in a conversion where the geometries B and A use the
same material, whose diffuse texture asks for UV set "UV2", A has "UV2" at
index 1 and B has no such channel, but B is attached before A, the material
is converted while only B is in the cache: the recorded UV index is 0 and the
"failed to resolve UV channel" warning is logged. -/
theorem conversion_uv_order_dependence :
    ∃ res, ConvertToAssimpScene exampleConfig uvOrderDocument 0 3 = Except.ok res ∧
      res.scene.mMeshes.map (fun m => m.slotMaterial) = [some 500, some 500] ∧
      uvMeshA.ChannelNamed 4 "UV2" 1 ∧ (∀ k, ¬ uvMeshB.ChannelNamed 4 "UV2" k) ∧
      res.scene.mMaterials.map (fun m => m.props.getLast?)
        = [some ⟨MatKey.UVWSRC_BASE, aiTextureType.DIFFUSE, 0, MatValue.int 0⟩] ∧
      LogEntry.warn ("failed to resolve UV channel " ++ "UV2" ++ ", using first UV channel")
        ∈ res.log := by
  refine ⟨_, rfl, ?_, uvMeshA_channel, uvMeshB_no_channel, ?_, ?_⟩ <;> decide

end Lemmas

/-! ## The claims -/

section Claims

variable {F : Type}

/-- C1: for a geometry with at least one vertex and at least one face size,
`ConvertMesh` returns (it does whenever the per-vertex arrays agree in size
with the vertices), and whenever a first call returns index `r` and state
`s1`, the index is that of a mesh and a second call returns the same `r` and
leaves the state `s1` as it is: nothing is appended to the mesh list, no
material is converted. -/
theorem ConvertMesh_twice [FloatOps F] (cfg : BuildConfig) (mesh : MeshGeometry F)
    (model : Model F) (s : Converter F)
    (hv : mesh.vertices ≠ []) (hf : mesh.faces ≠ []) :
    (mesh.SizesAgree → ∃ r s1, ConvertMesh cfg mesh model s = Except.ok (r, s1)) ∧
    ∀ r s1, ConvertMesh cfg mesh model s = Except.ok (r, s1) →
      r ≠ 0 ∧ ConvertMesh cfg mesh model s1 = Except.ok (r, s1) := by
  refine ⟨ConvertMesh_ok_of_sizesAgree cfg mesh model s, ?_⟩
  intro r s1 h
  cases hc : mapFind s.meshes_converted mesh.addr with
  | some it =>
    have h0 : ConvertMesh cfg mesh model s = Except.ok (it.2 + 1, s) := by
      unfold ConvertMesh
      simp only [hc]
    rw [h0] at h
    cases h
    exact ⟨Nat.succ_ne_zero _, h0⟩
  | none =>
    rw [ConvertMesh_fresh cfg mesh model s hc hv hf] at h
    cases hb : buildMesh cfg mesh with
    | error e => rw [hb] at h; cases h
    | ok out_mesh =>
      rw [hb] at h
      simp only [Except.bind] at h
      cases h
      refine ⟨Nat.succ_ne_zero _, ?_⟩
      have hfr := ConvertMaterialForMesh_frame cfg model (mesh.materialIndices.headD 0)
        { s with meshes_converted := mapInsert s.meshes_converted mesh.addr (mesh, s.meshes.length) }
      unfold ConvertMesh
      simp only [hfr.2.1, mapFind_mapInsert_self]

/-- C1, at the eight-vertex example geometry in a fresh converter. -/
theorem ConvertMesh_twice_witness :
    ∃ r s1, ConvertMesh exampleConfig mixedFaceGeometry (exampleModel [] [])
        (Converter.initial 0) = Except.ok (r, s1) ∧ r ≠ 0 ∧
      ConvertMesh exampleConfig mixedFaceGeometry (exampleModel [] []) s1 = Except.ok (r, s1) := by
  have h := ConvertMesh_twice exampleConfig mixedFaceGeometry (exampleModel [] [])
    (Converter.initial 0) (by decide) (by decide)
  obtain ⟨r, s1, h1⟩ := h.1 (by decide)
  exact ⟨r, s1, h1, h.2 r s1 h1⟩

/-- C2: for a geometry without vertices or without face sizes that is not in
the mesh cache (only non-empty geometries ever are), `ConvertMesh` returns 0,
leaves the mesh list, the material list, both caches and the default-material
index as they are, and adds exactly one warning to the log. -/
theorem ConvertMesh_empty [FloatOps F] (cfg : BuildConfig) (mesh : MeshGeometry F)
    (model : Model F) (s : Converter F)
    (hc : mapFind s.meshes_converted mesh.addr = none)
    (he : mesh.vertices = [] ∨ mesh.faces = []) :
    ∃ s1, ConvertMesh cfg mesh model s = Except.ok (0, s1) ∧
      s1.meshes = s.meshes ∧ s1.materials = s.materials ∧
      s1.materials_converted = s.materials_converted ∧
      s1.meshes_converted = s.meshes_converted ∧
      s1.defaultMaterialIndex = s.defaultMaterialIndex ∧
      s1.log = s.log ++ [LogEntry.warn ("ignoring empty geometry: " ++ mesh.Name)] := by
  have h1 : (mesh.vertices.isEmpty || mesh.faces.isEmpty) = true := by
    rcases he with h | h <;> simp [h]
  refine ⟨s.LogWarn ("ignoring empty geometry: " ++ mesh.Name), ?_, rfl, rfl, rfl, rfl, rfl, rfl⟩
  unfold ConvertMesh
  simp only [hc, h1, if_true]

/-- C2, at a geometry with one vertex and no face in a fresh converter. -/
theorem ConvertMesh_empty_witness :
    ∃ s1, ConvertMesh exampleConfig (exampleGeometry 100 [⟨1, 0, 0⟩] [] [] [])
        (exampleModel [] []) (Converter.initial 0) = Except.ok (0, s1) ∧
      s1.meshes = [] ∧ s1.materials = [] ∧ s1.materials_converted = [] ∧
      s1.meshes_converted = [] ∧ s1.defaultMaterialIndex = 0 ∧
      s1.log = [LogEntry.warn ("ignoring empty geometry: " ++ "Geometry::example")] :=
  ConvertMesh_empty exampleConfig (exampleGeometry 100 [⟨1, 0, 0⟩] [] [] [])
    (exampleModel [] []) (Converter.initial 0) rfl (Or.inr rfl)

/-- C3 (as amended): a fresh geometry with at least one vertex and the
non-empty face-size list `n_0, ..., n_(k-1)` whose sizes sum to at most 2^32
is converted (whenever the per-vertex arrays agree in size with the
vertices), and the mesh produced has exactly `k` faces, face `j` holding the
`n_j` consecutive indices that start at `n_0 + ... + n_(j-1)`. -/
theorem ConvertMesh_faces [FloatOps F] (cfg : BuildConfig) (mesh : MeshGeometry F)
    (model : Model F) (s : Converter F)
    (hc : mapFind s.meshes_converted mesh.addr = none)
    (hv : mesh.vertices ≠ []) (hf : mesh.faces ≠ [])
    (hb : mesh.faces.sum ≤ uintSize) :
    (mesh.SizesAgree → ∃ r s1, ConvertMesh cfg mesh model s = Except.ok (r, s1)) ∧
    ∀ r s1, ConvertMesh cfg mesh model s = Except.ok (r, s1) →
      ∃ m, s1.meshes[r - 1]? = some m ∧ m.mFaces.length = mesh.faces.length ∧
        ∀ j (hj : j < mesh.faces.length),
          m.mFaces[j]? = some (List.range' (mesh.faces.take j).sum mesh.faces[j]) := by
  refine ⟨ConvertMesh_ok_of_sizesAgree cfg mesh model s, ?_⟩
  intro r s1 h
  obtain ⟨out_mesh, i, sm, hbm, hm⟩ := ConvertMesh_produces cfg mesh model s hc hv hf r s1 h
  obtain ⟨h1, _, _, _⟩ := buildMesh_faces cfg mesh out_mesh hbm
  obtain ⟨g2, g3⟩ := generateFaces_spec mesh.faces hb
  refine ⟨_, hm, ?_, ?_⟩
  · simp only [h1, g2]
  · intro j hj
    simp only [h1]
    exact g3 j hj

/-- C3 (as amended), at the face sizes 3, 4, 1: the faces are `[0,1,2]`,
`[3,4,5,6]`, `[7]`. -/
theorem ConvertMesh_faces_witness :
    ∃ r s1 m, ConvertMesh exampleConfig mixedFaceGeometry (exampleModel [] [])
        (Converter.initial 0) = Except.ok (r, s1) ∧ s1.meshes[r - 1]? = some m ∧
      m.mFaces.length = 3 ∧ m.mFaces[0]? = some [0, 1, 2] ∧
      m.mFaces[1]? = some [3, 4, 5, 6] ∧ m.mFaces[2]? = some [7] := by
  have h := ConvertMesh_faces exampleConfig mixedFaceGeometry (exampleModel [] [])
    (Converter.initial 0) rfl (by decide) (by decide) (by decide)
  obtain ⟨r, s1, h1⟩ := h.1 (by decide)
  obtain ⟨m, hm, hl, hj⟩ := h.2 r s1 h1
  exact ⟨r, s1, m, h1, hm, hl, hj 0 (by decide), hj 1 (by decide), hj 2 (by decide)⟩

/-- C3 as stated fails: for a geometry with one vertex and the face sizes
4294967295 and 2 the `unsigned int` cursor wraps after the first index of the
second face, so that face holds `4294967295, 0` and not the consecutive
numbers `4294967295, 4294967296` that start at the size of the first face. -/
theorem ConvertMesh_faces_wrap_counterexample :
    ∃ r s1 m, ConvertMesh exampleConfig wrappingFaceGeometry (exampleModel [] [])
        (Converter.initial 0) = Except.ok (r, s1) ∧ s1.meshes[r - 1]? = some m ∧
      wrappingFaceGeometry.faces = [4294967295, 2] ∧
      m.mFaces[1]? = some [4294967295, 0] ∧
      List.range' 4294967295 2 = [4294967295, 4294967296] := by
  obtain ⟨r, s1, h⟩ := ConvertMesh_ok_of_sizesAgree exampleConfig wrappingFaceGeometry
    (exampleModel [] []) (Converter.initial 0)
    ⟨Or.inl rfl, Or.inl rfl, fun u hu => (by cases hu), fun c hc => (by cases hc)⟩
  obtain ⟨out_mesh, i, sm, hbm, hm⟩ := ConvertMesh_produces exampleConfig wrappingFaceGeometry
    (exampleModel [] []) (Converter.initial 0) rfl (by decide) (by decide) r s1 h
  obtain ⟨h1, _, _, _⟩ := buildMesh_faces exampleConfig wrappingFaceGeometry out_mesh hbm
  have h3 := (generateFaces_wrap wrappingFaceGeometry.faces).2.2 1 (by decide)
  refine ⟨r, s1, _, h, hm, rfl, ?_, rfl⟩
  show out_mesh.mFaces[1]? = some [4294967295, 0]
  rw [h1, h3]
  rfl

/-- C4 (as amended): the primitive-type bitmask of the mesh produced from a
fresh non-empty geometry is the bitwise OR over all faces of POINT for size 1,
LINE for size 2, TRIANGLE for size 3 and POLYGON for every other size, that
is for sizes above 3 and for size 0; the POINT, LINE and TRIANGLE bits are set
exactly when a face of size 1, 2, 3 occurs, the POLYGON bit exactly when some
face size is 0 or exceeds 3. -/
theorem ConvertMesh_primitiveTypes [FloatOps F] (cfg : BuildConfig) (mesh : MeshGeometry F)
    (model : Model F) (s : Converter F)
    (hc : mapFind s.meshes_converted mesh.addr = none)
    (hv : mesh.vertices ≠ []) (hf : mesh.faces ≠ []) :
    (mesh.SizesAgree → ∃ r s1, ConvertMesh cfg mesh model s = Except.ok (r, s1)) ∧
    ∀ r s1, ConvertMesh cfg mesh model s = Except.ok (r, s1) →
      ∃ m, s1.meshes[r - 1]? = some m ∧
        m.mPrimitiveTypes = mesh.faces.foldl (fun acc n => acc |||
          (if n = 1 then aiPrimitiveType_POINT else if n = 2 then aiPrimitiveType_LINE
           else if n = 3 then aiPrimitiveType_TRIANGLE else aiPrimitiveType_POLYGON)) 0 ∧
        (m.mPrimitiveTypes &&& aiPrimitiveType_POINT ≠ 0 ↔ 1 ∈ mesh.faces) ∧
        (m.mPrimitiveTypes &&& aiPrimitiveType_LINE ≠ 0 ↔ 2 ∈ mesh.faces) ∧
        (m.mPrimitiveTypes &&& aiPrimitiveType_TRIANGLE ≠ 0 ↔ 3 ∈ mesh.faces) ∧
        (m.mPrimitiveTypes &&& aiPrimitiveType_POLYGON ≠ 0 ↔ ∃ n ∈ mesh.faces, n = 0 ∨ 3 < n) := by
  refine ⟨ConvertMesh_ok_of_sizesAgree cfg mesh model s, ?_⟩
  intro r s1 h
  obtain ⟨out_mesh, i, sm, hb, hm⟩ := ConvertMesh_produces cfg mesh model s hc hv hf r s1 h
  obtain ⟨_, h2, _, _⟩ := buildMesh_faces cfg mesh out_mesh hb
  refine ⟨_, hm, ?_, ?_⟩
  · simp only [h2, generateFaces_prim, primitiveTypeOf_eq]
  · simp only [h2]
    exact generateFaces_bits mesh.faces

/-- C4 (as amended), at the face sizes 3, 4, 1: the mask is
TRIANGLE | POLYGON | POINT. -/
theorem ConvertMesh_primitiveTypes_witness :
    ∃ r s1 m, ConvertMesh exampleConfig mixedFaceGeometry (exampleModel [] [])
        (Converter.initial 0) = Except.ok (r, s1) ∧ s1.meshes[r - 1]? = some m ∧
      m.mPrimitiveTypes =
        aiPrimitiveType_TRIANGLE ||| aiPrimitiveType_POLYGON ||| aiPrimitiveType_POINT := by
  have h := ConvertMesh_primitiveTypes exampleConfig mixedFaceGeometry (exampleModel [] [])
    (Converter.initial 0) rfl (by decide) (by decide)
  obtain ⟨r, s1, h1⟩ := h.1 (by decide)
  obtain ⟨m, hm, hp, _⟩ := h.2 r s1 h1
  exact ⟨r, s1, m, h1, hm, hp.trans (by decide)⟩

/-- C4 as stated fails: a geometry with one vertex and the single face size 0
yields a mesh whose POLYGON bit is set although no face size exceeds 3. -/
theorem ConvertMesh_polygon_bit_counterexample :
    ∃ r s1 m, ConvertMesh exampleConfig zeroFaceGeometry (exampleModel [] [])
        (Converter.initial 0) = Except.ok (r, s1) ∧ s1.meshes[r - 1]? = some m ∧
      ¬ (m.mPrimitiveTypes &&& aiPrimitiveType_POLYGON ≠ 0 ↔
          ∃ n ∈ zeroFaceGeometry.faces, 3 < n) := by
  refine ⟨1, _, _, rfl, rfl, ?_⟩
  decide

/-- C5, the code at a failing input: for one vertex at `(1,0,0)` with normal
`(0,0,1)`, tangent `(0,1,0)` and no binormals the mesh produced has the source
tangent and the bitangent `(0,0,1)`, which is vertex position x tangent,
whereas normal x tangent is `(-1,0,0)`. -/
theorem ConvertMesh_bitangent_from_positions :
    ∃ r s1 m, ConvertMesh exampleConfig tangentGeometry (exampleModel [] [])
        (Converter.initial 0) = Except.ok (r, s1) ∧ s1.meshes[r - 1]? = some m ∧
      m.mTangents = some tangentGeometry.tangents ∧
      m.mBitangents = some [⟨0, 0, 1⟩] ∧
      List.zipWith aiVector3D.cross tangentGeometry.vertices tangentGeometry.tangents
        = [⟨0, 0, 1⟩] ∧
      List.zipWith aiVector3D.cross tangentGeometry.normals tangentGeometry.tangents
        = [⟨-1, 0, 0⟩] := by
  refine ⟨1, _, _, rfl, rfl, ?_, ?_, ?_, ?_⟩ <;> decide

/-- C6, the code at a failing input: for one vertex with a tangent, no
normals and no binormals the mesh produced carries both tangents and
bitangents. -/
theorem ConvertMesh_tangents_without_normals :
    ∃ r s1 m, ConvertMesh exampleConfig tangentOnlyGeometry (exampleModel [] [])
        (Converter.initial 0) = Except.ok (r, s1) ∧ s1.meshes[r - 1]? = some m ∧
      tangentOnlyGeometry.normals = [] ∧ tangentOnlyGeometry.binormals = [] ∧
      m.mTangents = some [⟨0, 1, 0⟩] ∧ m.mBitangents = some [⟨0, 0, 1⟩] := by
  refine ⟨1, _, _, rfl, rfl, ?_, ?_, ?_, ?_⟩ <;> decide

/-- C7: the mesh produced from a fresh non-empty geometry has tangents if and
only if it has bitangents, whatever tangents, binormals and normals the
geometry has (and a mesh is produced whenever the per-vertex arrays agree in
size with the vertices). -/
theorem ConvertMesh_tangents_iff_bitangents [FloatOps F] (cfg : BuildConfig)
    (mesh : MeshGeometry F) (model : Model F) (s : Converter F)
    (hc : mapFind s.meshes_converted mesh.addr = none)
    (hv : mesh.vertices ≠ []) (hf : mesh.faces ≠ []) :
    (mesh.SizesAgree → ∃ r s1, ConvertMesh cfg mesh model s = Except.ok (r, s1)) ∧
    ∀ r s1, ConvertMesh cfg mesh model s = Except.ok (r, s1) →
      ∃ m, s1.meshes[r - 1]? = some m ∧ (m.mTangents.isSome ↔ m.mBitangents.isSome) := by
  refine ⟨ConvertMesh_ok_of_sizesAgree cfg mesh model s, ?_⟩
  intro r s1 h
  obtain ⟨out_mesh, i, sm, hb, hm⟩ := ConvertMesh_produces cfg mesh model s hc hv hf r s1 h
  obtain ⟨_, _, _, tb, htb, ht, hbt⟩ := buildMesh_faces cfg mesh out_mesh hb
  refine ⟨_, hm, ?_⟩
  have := convertTangents_both cfg _ _ _ _ tb htb
  simp only [ht, hbt, this]

/-- C7, at the example geometry with a tangent and no binormals. -/
theorem ConvertMesh_tangents_iff_bitangents_witness :
    ∃ r s1 m, ConvertMesh exampleConfig tangentGeometry (exampleModel [] [])
        (Converter.initial 0) = Except.ok (r, s1) ∧ s1.meshes[r - 1]? = some m ∧
      (m.mTangents.isSome ↔ m.mBitangents.isSome) := by
  have h := ConvertMesh_tangents_iff_bitangents exampleConfig tangentGeometry
    (exampleModel [] []) (Converter.initial 0) rfl (by decide) (by decide)
  obtain ⟨r, s1, h1⟩ := h.1 (by decide)
  obtain ⟨m, hm, hiff⟩ := h.2 r s1 h1
  exact ⟨r, s1, m, h1, hm, hiff⟩

/-- C8: in the scene of a finished conversion any two meshes whose material
slot holds the same source material have the same material index, that index
holds a material converted from that source, and exactly one material of the
list is converted from it; and no source material has more than one material
converted from it, the eager pass over all materials included. -/
theorem conversion_material_dedup [FloatOps F] (cfg : BuildConfig) (doc : Document F)
    (uninit fuel : Nat) (res : ConversionResult F)
    (h : ConvertToAssimpScene cfg doc uninit fuel = Except.ok res) :
    (∀ m1 ∈ res.scene.mMeshes, ∀ m2 ∈ res.scene.mMeshes, ∀ a,
      m1.slotMaterial = some a → m2.slotMaterial = some a →
        m1.mMaterialIndex = m2.mMaterialIndex ∧
        (∃ mat, res.scene.mMaterials[m1.mMaterialIndex]? = some mat ∧ mat.source = some a) ∧
        (res.scene.mMaterials.filter fun mat => decide (mat.source = some a)).length = 1) ∧
    ∀ a, (res.scene.mMaterials.filter fun mat => decide (mat.source = some a)).length ≤ 1 := by
  obtain ⟨s, hs, hmeshes, hmats, _, _, _⟩ := ConvertToAssimpScene_inv cfg doc uninit fuel res h
  have hc := beforeTransfer_materialsConsistent cfg doc uninit fuel s hs
  rw [hmeshes, hmats]
  have hle : ∀ a, (s.materials.filter fun mat => decide (mat.source = some a)).length ≤ 1 := by
    intro a
    apply filter_length_le_one
    intro i j x y hi hj hx hy
    have h1 := hc.cache_complete i x a hi (of_decide_eq_true hx)
    have h2 := hc.cache_complete j y a hj (of_decide_eq_true hy)
    rw [h1] at h2
    exact Option.some.inj h2
  refine ⟨?_, hle⟩
  intro m1 hm1 m2 hm2 a h1 h2
  have f1 := hc.mesh_slot m1 hm1 a h1
  have f2 := hc.mesh_slot m2 hm2 a h2
  obtain ⟨mat, hmat, hsrc⟩ := hc.cache_sound a _ f1
  refine ⟨?_, ⟨mat, hmat, hsrc⟩, ?_⟩
  · rw [f1] at f2
    exact Option.some.inj f2
  · have hmem : mat ∈ s.materials.filter fun mat => decide (mat.source = some a) := by
      rw [List.mem_filter]
      exact ⟨List.getElem?_mem hmat, decide_eq_true hsrc⟩
    have hpos := List.length_pos_of_mem hmem
    have := hle a
    omega

/-- C8, at a document with two meshes that share one material, with the eager
pass on. -/
theorem conversion_material_dedup_witness :
    ∃ res, ConvertToAssimpScene exampleConfig sharedMaterialDocument 7 3 = Except.ok res ∧
      res.scene.mMeshes.map (fun m => m.slotMaterial) = [some 500, some 500] ∧
      res.scene.mMeshes.map (fun m => m.mMaterialIndex) = [0, 0] ∧
      ∀ a, (res.scene.mMaterials.filter fun mat => decide (mat.source = some a)).length ≤ 1 := by
  refine ⟨_, rfl, ?_, ?_, ?_⟩
  · decide
  · decide
  · exact (conversion_material_dedup exampleConfig sharedMaterialDocument 7 3 _ rfl).2

/-- C9, the code at a failing input: in a fresh converter whose member
`defaultMaterialIndex`, which the constructor does not initialise, holds 7,
`GetDefaultMaterial` returns 6 and appends nothing, and
`ConvertMaterialForMesh` with an out-of-range slot assigns the index 6 while
the material list stays empty. -/
theorem GetDefaultMaterial_uninitialised :
    (GetDefaultMaterial (Converter.initial 7 : Converter Int)).1 = 6 ∧
    (GetDefaultMaterial (Converter.initial 7 : Converter Int)).2.materials = [] ∧
    (ConvertMaterialForMesh exampleConfig (exampleModel [] []) 0
      (Converter.initial 7 : Converter Int)).1 = 6 ∧
    (ConvertMaterialForMesh exampleConfig (exampleModel [] []) 0
      (Converter.initial 7 : Converter Int)).2.materials = [] ∧
    (ConvertMaterialForMesh exampleConfig (exampleModel [] []) 0
      (Converter.initial 7 : Converter Int)).2.log
        = [LogEntry.error "material index out of bounds, ignoring"] := by
  refine ⟨?_, ?_, ?_, ?_, ?_⟩ <;> decide

/-- C10, the code at a failing input: converting a document with one mesh
whose model has no material, in a converter whose uninitialised member
`defaultMaterialIndex` holds 5, ends with a mesh of material index 4 and an
empty material list. -/
theorem conversion_material_index_out_of_range :
    ∃ res, ConvertToAssimpScene exampleConfig noMaterialDocument 5 3 = Except.ok res ∧
      res.scene.mMaterials = [] ∧
      res.scene.mMeshes.map (fun m => m.mMaterialIndex) = [4] := by
  refine ⟨_, rfl, ?_, ?_⟩ <;> decide

/-- C11: in a finished conversion of a document whose addresses identify its
mesh geometries, every mesh index stored on any node of the node arena (the
scene root, the synthetic root and every node built by `ConvertModel`) is
smaller than the number of meshes of the scene, and every node that has a
parent was built for a model of the document, carries its name and lists, in
attachment order, one index for each of the model's mesh geometries with at
least one vertex and one face, the mesh at that index having the vertices of
the geometry. -/
theorem conversion_node_meshes [FloatOps F] (cfg : BuildConfig) (doc : Document F)
    (uninit fuel : Nat) (res : ConversionResult F) (hdoc : doc.AddressesIdentify)
    (h : ConvertToAssimpScene cfg doc uninit fuel = Except.ok res) :
    ∀ node ∈ res.nodes,
      (∀ i ∈ node.mMeshes, i < res.scene.mMeshes.length) ∧
      (node.mParent = none ∨ ∃ model ∈ doc.models, node.mName = model.Name ∧
        MeshesOf res.scene.mMeshes model.nonEmptyMeshes node.mMeshes) := by
  obtain ⟨s, hs, hmeshes, _, _, hnodes, _⟩ := ConvertToAssimpScene_inv cfg doc uninit fuel res h
  intro node hnode
  rw [hnodes] at hnode
  rw [hmeshes]
  exact ⟨((NodeMeshesBounded_beforeTransfer cfg doc uninit fuel s hs).nodes node hnode).2,
    (NodesOfModels_beforeTransfer cfg doc hdoc uninit fuel s hs).nodes node hnode⟩

/-- C11, at a document with two models: the first has an empty geometry, a
geometry of another kind and the mesh geometry at address 100, the second the
mesh geometries at addresses 200 and 100; their nodes list `[0]` and `[1, 0]`. -/
theorem conversion_node_meshes_witness :
    nodeMeshesDocument.AddressesIdentify ∧
    ∃ res, ConvertToAssimpScene exampleConfig nodeMeshesDocument 0 3 = Except.ok res ∧
      res.nodes.map (fun n => (n.mName, n.mParent, n.mMeshes)) =
        [("Model::RootNode", none, []), ("Model::a", some 0, [0]),
         ("Model::b", some 0, [1, 0]), ("", none, [0, 1])] ∧
      res.scene.mMeshes.map (fun m => m.mVertices) = [[⟨1, 0, 0⟩], [⟨0, 1, 0⟩]] ∧
      ∀ node ∈ res.nodes,
        (∀ i ∈ node.mMeshes, i < res.scene.mMeshes.length) ∧
        (node.mParent = none ∨ ∃ model ∈ nodeMeshesDocument.models,
          node.mName = model.Name ∧
          MeshesOf res.scene.mMeshes model.nonEmptyMeshes node.mMeshes) :=
  ⟨nodeMeshesDocument_addresses, _, rfl, rfl, rfl,
    conversion_node_meshes exampleConfig nodeMeshesDocument 0 3 _
      nodeMeshesDocument_addresses rfl⟩

/-- C12, the code at a failing input: for a document with one connection to
the root id 0 that has an empty property name and whose source is a model,
`ConvertRootNode`, that is `ConvertNodes(0, root)`, builds a node named after
the model with the root as parent, but the child list of the root stays
empty. -/
theorem ConvertNodes_links_no_child :
    ∃ s, ConvertRootNode exampleConfig noMaterialDocument 3 (Converter.initial 0)
        = Except.ok s ∧
      noMaterialDocument.GetConnectionsByDestinationSequenced 0 = [⟨1, 0, ""⟩] ∧
      s.nodes.map (fun n => n.mName) = ["Model::RootNode", "Model::a"] ∧
      s.nodes.map (fun n => n.mParent) = [none, some 0] ∧
      s.nodes.map (fun n => n.mChildren) = [[], []] := by
  refine ⟨_, rfl, ?_, ?_, ?_, ?_⟩ <;> decide

/-- C13, the code at a failing input: in the scene converted from a document
with one model and one mesh the root pointer refers to the node allocated
last, whose name is empty and whose mesh indices are `[0]`; the node named
"Model::RootNode" that the traversal filled is node 0 and is not the root. -/
theorem conversion_root_is_unnamed :
    ∃ res, ConvertToAssimpScene exampleConfig noMaterialDocument 0 3 = Except.ok res ∧
      res.scene.mRootNode = some 2 ∧
      res.nodes.map (fun n => n.mName) = ["Model::RootNode", "Model::a", ""] ∧
      res.nodes[2]? = some ⟨"", none, [], [0]⟩ := by
  refine ⟨_, rfl, ?_, ?_, ?_⟩ <;> decide

/-- C14, the code at a failing input: in a conversion where the geometries A
and B, attached in this order, both use slot 1 of their model, which holds the
material M whose diffuse texture asks for UV set "UV2", A has "UV2" at index 1
and B has no such channel, M becomes output material 0 and the lookup
searches the slot indices of the cached geometries for that output index: A
lists slot 1, not 0, and is skipped, so the recorded UV index is 0 and the
"failed to resolve UV channel" warning is logged. -/
theorem conversion_uv_slot_index_mismatch :
    ∃ res, ConvertToAssimpScene exampleConfig uvSlotDocument 0 3 = Except.ok res ∧
      res.scene.mMeshes.map (fun m => m.slotMaterial) = [some 600, some 600] ∧
      res.scene.mMeshes.map (fun m => m.mMaterialIndex) = [0, 0] ∧
      findUVChannel (uvGeometry 100 ["UV1", "UV2"] [1]) "UV2" 4 0 = 1 ∧
      findUVChannel (uvGeometry 200 ["UV1"] [1]) "UV2" 4 0 = -1 ∧
      res.scene.mMaterials.map (fun m => m.props.getLast?)
        = [some ⟨MatKey.UVWSRC_BASE, aiTextureType.DIFFUSE, 0, MatValue.int 0⟩] ∧
      res.log = [LogEntry.warn
        ("failed to resolve UV channel " ++ "UV2" ++ ", using first UV channel")] := by
  refine ⟨_, rfl, ?_, ?_, ?_, ?_, ?_, ?_⟩ <;> decide

/-- C15: `GetColorPropertyFromMaterial` returns the value under `baseName`
(found) when that key holds a vector, whatever the Color and Factor keys hold;
otherwise the value under `baseName + "Color"`, multiplied component by
component by the scalar under `baseName + "Factor"` when that is present and
as it is when not (found); otherwise the zero colour, not found. -/
theorem GetColorPropertyFromMaterial_resolution [FloatOps F] (props : PropertyTable F) (baseName : String) :
    (∀ v, PropertyGet_vec3 props baseName = some v →
      GetColorPropertyFromMaterial props baseName = (⟨v.x, v.y, v.z⟩, true)) ∧
    (PropertyGet_vec3 props baseName = none →
      ∀ c, PropertyGet_vec3 props (baseName ++ "Color") = some c →
        (∀ f, PropertyGet_float props (baseName ++ "Factor") = some f →
          GetColorPropertyFromMaterial props baseName =
            (⟨FloatOps.mul c.x f, FloatOps.mul c.y f, FloatOps.mul c.z f⟩, true)) ∧
        (PropertyGet_float props (baseName ++ "Factor") = none →
          GetColorPropertyFromMaterial props baseName = (⟨c.x, c.y, c.z⟩, true))) ∧
    (PropertyGet_vec3 props baseName = none →
      PropertyGet_vec3 props (baseName ++ "Color") = none →
        GetColorPropertyFromMaterial props baseName =
          (⟨FloatOps.zero, FloatOps.zero, FloatOps.zero⟩, false)) := by
  refine ⟨?_, ?_, ?_⟩
  · intro v hv
    simp only [GetColorPropertyFromMaterial, hv]
  · intro h0 c hc
    refine ⟨?_, ?_⟩
    · intro f hf
      simp only [GetColorPropertyFromMaterial, h0, hc, hf, aiVector3D.scale]
    · intro hf
      simp only [GetColorPropertyFromMaterial, h0, hc, hf]
  · intro h0 h1
    simp only [GetColorPropertyFromMaterial, h0, h1]

/-- C15, at a table with `DiffuseColor = (1,2,3)` and `DiffuseFactor = 2`. -/
theorem GetColorPropertyFromMaterial_resolution_witness :
    GetColorPropertyFromMaterial
      ([("DiffuseColor", PropValue.vec3 ⟨1, 2, 3⟩), ("DiffuseFactor", PropValue.float 2)] :
        PropertyTable Int) "Diffuse" = (⟨2, 4, 6⟩, true) :=
  ((GetColorPropertyFromMaterial_resolution
    ([("DiffuseColor", PropValue.vec3 ⟨1, 2, 3⟩), ("DiffuseFactor", PropValue.float 2)] :
      PropertyTable Int) "Diffuse").2.1 (by decide) ⟨1, 2, 3⟩ (by decide)).1 2 (by decide)

/-- C16: in a finished conversion, when `readAllMaterials` is on every
material object of the document has exactly one entry in the material list of
the scene, whether or not a mesh uses it; when it is off every entry of the
material list is the default material or the material of a slot of a mesh of
the scene. -/
theorem conversion_material_coverage [FloatOps F] (cfg : BuildConfig) (doc : Document F)
    (uninit fuel : Nat) (res : ConversionResult F)
    (h : ConvertToAssimpScene cfg doc uninit fuel = Except.ok res) :
    (doc.readAllMaterials = true → ∀ v ∈ doc.Objects, ∀ mat, v.2 = some (Object.material mat) →
      (res.scene.mMaterials.filter fun m => decide (m.source = some mat.addr)).length = 1) ∧
    (doc.readAllMaterials = false → ∀ m ∈ res.scene.mMaterials,
      m.source = none ∨ ∃ mesh ∈ res.scene.mMeshes, mesh.slotMaterial = m.source) := by
  obtain ⟨s, hs, hmeshes, hmats, _, _, _⟩ := ConvertToAssimpScene_inv cfg doc uninit fuel res h
  rw [hmeshes, hmats]
  refine ⟨?_, ?_⟩
  · intro hr v hv mat hmat
    have hc := beforeTransfer_materialsConsistent cfg doc uninit fuel s hs
    obtain ⟨s1, s2, _, h2, _, _, _, _, hmc, _⟩ := beforeTransfer_eq cfg doc uninit fuel s hs
    have hcov : (mapFind s.materials_converted mat.addr).isSome := by
      rw [hmc, h2]
      simp only [hr, if_true]
      exact readAllMaterials_covers cfg doc.Objects s1 v hv mat hmat
    obtain ⟨i, hi⟩ := Option.isSome_iff_exists.mp hcov
    obtain ⟨m, hm, hsrc⟩ := hc.cache_sound mat.addr i hi
    have hmem : m ∈ s.materials.filter fun m => decide (m.source = some mat.addr) := by
      rw [List.mem_filter]
      exact ⟨List.getElem?_mem hm, decide_eq_true hsrc⟩
    have hpos := List.length_pos_of_mem hmem
    have hle := MaterialsConsistent_count_le_one s hc mat.addr
    omega
  · intro hr
    have hR : s.MaterialsFromMeshes := by
      refine beforeTransfer_invariant_gated cfg doc uninit fuel
        (fun s => s.MaterialsFromMeshes) ?_ ?_ ?_ ?_ s hs
      · intro s s' hp _ h2 h3 _ _ _ _
        intro m hm
        rw [h3] at hm
        rw [h2]
        exact hp m hm
      · intro s mesh model r s' hp hcm
        exact MaterialsFromMeshes_ConvertMesh cfg s mesh model r s' hp hcm
      · intro hr'
        rw [hr] at hr'
        cases hr'
      · intro m hm; cases hm
    exact hR

/-- C16, at a document whose only material object is used by no mesh, with
`readAllMaterials` on: the list holds the default material and that material. -/
theorem conversion_material_coverage_witness :
    ∃ res, ConvertToAssimpScene exampleConfig unusedMaterialDocument 0 3 = Except.ok res ∧
      res.scene.mMaterials.map (fun m => m.source) = [none, some 500] ∧
      (unusedMaterialDocument.readAllMaterials = true →
        ∀ v ∈ unusedMaterialDocument.Objects, ∀ mat, v.2 = some (Object.material mat) →
        (res.scene.mMaterials.filter fun m => decide (m.source = some mat.addr)).length = 1) ∧
      (unusedMaterialDocument.readAllMaterials = false → ∀ m ∈ res.scene.mMaterials,
        m.source = none ∨ ∃ mesh ∈ res.scene.mMeshes, mesh.slotMaterial = m.source) :=
  ⟨_, rfl, rfl, conversion_material_coverage exampleConfig unusedMaterialDocument 0 3 _ rfl⟩

/-- C17, the code at failing inputs: for one vertex at `(1,0,0)` with the
normal `(0,0,1)` the mesh produced has the normals `[(1,0,0)]`, a copy of the
vertex positions; for the same vertex without normals the mesh produced has
these normals too, not none. -/
theorem ConvertMesh_normals_from_positions :
    (∃ r s1 m, ConvertMesh exampleConfig tangentGeometry (exampleModel [] [])
        (Converter.initial 0) = Except.ok (r, s1) ∧ s1.meshes[r - 1]? = some m ∧
      tangentGeometry.normals = [⟨0, 0, 1⟩] ∧ m.mNormals = some [⟨1, 0, 0⟩]) ∧
    (∃ r s1 m, ConvertMesh exampleConfig tangentOnlyGeometry (exampleModel [] [])
        (Converter.initial 0) = Except.ok (r, s1) ∧ s1.meshes[r - 1]? = some m ∧
      tangentOnlyGeometry.normals = [] ∧ m.mNormals = some [⟨1, 0, 0⟩]) := by
  refine ⟨⟨1, _, _, rfl, rfl, ?_, ?_⟩, ⟨1, _, _, rfl, rfl, ?_, ?_⟩⟩ <;> decide

/-- C18: for a texture bound under `propName`, the UV index that
`TrySetTextureProperties` records is, when the UVSet property is a name that
is non-empty and not "default", the index of the channel of that name among
the leading non-empty channels of the first geometry in the order of the mesh
cache that lists the material's output index and has such a channel, whatever
the geometries after it hold, and 0 when no cached geometry is a match; when
UVSet is absent or "default" the recorded index is 0 and nothing is logged. -/
theorem TrySetTextureProperties_uvIndex (cfg : BuildConfig) (s : Converter F)
    (matIndex : Nat) (out_mat : aiMaterial F) (textures : List (String × Texture F))
    (propName : String) (target : aiTextureType) (tex : Texture F)
    (htex : textures.lookup propName = some tex) :
    (∀ uvSet, PropertyGet_string tex.Props "UVSet" = some uvSet → uvSet ≠ "default" →
      uvSet.length ≠ 0 →
      (∀ pre v post (k : Nat), s.meshes_converted = pre ++ v :: post →
        v.2.1.materialIndices.contains matIndex = true →
        v.2.1.ChannelNamed cfg.AI_MAX_NUMBER_OF_TEXTURECOORDS uvSet k →
        (∀ u ∈ pre, u.2.1.materialIndices.contains matIndex = false ∨
          ∀ k', ¬ u.2.1.ChannelNamed cfg.AI_MAX_NUMBER_OF_TEXTURECOORDS uvSet k') →
        (TrySetTextureProperties cfg s matIndex out_mat textures propName target).1.props.getLast?
          = some ⟨MatKey.UVWSRC_BASE, target, 0, MatValue.int (k : Int)⟩) ∧
      ((∀ u ∈ s.meshes_converted, u.2.1.materialIndices.contains matIndex = false ∨
          ∀ k', ¬ u.2.1.ChannelNamed cfg.AI_MAX_NUMBER_OF_TEXTURECOORDS uvSet k') →
        (TrySetTextureProperties cfg s matIndex out_mat textures propName target).1.props.getLast?
          = some ⟨MatKey.UVWSRC_BASE, target, 0, MatValue.int 0⟩)) ∧
    (PropertyGet_string tex.Props "UVSet" = none ∨
        PropertyGet_string tex.Props "UVSet" = some "default" →
      (TrySetTextureProperties cfg s matIndex out_mat textures propName target).1.props.getLast?
        = some ⟨MatKey.UVWSRC_BASE, target, 0, MatValue.int 0⟩ ∧
      (TrySetTextureProperties cfg s matIndex out_mat textures propName target).2 = []) := by
  obtain ⟨hrec, hlog⟩ :=
    TrySetTextureProperties_recorded cfg s matIndex out_mat textures propName target tex htex
  refine ⟨?_, ?_⟩
  · intro uvSet h1 h2 h3
    refine ⟨?_, ?_⟩
    · intro pre v post k hsplit hc hk hpre
      rw [hrec, (resolveUVIndex_first cfg s matIndex tex.Props uvSet h1 h2 h3 pre post v k
        hsplit hc hk hpre).1]
    · intro hall
      rw [hrec, (resolveUVIndex_unmatched cfg s matIndex tex.Props uvSet h1 h2 h3 hall).1]
  · intro h
    rw [hrec, hlog, resolveUVIndex_default cfg s matIndex tex.Props h]
    exact ⟨rfl, rfl⟩

/-- C18, with the cache holding A ("UV2" at index 1) before B. -/
theorem TrySetTextureProperties_uvIndex_witness :
    (TrySetTextureProperties exampleConfig uvCacheState 0 ⟨none, []⟩ (uvMaterial 500).Textures
      "DiffuseColor" aiTextureType.DIFFUSE).1.props.getLast?
      = some ⟨MatKey.UVWSRC_BASE, aiTextureType.DIFFUSE, 0, MatValue.int 1⟩ :=
  ((TrySetTextureProperties_uvIndex exampleConfig uvCacheState 0 ⟨none, []⟩
    (uvMaterial 500).Textures "DiffuseColor" aiTextureType.DIFFUSE uvTexture rfl).1
    "UV2" rfl (by decide) (by decide)).1 [] (100, (uvMeshA, 0)) [(200, (uvMeshB, 1))] 1 rfl
    (by decide) uvMeshA_channel (fun u hu => by cases hu)

/-- C19, the code at a failing input: in a conversion where two geometries
both list output material index 1 and both have the channel "UV2" at index 0,
converting the material with that index logs the warning that the channel
"appears at different positions in meshes", although the positions agree. -/
theorem conversion_uv_warning_on_agreement :
    ∃ res, ConvertToAssimpScene exampleConfig uvAgreeDocument 0 3 = Except.ok res ∧
      findUVChannel (uvGeometry 100 ["UV2"] [0, 1]) "UV2" 4 0 = 0 ∧
      findUVChannel (uvGeometry 200 ["UV2"] [1]) "UV2" 4 0 = 0 ∧
      res.scene.mMaterials.map (fun m => m.props.getLast?)
        = [some ⟨MatKey.NAME, aiTextureType.NONE, 0, MatValue.str "Material::shared"⟩,
           some ⟨MatKey.UVWSRC_BASE, aiTextureType.DIFFUSE, 0, MatValue.int 0⟩] ∧
      LogEntry.warn ("the UV channel named " ++ "UV2" ++
          " appears at different positions in meshes, results will be wrong") ∈ res.log := by
  refine ⟨_, rfl, ?_, ?_, ?_, ?_⟩ <;> decide

/-- C20: the `AddProperty` calls of `SetShadingPropertiesCommon`, in order:
the diffuse colour, when it resolves, goes to the emissive key; after it the
emissive colour, when it resolves, goes to the emissive key as well; the
ambient and the specular colour go to their own keys, each only when it
resolves; then opacity, reflectivity, shininess strength (from "Shininess")
and shininess (from "ShininessExponent"), each only when present. -/
theorem SetShadingPropertiesCommon_writes [FloatOps F] (out_mat : aiMaterial F)
    (props : PropertyTable F) :
    (SetShadingPropertiesCommon out_mat props).props =
      out_mat.props ++
      (if (GetColorPropertyFromMaterial props "Diffuse").2 then
        [⟨MatKey.COLOR_EMISSIVE, aiTextureType.NONE, 0,
          MatValue.color (GetColorPropertyFromMaterial props "Diffuse").1⟩] else []) ++
      (if (GetColorPropertyFromMaterial props "Emissive").2 then
        [⟨MatKey.COLOR_EMISSIVE, aiTextureType.NONE, 0,
          MatValue.color (GetColorPropertyFromMaterial props "Emissive").1⟩] else []) ++
      (if (GetColorPropertyFromMaterial props "Ambient").2 then
        [⟨MatKey.COLOR_AMBIENT, aiTextureType.NONE, 0,
          MatValue.color (GetColorPropertyFromMaterial props "Ambient").1⟩] else []) ++
      (if (GetColorPropertyFromMaterial props "Specular").2 then
        [⟨MatKey.COLOR_SPECULAR, aiTextureType.NONE, 0,
          MatValue.color (GetColorPropertyFromMaterial props "Specular").1⟩] else []) ++
      ((PropertyGet_float props "Opacity").toList.map fun v =>
        ⟨MatKey.OPACITY, aiTextureType.NONE, 0, MatValue.float v⟩) ++
      ((PropertyGet_float props "Reflectivity").toList.map fun v =>
        ⟨MatKey.REFLECTIVITY, aiTextureType.NONE, 0, MatValue.float v⟩) ++
      ((PropertyGet_float props "Shininess").toList.map fun v =>
        ⟨MatKey.SHININESS_STRENGTH, aiTextureType.NONE, 0, MatValue.float v⟩) ++
      ((PropertyGet_float props "ShininessExponent").toList.map fun v =>
        ⟨MatKey.SHININESS, aiTextureType.NONE, 0, MatValue.float v⟩) := by
  simp only [SetShadingPropertiesCommon, addColorIfOk_props, addFloatIfOk_props]

/-- C21: for a fresh geometry with at least one vertex and one face whose UV
channels and colour sets are each empty or have one entry for each vertex,
`ConvertMesh` returns whenever the tangents and binormals agree in size with
the vertices as well, and the mesh it produces has UV channel `i` exactly
when `i` is below `AI_MAX_NUMBER_OF_TEXTURECOORDS` and the source UV channels
`0, ..., i` are all non-empty; each such channel holds `(u, v, 0)` for the
entries `(u, v)` of source channel `i`, with component count 2; the mesh has
colour set `i` exactly when `i` is below `AI_MAX_NUMBER_OF_COLOR_SETS` and the
source colour sets `0, ..., i` are all non-empty, each a copy of the source
set. Neither condition mentions the channels of the other kind. -/
theorem ConvertMesh_channels [FloatOps F] (cfg : BuildConfig) (mesh : MeshGeometry F)
    (model : Model F) (s : Converter F)
    (hc : mapFind s.meshes_converted mesh.addr = none)
    (hv : mesh.vertices ≠ []) (hf : mesh.faces ≠ [])
    (huv : ∀ uvs ∈ mesh.textureCoords, uvs.length = 0 ∨ uvs.length = mesh.vertices.length)
    (hcol : ∀ c ∈ mesh.vertexColors, c.length = 0 ∨ c.length = mesh.vertices.length) :
    (mesh.SizesAgree → ∃ r s1, ConvertMesh cfg mesh model s = Except.ok (r, s1)) ∧
    ∀ r s1, ConvertMesh cfg mesh model s = Except.ok (r, s1) →
      ∃ m, s1.meshes[r - 1]? = some m ∧
        (∀ i, i < m.mTextureCoords.length ↔
          i < cfg.AI_MAX_NUMBER_OF_TEXTURECOORDS ∧
            ∀ j, j ≤ i → mesh.GetTextureCoords j ≠ []) ∧
        (∀ i, i < m.mTextureCoords.length →
          m.mTextureCoords[i]? = some ((mesh.GetTextureCoords i).map
            fun v => (⟨v.x, v.y, FloatOps.zero⟩ : aiVector3D F)) ∧
          m.mNumUVComponents[i]? = some 2) ∧
        (∀ i, i < m.mColors.length ↔
          i < cfg.AI_MAX_NUMBER_OF_COLOR_SETS ∧
            ∀ j, j ≤ i → mesh.GetVertexColors j ≠ []) ∧
        (∀ i, i < m.mColors.length → m.mColors[i]? = some (mesh.GetVertexColors i)) := by
  refine ⟨ConvertMesh_ok_of_sizesAgree cfg mesh model s, ?_⟩
  intro r s1 h
  obtain ⟨out_mesh, i, sm, hb, hm⟩ := ConvertMesh_produces cfg mesh model s hc hv hf r s1 h
  obtain ⟨h1, h2, h3⟩ := buildMesh_channels cfg mesh out_mesh hb
  obtain ⟨u1, u2⟩ := copyTextureCoords_spec mesh mesh.vertices.length
    (getD_length_agrees mesh.textureCoords _ huv) _ 0 _ h1
  obtain ⟨c1, c2⟩ := copyVertexColors_spec mesh mesh.vertices.length
    (getD_length_agrees mesh.vertexColors _ hcol) _ 0 _ h3
  simp only [Nat.zero_add] at u1 u2 c1 c2
  refine ⟨_, hm, u1, ?_, c1, c2⟩
  intro i hi
  refine ⟨u2 i hi, ?_⟩
  show out_mesh.mNumUVComponents[i]? = some 2
  rw [h2, List.getElem?_map, List.getElem?_eq_getElem hi]
  rfl

/-- C21, at a geometry with UV channels 0, 1 and 3 and one colour set: the
mesh has the UV channels 0 and 1 and the colour set 0. -/
theorem ConvertMesh_channels_witness :
    ∃ r s1 m, ConvertMesh exampleConfig channelGeometry (exampleModel [] [])
        (Converter.initial 0) = Except.ok (r, s1) ∧ s1.meshes[r - 1]? = some m ∧
      m.mTextureCoords.length = 2 ∧
      m.mTextureCoords[1]? = some [⟨5, 6, 0⟩, ⟨7, 8, 0⟩] ∧ m.mNumUVComponents[1]? = some 2 ∧
      m.mColors.length = 1 ∧
      m.mColors[0]? = some [⟨1, 0, 0, 1⟩, ⟨0, 1, 0, 1⟩] := by
  have h := ConvertMesh_channels exampleConfig channelGeometry (exampleModel [] [])
    (Converter.initial 0) rfl (by decide) (by decide) (by decide) (by decide)
  obtain ⟨r, s1, h1⟩ := h.1 (by decide)
  obtain ⟨m, hm, u1, u2, c1, c2⟩ := h.2 r s1 h1
  have hu1 : 1 < m.mTextureCoords.length := (u1 1).mpr ⟨by decide, by
    intro j hj
    interval_cases j
    · decide
    · decide⟩
  have hu2 : ¬ 2 < m.mTextureCoords.length := fun h2 => ((u1 2).mp h2).2 2 (Nat.le_refl 2) rfl
  have hc0 : 0 < m.mColors.length := (c1 0).mpr ⟨by decide, by
    intro j hj
    interval_cases j
    decide⟩
  have hc1 : ¬ 1 < m.mColors.length := fun h2 => ((c1 1).mp h2).2 1 (Nat.le_refl 1) rfl
  exact ⟨r, s1, m, h1, hm, by omega, (u2 1 hu1).1, (u2 1 hu1).2, by omega, c2 0 hc0⟩

/-- C22, the code at failing inputs: for a document whose model is connected
to the root and to itself, and for a document in which two models under the
root are connected to each other, `ConvertRootNode`, that is
`ConvertNodes(0, root)`, does not return for any recursion budget: the
recursion goes on without end. -/
theorem ConvertNodes_cycle_never_returns :
    (∀ fuel, ConvertRootNode exampleConfig selfLoopDocument fuel (Converter.initial 0)
      = Except.error Fault.outOfFuel) ∧
    (∀ fuel, ConvertRootNode exampleConfig cycleDocument fuel (Converter.initial 0)
      = Except.error Fault.outOfFuel) := by
  refine ⟨?_, ?_⟩
  · intro fuel
    unfold ConvertRootNode
    cases fuel with
    | zero => rfl
    | succ fuel =>
      unfold ConvertNodes
      have hc : selfLoopDocument.GetConnectionsByDestinationSequenced 0 = [⟨1, 0, ""⟩] := by
        decide
      have ho : Connection.SourceObject selfLoopDocument ⟨1, 0, ""⟩ = some (Object.model
          { ID := 1, Name := "Model::a", GetGeometry := [], GetMaterials := [] }) := by decide
      simp only [hc, List.foldlM_cons, List.foldlM_nil, ho, ConvertModel, bind, Except.bind,
        pure, Except.pure, ConvertNodes_selfLoop]
      rfl
  · intro fuel
    unfold ConvertRootNode
    cases fuel with
    | zero => rfl
    | succ fuel =>
      unfold ConvertNodes
      have hc : cycleDocument.GetConnectionsByDestinationSequenced 0 = [⟨1, 0, ""⟩] := by
        decide
      have ho : Connection.SourceObject cycleDocument ⟨1, 0, ""⟩ = some (Object.model
          { ID := 1, Name := "Model::a", GetGeometry := [], GetMaterials := [] }) := by decide
      simp only [hc, List.foldlM_cons, List.foldlM_nil, ho, ConvertModel, bind, Except.bind,
        pure, Except.pure, (ConvertNodes_cycle exampleConfig fuel).1]
      rfl

/-- C23, the code at failing inputs: for a geometry with one vertex whose
first UV channel has two entries, and for one whose first colour set has two
entries, `ConvertMesh` writes the second entry beyond the one-element array
it allocated, whether or not assertions are compiled in; for a geometry with
one vertex and two tangents the bitangent synthesis loop reads and writes
index 1 of one-element arrays, before any assertion, in both builds. -/
theorem ConvertMesh_writes_out_of_bounds :
    ConvertMesh exampleConfig longUVGeometry (exampleModel [] []) (Converter.initial 0)
      = Except.error Fault.outOfBounds ∧
    ConvertMesh debugConfig longUVGeometry (exampleModel [] []) (Converter.initial 0)
      = Except.error Fault.outOfBounds ∧
    ConvertMesh exampleConfig longColorGeometry (exampleModel [] []) (Converter.initial 0)
      = Except.error Fault.outOfBounds ∧
    ConvertMesh debugConfig longColorGeometry (exampleModel [] []) (Converter.initial 0)
      = Except.error Fault.outOfBounds ∧
    ConvertMesh exampleConfig longTangentGeometry (exampleModel [] []) (Converter.initial 0)
      = Except.error Fault.outOfBounds ∧
    ConvertMesh debugConfig longTangentGeometry (exampleModel [] []) (Converter.initial 0)
      = Except.error Fault.outOfBounds := by
  refine ⟨?_, ?_, ?_, ?_, ?_, ?_⟩ <;> rfl

/-- C24 (as amended): for a fresh geometry with at least one vertex and one
face whose face sizes sum to the number of vertices, that number being less
than 2^32, `ConvertMesh` returns whenever the per-vertex arrays agree in size
with the vertices, and in the mesh it produces the concatenation of the faces
is `0, 1, ..., V-1` for `V` the number of vertices of the mesh: every index of
every face is smaller than `V` and every vertex is referenced exactly once. -/
theorem ConvertMesh_face_indices [FloatOps F] (cfg : BuildConfig) (mesh : MeshGeometry F)
    (model : Model F) (s : Converter F)
    (hc : mapFind s.meshes_converted mesh.addr = none)
    (hv : mesh.vertices ≠ []) (hf : mesh.faces ≠ [])
    (hsum : mesh.faces.sum = mesh.vertices.length)
    (hb : mesh.vertices.length < uintSize) :
    (mesh.SizesAgree → ∃ r s1, ConvertMesh cfg mesh model s = Except.ok (r, s1)) ∧
    ∀ r s1, ConvertMesh cfg mesh model s = Except.ok (r, s1) →
      ∃ m, s1.meshes[r - 1]? = some m ∧
        m.mFaces.flatten = List.range m.mVertices.length ∧
        (∀ f ∈ m.mFaces, ∀ i ∈ f, i < m.mVertices.length) ∧
        ∀ v, v < m.mVertices.length → m.mFaces.flatten.count v = 1 := by
  refine ⟨ConvertMesh_ok_of_sizesAgree cfg mesh model s, ?_⟩
  intro r s1 h
  obtain ⟨out_mesh, i, sm, hbm, hm⟩ := ConvertMesh_produces cfg mesh model s hc hv hf r s1 h
  obtain ⟨h1, _, h3, _⟩ := buildMesh_faces cfg mesh out_mesh hbm
  have hj : out_mesh.mFaces.flatten = List.range out_mesh.mVertices.length := by
    rw [h1, h3, generateFaces_join _ (by omega), hsum]
  refine ⟨_, hm, hj, ?_, ?_⟩
  · intro f hfm i hi
    have : i ∈ out_mesh.mFaces.flatten := List.mem_flatten.mpr ⟨f, hfm, hi⟩
    rw [hj] at this
    exact List.mem_range.mp this
  · intro v hvl
    show out_mesh.mFaces.flatten.count v = 1
    rw [hj]
    exact List.count_eq_one_of_mem (List.nodup_range _) (List.mem_range.mpr hvl)

/-- C24 (as amended), at eight vertices in faces of sizes 3, 4 and 1. -/
theorem ConvertMesh_face_indices_witness :
    ∃ r s1 m, ConvertMesh exampleConfig mixedFaceGeometry (exampleModel [] [])
        (Converter.initial 0) = Except.ok (r, s1) ∧ s1.meshes[r - 1]? = some m ∧
      m.mFaces.flatten = List.range m.mVertices.length ∧
      (∀ f ∈ m.mFaces, ∀ i ∈ f, i < m.mVertices.length) ∧
      ∀ v, v < m.mVertices.length → m.mFaces.flatten.count v = 1 := by
  have h := ConvertMesh_face_indices exampleConfig mixedFaceGeometry (exampleModel [] [])
    (Converter.initial 0) rfl (by decide) (by decide) (by decide) (by decide)
  obtain ⟨r, s1, h1⟩ := h.1 (by decide)
  obtain ⟨m, hm, h2⟩ := h.2 r s1 h1
  exact ⟨r, s1, m, h1, hm, h2⟩

/-- C24 as stated fails: for a geometry with 4294967297 vertices and the face
sizes 4294967295 and 2, which sum to the number of vertices, the `unsigned
int` cursor wraps: the second face holds `4294967295, 0`, so vertex 0 is
referenced a second time, and no index of any face is 4294967296, so that
vertex is referenced by no face. -/
theorem ConvertMesh_face_indices_wrap_counterexample :
    ∃ r s1 m, ConvertMesh exampleConfig wrappingVertexGeometry (exampleModel [] [])
        (Converter.initial 0) = Except.ok (r, s1) ∧ s1.meshes[r - 1]? = some m ∧
      wrappingVertexGeometry.faces.sum = wrappingVertexGeometry.vertices.length ∧
      m.mVertices.length = 4294967297 ∧
      m.mFaces[0]?.bind (fun f => f[0]?) = some 0 ∧
      m.mFaces[1]? = some [4294967295, 0] ∧
      4294967296 ∉ m.mFaces.flatten := by
  have hlen : wrappingVertexGeometry.vertices.length = 4294967297 := by
    simp only [wrappingVertexGeometry, exampleGeometry, List.length_replicate]
  have hv : wrappingVertexGeometry.vertices ≠ [] := by
    intro h0
    rw [h0] at hlen
    cases hlen
  obtain ⟨r, s1, h⟩ := ConvertMesh_ok_of_sizesAgree exampleConfig wrappingVertexGeometry
    (exampleModel [] []) (Converter.initial 0)
    ⟨Or.inl rfl, Or.inl rfl, fun u hu => (by cases hu), fun c hc => (by cases hc)⟩
  obtain ⟨out_mesh, i, sm, hbm, hm⟩ := ConvertMesh_produces exampleConfig wrappingVertexGeometry
    (exampleModel [] []) (Converter.initial 0) rfl hv (by decide) r s1 h
  obtain ⟨h1, _, h2, _⟩ := buildMesh_faces exampleConfig wrappingVertexGeometry out_mesh hbm
  have h3 := (generateFaces_wrap wrappingVertexGeometry.faces).2.2
  have hj := generateFaces_join_wrap wrappingVertexGeometry.faces
  refine ⟨r, s1, _, h, hm, ?_, ?_, ?_, ?_, ?_⟩
  · rw [hlen]; rfl
  · show out_mesh.mVertices.length = 4294967297
    rw [h2, hlen]
  · show out_mesh.mFaces[0]?.bind (fun f => f[0]?) = some 0
    rw [h1, h3 0 (by decide)]
    have hr : List.range' (List.take 0 wrappingVertexGeometry.faces).sum
        wrappingVertexGeometry.faces[0] = 0 :: List.range' 1 4294967294 :=
      List.range'_succ 0 4294967294 1
    rw [hr, List.map_cons, Option.some_bind, List.getElem?_cons_zero]
    rfl
  · show out_mesh.mFaces[1]? = some [4294967295, 0]
    rw [h1, h3 1 (by decide)]
    rfl
  · show 4294967296 ∉ out_mesh.mFaces.flatten
    rw [h1, hj]
    intro hmem
    obtain ⟨x, _, hx⟩ := List.mem_map.mp hmem
    have hlt : x % uintSize < uintSize := Nat.mod_lt _ (by decide)
    rw [hx] at hlt
    exact absurd hlt (by decide)

end Claims

end Assimp.FBX
